import Mathlib

/-!
# vtkPlusOpticalMarkerTracker: pose fusion pipeline

A shallow embedding of `vtkPlusOpticalMarkerTracker.cxx` (PlusLib,
`src/PlusDataCollection/OpticalMarkerTracking`).

Scalars: C++ `double` and `float` values are elements of a linearly ordered
field `K` with a floor function (`ℚ` for evaluation).  The rounding of the two
formats is a parameter of the embedding (`FloatingPoint`); `ieee754` is the
instance on `ℚ` with the formats binary32 and binary64.  C++ `int` values are
`Int` (no overflow is modelled).  A floating value converted to `int` is
truncated toward zero (`toInt`).
-/

namespace PlusLib

/-! ## Scalars -/

/-- Conversion of a floating value to `int` as C++ performs it: truncation
toward zero. -/
def toInt {K : Type} [LinearOrderedField K] [FloorRing K] (v : K) : Int :=
  if 0 ≤ v then ⌊v⌋ else -⌊-v⌋

/-! ## Floating-point arithmetic -/

/-- The floating-point arithmetic of the machine.  `toFloat v` and `toDouble v`
are the `float` and the `double` that the real number `v` rounds to: an
arithmetic operation on two `float`s (two `double`s) yields `toFloat`
(`toDouble`) of the exact result, and a `double` converted to `float` is
rounded by `toFloat`.  An `int` or a `float` converted to `double` keeps its
value.  Every operation is rounded to the format of its C++ type: no
intermediate result is kept in a wider format and no product is fused with a
sum.  Results too large for the format are not modelled.  A quotient by zero
is not a number of `K` (it is an infinity or a NaN): `divisionByZero a` stands
for what `a / 0` yields. -/
structure FloatingPoint (K : Type) where
  toFloat : K → K
  toDouble : K → K
  divisionByZero : K → K

/-- The quotient `a / b` of two `double`s. -/
def FloatingPoint.divide {K : Type} [LinearOrderedField K] (F : FloatingPoint K) (a b : K) : K :=
  if b = 0 then F.divisionByZero a else F.toDouble (a / b)

/-- The properties of rounding to nearest that the proofs use: rounding
commutes with negation, keeps a number that is not negative so, leaves a
`double` as it is, and 1 belongs to both formats. -/
structure FloatingPoint.Lawful {K : Type} [LinearOrderedField K] (F : FloatingPoint K) :
    Prop where
  toFloat_neg : ∀ v, F.toFloat (-v) = -F.toFloat v
  toDouble_neg : ∀ v, F.toDouble (-v) = -F.toDouble v
  toFloat_nonneg : ∀ v, 0 ≤ v → 0 ≤ F.toFloat v
  toDouble_nonneg : ∀ v, 0 ≤ v → 0 ≤ F.toDouble v
  toDouble_idem : ∀ v, F.toDouble (F.toDouble v) = F.toDouble v
  toFloat_one : F.toFloat 1 = 1
  toDouble_one : F.toDouble 1 = 1

/-- Arithmetic without rounding: every number belongs to both formats. -/
def exactArithmetic (K : Type) [LinearOrderedField K] : FloatingPoint K where
  toFloat := fun v => v
  toDouble := fun v => v
  divisionByZero := fun _ => 0

/-! ## vtkMatrix4x4 objects behind smart pointers -/

/-- The sixteen elements of a `vtkMatrix4x4`, row first. -/
abbrev Mat4 (K : Type) := Fin 4 → Fin 4 → K

/-- Content of a matrix after `vtkMatrix4x4::Identity()`. -/
def Mat4.Identity {K : Type} [Zero K] [One K] : Mat4 K :=
  fun i j => if i = j then 1 else 0

/-- Content of a matrix after `vtkMatrix4x4::SetElement(i, j, v)`. -/
def Mat4.SetElement {K : Type} (m : Mat4 K) (i j : Fin 4) (v : K) : Mat4 K :=
  fun a b => if a = i ∧ b = j then v else m a b

/-- Result of `vtkMatrix4x4::GetElement(i, j)`. -/
def Mat4.GetElement {K : Type} (m : Mat4 K) (i j : Fin 4) : K := m i j

/-- The matrix objects reachable through `vtkSmartPointer<vtkMatrix4x4>`
values of type `P`: two pointers that are equal name the same object. -/
abbrev MatrixStore (P K : Type) := P → Mat4 K

/-- Effect of `p->Identity()` on the store. -/
def MatrixStore.Identity {P K : Type} [DecidableEq P] [Zero K] [One K]
    (mem : MatrixStore P K) (p : P) : MatrixStore P K :=
  fun q => if q = p then Mat4.Identity else mem q

/-- Effect of `p->SetElement(i, j, v)` on the store. -/
def MatrixStore.SetElement {P K : Type} [DecidableEq P]
    (mem : MatrixStore P K) (p : P) (i j : Fin 4) (v : K) : MatrixStore P K :=
  fun q => if q = p then (mem p).SetElement i j v else mem q

/-- Result of `p->GetElement(i, j)`. -/
def MatrixStore.GetElement {P K : Type} (mem : MatrixStore P K) (p : P) (i j : Fin 4) : K :=
  (mem p).GetElement i j

/-! ## Component fusion -/

/-- Function `vtkInternal::ComputeComponentFusion`: the output object is reset to the
identity, its rotation block is copied element by element from the optical
matrix (`row`, `col` in 0..2), then elements (0,3) and (1,3) are copied from the
optical matrix and element (2,3) from the depth matrix.  Every read goes
through the store as it is at that moment. -/
def ComputeComponentFusion {P K : Type} [DecidableEq P] [Zero K] [One K]
    (mem : MatrixStore P K)
    (RgbMarkerToCamera DepthMarkerToCamera PreviousMarkerToCamera : P) : MatrixStore P K :=
  let mem := mem.Identity PreviousMarkerToCamera
  let mem := ([0, 1, 2] : List (Fin 4)).foldl (fun mem row =>
    ([0, 1, 2] : List (Fin 4)).foldl (fun mem col =>
      mem.SetElement PreviousMarkerToCamera row col (mem.GetElement RgbMarkerToCamera row col))
      mem) mem
  let mem := mem.SetElement PreviousMarkerToCamera 0 3 (mem.GetElement RgbMarkerToCamera 0 3)
  let mem := mem.SetElement PreviousMarkerToCamera 1 3 (mem.GetElement RgbMarkerToCamera 1 3)
  mem.SetElement PreviousMarkerToCamera 2 3 (mem.GetElement DepthMarkerToCamera 2 3)

/-- Function `vtkInternal::ComputeKalmanFusion`: the body is empty, the three matrix
objects are left as they are. -/
def ComputeKalmanFusion {P K : Type} (mem : MatrixStore P K)
    (RgbMarkerToCamera DepthMarkerToCamera PreviousMarkerToCamera : P) : MatrixStore P K :=
  let _ := RgbMarkerToCamera
  let _ := DepthMarkerToCamera
  let _ := PreviousMarkerToCamera
  mem

/-! ## Marker corners and orientation -/

/-- A `cv::Point2d`: a pixel position with fractional coordinates. -/
structure Point2d (K : Type) where
  x : K
  y : K
deriving DecidableEq

/-- Element `corners[i]` of a `std::vector<cv::Point2d>`.  The source reads
indices 0..3 without a size check; an index past the end yields the origin
here. -/
def cornerAt {K : Type} [Zero K] (corners : List (Point2d K)) (i : Nat) : Point2d K :=
  corners.getD i ⟨0, 0⟩

/-- Modelled from the spec: the enumeration `MARKER_ORIENTATION` is declared in
the header `vtkPlusOpticalMarkerTracker.h`; its three values used by the
source file are the orientation classes skew-left, rotated and skew-right. -/
inductive MARKER_ORIENTATION where
  | SKEW_LEFT
  | ROTATED
  | SKEW_RIGHT
deriving DecidableEq, Repr

open MARKER_ORIENTATION

/-- First loop of `DetermineMarkerOrientation`: `yMin` (a `double`) starts at
`corners[0].y`, `top` at 0, and `i = 1, 2, 3` replaces both when
`corners[i].y < yMin`.  The state is the pair `(yMin, top)`. -/
def DetermineMarkerOrientation.topLoop {K : Type} [LinearOrderedField K]
    (corners : List (Point2d K)) : K × Nat :=
  ([1, 2, 3] : List Nat).foldl (fun s i =>
    if (cornerAt corners i).y < s.1 then ((cornerAt corners i).y, i) else s)
    ((cornerAt corners 0).y, 0)

/-- Second loop: `orderedCorners.push_back(corners[(top + i) % 4])` for
`i = 0, ..., 3`. -/
def DetermineMarkerOrientation.orderedCorners {K : Type} [Zero K]
    (corners : List (Point2d K)) (top : Nat) : List (Point2d K) :=
  ([0, 1, 2, 3] : List Nat).foldl (fun ordered i =>
    ordered ++ [cornerAt corners ((top + i) % 4)]) []

/-- Third loop of `DetermineMarkerOrientation`: `yMax` is declared `int`, so it
starts at the truncated `corners[0].y` and every assignment truncates; the test
`corners[i].y > yMax` compares the untruncated coordinate with it.  The state
is the pair `(yMax, bottom)`. -/
def DetermineMarkerOrientation.bottomLoop {K : Type} [LinearOrderedField K] [FloorRing K]
    (corners : List (Point2d K)) : Int × Nat :=
  ([1, 2, 3] : List Nat).foldl (fun s i =>
    if (cornerAt corners i).y > ((s.1 : Int) : K) then (toInt (cornerAt corners i).y, i) else s)
    (toInt (cornerAt corners 0).y, 0)

/-- The `switch (bottom)` of `DetermineMarkerOrientation`. -/
def DetermineMarkerOrientation.switch (bottom : Nat) : MARKER_ORIENTATION :=
  match bottom with
  | 1 => SKEW_LEFT
  | 2 => ROTATED
  | _ => SKEW_RIGHT

/-- Function `vtkInternal::DetermineMarkerOrientation`: returns the orientation and the
content of the by-reference argument `corners` after the call. -/
def DetermineMarkerOrientation {K : Type} [LinearOrderedField K] [FloorRing K]
    (corners : List (Point2d K)) : MARKER_ORIENTATION × List (Point2d K) :=
  let top := (DetermineMarkerOrientation.topLoop corners).2
  let corners := DetermineMarkerOrientation.orderedCorners corners top
  let bottom := (DetermineMarkerOrientation.bottomLoop corners).2
  (DetermineMarkerOrientation.switch bottom, corners)

/-! ## Boundaries of the marker region -/

/-- Function `vtkInternal::DetermineSlope`: `0.0` for two corners with the same `y`,
otherwise `((float)(corner1.x - corner2.x)) / (corner1.y - corner2.y)`: both
differences are `double`s, the first is narrowed to `float`, the quotient is
taken in `double` and narrowed to the return type `float`. -/
def DetermineSlope {K : Type} [LinearOrderedField K] (F : FloatingPoint K)
    (corner1 corner2 : Point2d K) : K :=
  if corner1.y = corner2.y then 0
  else F.toFloat (F.divide (F.toFloat (F.toDouble (corner1.x - corner2.x)))
    (F.toDouble (corner1.y - corner2.y)))

/-- The values `lo, lo + 1, ..., hi` taken by the counter of
`for (int v = lo; v <= hi; v++)`; none when `hi < lo`. -/
def intRange (lo hi : Int) : List Int :=
  (List.range (hi + 1 - lo).toNat).map (fun (k : Nat) => lo + (k : Int))

/-- An `int*` array: the value stored at each offset. -/
abbrev IntArray := Int → Int

/-- Effect of `boundary[idx] = v`. -/
def IntArray.set (boundary : IntArray) (idx v : Int) : IntArray :=
  fun k => if k = idx then v else boundary k

/-- Body of the `segIndex` loop of `GenerateBoundary` for one segment: the inner
loop writes `boundary[yPx - top] = mPx * (yPx - y1Px) + x1Px` for `yPx` from
`segTop` to `segBottom`.  `mPx` is a `float`, so the two `int` operands are
converted to `float`, the product and the sum are `float` operations, and the
sum is converted to `int`. -/
def GenerateBoundary.segment {K : Type} [LinearOrderedField K] [FloorRing K]
    (F : FloatingPoint K) (boundary : IntArray) (corners : List (Point2d K)) (top : Int)
    (segIndex : Nat) : IntArray :=
  let segTop := toInt (cornerAt corners segIndex).y
  let segBottom := toInt (cornerAt corners (segIndex + 1)).y
  let mPx := DetermineSlope F (cornerAt corners segIndex) (cornerAt corners (segIndex + 1))
  let x1Px := toInt (cornerAt corners segIndex).x
  let y1Px := toInt (cornerAt corners segIndex).y
  (intRange segTop segBottom).foldl (fun boundary yPx =>
    boundary.set (yPx - top)
      (toInt (F.toFloat (F.toFloat (mPx * F.toFloat ((yPx - y1Px : Int) : K))
        + F.toFloat ((x1Px : Int) : K)))))
    boundary

/-- Function `vtkInternal::GenerateBoundary`: one pass of `GenerateBoundary.segment` for
each `segIndex` below `corners.size() - 1`.  The flag `isRight` is not read. -/
def GenerateBoundary {K : Type} [LinearOrderedField K] [FloorRing K] (F : FloatingPoint K)
    (boundary : IntArray) (corners : List (Point2d K)) (top : Int) (isRight : Bool) : IntArray :=
  let _ := isRight
  (List.range (corners.length - 1)).foldl (fun boundary segIndex =>
    GenerateBoundary.segment F boundary corners top segIndex) boundary

/-- The offsets `yPx - top` at which `GenerateBoundary` writes `boundary`, in the
order of the writes. -/
def GenerateBoundary.offsets {K : Type} [LinearOrderedField K] [FloorRing K]
    (corners : List (Point2d K)) (top : Int) : List Int :=
  (List.range (corners.length - 1)).flatMap (fun segIndex =>
    (intRange (toInt (cornerAt corners segIndex).y)
      (toInt (cornerAt corners (segIndex + 1)).y)).map (fun yPx => yPx - top))

/-- What an extractor hands to `CopyToItkData`: the rows `top` and `bottom`,
the length `height` of both `new int[height]` arrays and the arrays after
`GenerateBoundary`. -/
structure MarkerRegion where
  top : Int
  bottom : Int
  height : Int
  leftBoundary : IntArray
  rightBoundary : IntArray

/-- Boundaries built by `GenerateRotatedItkData` (TOP = 0, RIGHT = 1,
BOTTOM = 2, LEFT = 3); `newLeft` and `newRight` are the uninitialised contents
of the two fresh arrays. -/
def GenerateRotatedItkData.region {K : Type} [LinearOrderedField K] [FloorRing K]
    (F : FloatingPoint K) (corners : List (Point2d K)) (newLeft newRight : IntArray) :
    MarkerRegion :=
  let top := toInt (cornerAt corners 0).y
  let bottom := toInt (cornerAt corners 2).y
  let height := bottom - top + 1
  let leftPath := [cornerAt corners 0, cornerAt corners 3, cornerAt corners 2]
  let leftBoundary := GenerateBoundary F newLeft leftPath top false
  let rightPath := [cornerAt corners 0, cornerAt corners 1, cornerAt corners 2]
  let rightBoundary := GenerateBoundary F newRight rightPath top true
  ⟨top, bottom, height, leftBoundary, rightBoundary⟩

/-- Boundaries built by `GenerateSkewLeftItkData` (TOP = 0, BOTTOM = 1,
LOWER_LEFT = 2, UPPER_LEFT = 3); here `height = bottom - top`. -/
def GenerateSkewLeftItkData.region {K : Type} [LinearOrderedField K] [FloorRing K]
    (F : FloatingPoint K) (corners : List (Point2d K)) (newLeft newRight : IntArray) :
    MarkerRegion :=
  let top := toInt (cornerAt corners 0).y
  let bottom := toInt (cornerAt corners 1).y
  let height := bottom - top
  let leftPath := [cornerAt corners 0, cornerAt corners 3, cornerAt corners 2, cornerAt corners 1]
  let leftBoundary := GenerateBoundary F newLeft leftPath top false
  let rightPath := [cornerAt corners 0, cornerAt corners 1]
  let rightBoundary := GenerateBoundary F newRight rightPath top true
  ⟨top, bottom, height, leftBoundary, rightBoundary⟩

/-- Boundaries built by `GenerateSkewRightItkData` (TOP = 0, UPPER_RIGHT = 1,
LOWER_RIGHT = 2, BOTTOM = 3). -/
def GenerateSkewRightItkData.region {K : Type} [LinearOrderedField K] [FloorRing K]
    (F : FloatingPoint K) (corners : List (Point2d K)) (newLeft newRight : IntArray) :
    MarkerRegion :=
  let top := toInt (cornerAt corners 0).y
  let bottom := toInt (cornerAt corners 3).y
  let height := bottom - top + 1
  let leftPath := [cornerAt corners 0, cornerAt corners 3]
  let leftBoundary := GenerateBoundary F newLeft leftPath top false
  let rightPath := [cornerAt corners 0, cornerAt corners 1, cornerAt corners 2, cornerAt corners 3]
  let rightBoundary := GenerateBoundary F newRight rightPath top true
  ⟨top, bottom, height, leftBoundary, rightBoundary⟩

/-! ## Copying the region out of the point cloud -/

/-- A point with three `double` coordinates (`vtkPoint[0..2]`,
`itk::Point<double, 3>`); index 2 is the depth `z`. -/
structure Point3 (K : Type) where
  x : K
  y : K
  z : K
deriving DecidableEq

/-- The points of a `vtkPolyData`, as `GetPoint(ptId, ...)` returns them. -/
abbrev PolyData (K : Type) := Int → Point3 K

/-- Body of the `xPx` loop of `CopyToItkData`: look the point `640 * yPx + xPx`
up and push it when `vtkPoint[2] > 50 && vtkPoint[2] < 2000`. -/
def CopyToItkData.pixel {K : Type} [LinearOrderedField K]
    (vtkDepthData : PolyData K) (itkData : List (Point3 K)) (yPx xPx : Int) : List (Point3 K) :=
  let ptId := 640 * yPx + xPx
  let vtkPoint := vtkDepthData ptId
  if vtkPoint.z > 50 ∧ vtkPoint.z < 2000 then
    itkData ++ [⟨vtkPoint.x, vtkPoint.y, vtkPoint.z⟩]
  else itkData

/-- Function `vtkInternal::CopyToItkData`: rows `top..bottom`, in each row the columns
`leftBoundary[yPx - top]..rightBoundary[yPx - top]`; returns `itkData` after the
call. -/
def CopyToItkData {K : Type} [LinearOrderedField K]
    (vtkDepthData : PolyData K) (itkData : List (Point3 K)) (top bottom : Int)
    (leftBoundary rightBoundary : IntArray) : List (Point3 K) :=
  (intRange top bottom).foldl (fun itkData yPx =>
    (intRange (leftBoundary (yPx - top)) (rightBoundary (yPx - top))).foldl (fun itkData xPx =>
      CopyToItkData.pixel vtkDepthData itkData yPx xPx) itkData) itkData

/-- The offsets `yPx - top` at which `CopyToItkData` reads `leftBoundary` and
`rightBoundary`, in the order of the rows. -/
def CopyToItkData.offsets (top bottom : Int) : List Int :=
  (intRange top bottom).map (fun yPx => yPx - top)

/-- The region the extractor of class `orientation` builds from `corners`. -/
def GenerateItkData.region {K : Type} [LinearOrderedField K] [FloorRing K]
    (F : FloatingPoint K) (orientation : MARKER_ORIENTATION) (corners : List (Point2d K))
    (newLeft newRight : IntArray) : MarkerRegion :=
  match orientation with
  | SKEW_LEFT => GenerateSkewLeftItkData.region F corners newLeft newRight
  | ROTATED => GenerateRotatedItkData.region F corners newLeft newRight
  | SKEW_RIGHT => GenerateSkewRightItkData.region F corners newLeft newRight

/-- The paths `leftPath` and `rightPath` the extractor of class `orientation`
hands to `GenerateBoundary`. -/
def GenerateItkData.paths {K : Type} [LinearOrderedField K]
    (orientation : MARKER_ORIENTATION) (corners : List (Point2d K)) :
    List (Point2d K) × List (Point2d K) :=
  match orientation with
  | SKEW_LEFT =>
    ([cornerAt corners 0, cornerAt corners 3, cornerAt corners 2, cornerAt corners 1],
      [cornerAt corners 0, cornerAt corners 1])
  | ROTATED =>
    ([cornerAt corners 0, cornerAt corners 3, cornerAt corners 2],
      [cornerAt corners 0, cornerAt corners 1, cornerAt corners 2])
  | SKEW_RIGHT =>
    ([cornerAt corners 0, cornerAt corners 3],
      [cornerAt corners 0, cornerAt corners 1, cornerAt corners 2, cornerAt corners 3])

/-- The first part of `GenerateItkData`: classify and reorder the corners and
build the boundaries of that class with its extractor. -/
def GenerateItkData.boundaries {K : Type} [LinearOrderedField K] [FloorRing K]
    (F : FloatingPoint K) (corners : List (Point2d K)) (newLeft newRight : IntArray) :
    MarkerRegion :=
  GenerateItkData.region F (DetermineMarkerOrientation corners).1
    (DetermineMarkerOrientation corners).2 newLeft newRight

/-- Function `vtkInternal::GenerateItkData`: classify and reorder the corners, build the
boundaries of that class with its extractor and copy the region; returns
`itkData` after the call.  (`corners` is passed by value, `dim` and `image` are
not read.) -/
def GenerateItkData {K : Type} [LinearOrderedField K] [FloorRing K] (F : FloatingPoint K)
    (vtkDepthData : PolyData K) (itkData : List (Point3 K)) (corners : List (Point2d K))
    (newLeft newRight : IntArray) : List (Point3 K) :=
  let r := GenerateItkData.boundaries F corners newLeft newRight
  CopyToItkData vtkDepthData itkData r.top r.bottom r.leftBoundary r.rightBoundary

/-! ## Optical transform and frame construction from a plane -/

/-- Modelled from the spec: `PlusStatus` is declared in `PlusCommon.h`; a call
either fails or succeeds. -/
inductive PlusStatus where
  | PLUS_FAIL
  | PLUS_SUCCESS
deriving DecidableEq, Repr

open PlusStatus

/-- Three `double` components (`vnl_vector<double>` of size 3, a 3x1 `cv::Mat`). -/
abbrev Vec3 (K : Type) := Fin 3 → K

/-- The elements of a 3x3 `cv::Mat`, `Rmat.at<float>(row, col)`. -/
abbrev Mat3 (K : Type) := Fin 3 → Fin 3 → K

/-- The macro `MM_PER_M`. -/
def MM_PER_M {K : Type} [LinearOrderedField K] : K := 1000

/-- Function `vtkInternal::BuildOpticalTransformMatrix`: returns the status, the content
of `transformMatrix` and the content of `Rmat` after the call.  `Rodrigues` is
`cv::Rodrigues`, `none` when it throws.  The product
`MM_PER_M * Tvec.at<float>(x, 0)` is a `float` operation. -/
def BuildOpticalTransformMatrix {K : Type} [LinearOrderedField K] (F : FloatingPoint K)
    (Rodrigues : Vec3 K → Option (Mat3 K)) (Rvec Tvec : Vec3 K) (Rmat : Mat3 K) :
    PlusStatus × Mat4 K × Mat3 K :=
  let transformMatrix : Mat4 K := Mat4.Identity
  match Rodrigues Rvec with
  | none => (PLUS_FAIL, transformMatrix, Rmat)
  | some Rmat =>
    let transformMatrix := ([0, 1, 2] : List (Fin 3)).foldl (fun (m : Mat4 K) x =>
      let m := m.SetElement x.castSucc 3 (F.toFloat (MM_PER_M * Tvec x))
      ([0, 1, 2] : List (Fin 3)).foldl (fun (m : Mat4 K) y =>
        m.SetElement x.castSucc y.castSucc (Rmat x y)) m) transformMatrix
    (PLUS_SUCCESS, transformMatrix, Rmat)

/-- The functions of `<cmath>` the source calls; each returns a value of the
format of its result. -/
structure MathFunctions (K : Type) where
  sqrt : K → K
  acos : K → K

/-- The constant `PI` of the source file as it is written there; the `double`
of that name is `toDouble PI`. -/
def PI {K : Type} [LinearOrderedField K] : K := 3.14159265358979323846

/-- Function `vtkMath::Dot` for two arrays of `double`s:
`a[0] * b[0] + a[1] * b[1] + a[2] * b[2]`. -/
def vtkMath.Dot {K : Type} [LinearOrderedField K] (F : FloatingPoint K) (a b : Fin 4 → K) : K :=
  F.toDouble (F.toDouble (F.toDouble (a 0 * b 0) + F.toDouble (a 1 * b 1))
    + F.toDouble (a 2 * b 2))

/-- Function `vnl_cross_3d`: the cross product of two vectors of `double`s. -/
def vnl_cross_3d {K : Type} [LinearOrderedField K] (F : FloatingPoint K) (a b : Vec3 K) :
    Vec3 K :=
  ![F.toDouble (F.toDouble (a 1 * b 2) - F.toDouble (a 2 * b 1)),
    F.toDouble (F.toDouble (a 2 * b 0) - F.toDouble (a 0 * b 2)),
    F.toDouble (F.toDouble (a 0 * b 1) - F.toDouble (a 1 * b 0))]

/-- The variable `tmp` of `vnl_vector<double>::normalize()` after its first loop:
the squares of the three components, added to zero one after the other. -/
def normalize.tmp {K : Type} [LinearOrderedField K] (F : FloatingPoint K) (v : Vec3 K) : K :=
  F.toDouble (F.toDouble (F.toDouble (0 + F.toDouble (v 0 * v 0)) + F.toDouble (v 1 * v 1))
    + F.toDouble (v 2 * v 2))

/-- Function `vnl_vector<double>::normalize()`: when the sum `tmp` of the squares is not
zero, every component is multiplied by `1 / sqrt(tmp)`; a vector for which the
sum is zero is left as it is. -/
def normalize {K : Type} [LinearOrderedField K] (F : FloatingPoint K) (M : MathFunctions K)
    (v : Vec3 K) : Vec3 K :=
  let tmp := normalize.tmp F v
  if tmp = 0 then v
  else
    let tmp := F.divide 1 (M.sqrt tmp)
    fun i => F.toDouble (tmp * v i)

/-- Function `vtkInternal::VectorAngleDeg`: the dot product of the two vectors is
narrowed to the `float dotProduct`; the result is
`abs(acos(dotProduct) * 180 / PI)`, computed in `double` (`acos` and `abs` are
taken to be the functions for `double`) and narrowed to the return type
`float`. -/
def VectorAngleDeg {K : Type} [LinearOrderedField K] (F : FloatingPoint K)
    (M : MathFunctions K) (xAxis zAxis : Vec3 K) : K :=
  let dotProduct := F.toFloat (F.toDouble (F.toDouble (F.toDouble (xAxis 0 * zAxis 0)
    + F.toDouble (xAxis 1 * zAxis 1)) + F.toDouble (xAxis 2 * zAxis 2)))
  F.toFloat |F.divide (F.toDouble (M.acos dotProduct * 180)) (F.toDouble PI)|

/-- Function `vtkInternal::ComputePlaneTransform`: returns the content of the matrix
`MarkerToDepthCamera` after the call.  The arrays hold four `double`s of which
the first three are read as vectors; the caller does not read `z_axis` again.
The dot product is narrowed to the `float ZtoZAngle` before the test. -/
def ComputePlaneTransform {K : Type} [LinearOrderedField K] (F : FloatingPoint K)
    (M : MathFunctions K) (x_axis z_axis center : Fin 4 → K) : Mat4 K :=
  let z_expected : Fin 4 → K := ![0, 0, -1, 0]
  let z_axis : Fin 4 → K := ![z_axis 0, -z_axis 1, z_axis 2, z_axis 3]
  let ZtoZAngle := F.toFloat (vtkMath.Dot F z_expected z_axis)
  let z_axis : Fin 4 → K :=
    if ZtoZAngle < 0 then
      ![F.toDouble (z_axis 0 * -1), F.toDouble (z_axis 1 * -1), F.toDouble (z_axis 2 * -1),
        F.toDouble (z_axis 3 * -1)]
    else z_axis
  let xGuess : Vec3 K := normalize F M ![x_axis 0, x_axis 1, x_axis 2]
  let zAxis : Vec3 K := normalize F M ![z_axis 0, z_axis 1, z_axis 2]
  let xTheoretical : Vec3 K := ![1, 0, 0]
  let yTheoretical : Vec3 K := ![0, 1, 0]
  let axes : Vec3 K × Vec3 K :=
    if VectorAngleDeg F M xGuess zAxis > 10 then
      let yAxis := vnl_cross_3d F zAxis xGuess
      (vnl_cross_3d F yAxis zAxis, yAxis)
    else if VectorAngleDeg F M xTheoretical zAxis > 10 then
      let yAxis := vnl_cross_3d F zAxis xTheoretical
      (vnl_cross_3d F yAxis zAxis, yAxis)
    else
      let xAxis := vnl_cross_3d F yTheoretical zAxis
      (xAxis, vnl_cross_3d F zAxis xAxis)
  let xAxis := axes.1
  let yAxis := axes.2
  let Rotation : Mat3 K := fun row col => ![xAxis row, yAxis row, zAxis row] col
  let m : Mat4 K := Mat4.Identity
  let m := ([0, 1, 2] : List (Fin 3)).foldl (fun (m : Mat4 K) row =>
    ([0, 1, 2] : List (Fin 3)).foldl (fun (m : Mat4 K) col =>
      m.SetElement row.castSucc col.castSucc (Rotation row col)) m) m
  let m := m.SetElement 0 3 (center 0)
  let m := m.SetElement 1 3 (-center 1)
  m.SetElement 2 3 (center 2)

/-- The array `z_axis` of `ComputePlaneTransform` after the sign correction. -/
def ComputePlaneTransform.corrected {K : Type} [LinearOrderedField K] (F : FloatingPoint K)
    (z_axis : Fin 4 → K) : Fin 4 → K :=
  let z_expected : Fin 4 → K := ![0, 0, -1, 0]
  let z_axis : Fin 4 → K := ![z_axis 0, -z_axis 1, z_axis 2, z_axis 3]
  let ZtoZAngle := F.toFloat (vtkMath.Dot F z_expected z_axis)
  if ZtoZAngle < 0 then
    ![F.toDouble (z_axis 0 * -1), F.toDouble (z_axis 1 * -1), F.toDouble (z_axis 2 * -1),
      F.toDouble (z_axis 3 * -1)]
  else z_axis

/-- The vector `zAxis` of `ComputePlaneTransform` after `zAxis.normalize()`. -/
def ComputePlaneTransform.zAxis {K : Type} [LinearOrderedField K] (F : FloatingPoint K)
    (M : MathFunctions K) (z_axis : Fin 4 → K) : Vec3 K :=
  normalize F M ![ComputePlaneTransform.corrected F z_axis 0,
    ComputePlaneTransform.corrected F z_axis 1, ComputePlaneTransform.corrected F z_axis 2]

/-- The vectors `xAxis` and `yAxis` of `ComputePlaneTransform` after the three
tiers, from `xGuess` and `zAxis` as they are after normalisation. -/
def ComputePlaneTransform.axes {K : Type} [LinearOrderedField K] (F : FloatingPoint K)
    (M : MathFunctions K) (xGuess zAxis : Vec3 K) : Vec3 K × Vec3 K :=
  let xTheoretical : Vec3 K := ![1, 0, 0]
  let yTheoretical : Vec3 K := ![0, 1, 0]
  if VectorAngleDeg F M xGuess zAxis > 10 then
    let yAxis := vnl_cross_3d F zAxis xGuess
    (vnl_cross_3d F yAxis zAxis, yAxis)
  else if VectorAngleDeg F M xTheoretical zAxis > 10 then
    let yAxis := vnl_cross_3d F zAxis xTheoretical
    (vnl_cross_3d F yAxis zAxis, yAxis)
  else
    let xAxis := vnl_cross_3d F yTheoretical zAxis
    (xAxis, vnl_cross_3d F zAxis xAxis)

/-- The determinant of the rotation block (rows and columns 0..2) of a 4x4
matrix. -/
def Mat4.rotationDeterminant {K : Type} [LinearOrderedField K] (m : Mat4 K) : K :=
  m 0 0 * (m 1 1 * m 2 2 - m 1 2 * m 2 1)
    - m 0 1 * (m 1 0 * m 2 2 - m 1 2 * m 2 0)
    + m 0 2 * (m 1 0 * m 2 1 - m 1 1 * m 2 0)

/-! ## Tools, detections and the per-frame update -/

/-- Enumeration `TrackedTool::DATA_FUSION_METHOD`: the method of data fusion. -/
inductive DATA_FUSION_METHOD where
  | FUSION_RGB_ONLY
  | FUSION_DEPTH_ONLY
  | FUSION_COMPONENT
  | FUSION_KALMAN
deriving DecidableEq, Repr

open DATA_FUSION_METHOD

/-- Modelled from the spec: the enumeration `INPUT_TYPE` is declared in the
header `vtkPlusOpticalMarkerTracker.h`; the input mode is RGB-only or
RGB+depth, in this order, so that `INPUT_RGB_AND_DEPTH` is not zero. -/
inductive INPUT_TYPE where
  | INPUT_RGB_ONLY
  | INPUT_RGB_AND_DEPTH
deriving DecidableEq, Repr

open INPUT_TYPE

/-- Modelled from the spec: the tool status values of `PlusCommon.h` that the
source file passes to `ToolTimeStampedUpdate`. -/
inductive ToolStatus where
  | TOOL_OK
  | TOOL_OUT_OF_VIEW
deriving DecidableEq, Repr

open ToolStatus

/-- What the source reads of an `aruco::MarkerPoseTracker`: the rotation and
translation vectors of its last estimate. -/
structure MarkerPoseTracker (K : Type) where
  Rvec : Vec3 K
  Tvec : Vec3 K

/-- What the source reads of an `aruco::Marker`: its id and `getCornersPx()`. -/
structure Marker (K : Type) where
  id : Int
  corners : List (Point2d K)

/-- A `TrackedTool` built by the single-marker constructor; the three matrices
are objects owned by the tool. -/
structure TrackedTool (K : Type) where
  MarkerId : Int
  MarkerSizeMm : K
  DataFusionMethod : DATA_FUSION_METHOD
  ToolSourceId : String
  MarkerPoseTracker : MarkerPoseTracker K
  RgbMarkerToCamera : Mat4 K
  DepthMarkerToCamera : Mat4 K
  PreviousMarkerToCamera : Mat4 K

/-- The names of the three matrix objects of one tool. -/
inductive ToolMatrix where
  | Rgb
  | Depth
  | Previous
deriving DecidableEq

/-- The arguments of one call of `ToolTimeStampedUpdate`. -/
structure ToolUpdate (K : Type) where
  ToolSourceId : String
  matrix : Mat4 K
  status : ToolStatus
  FrameNumber : Nat
  unfilteredTimestamp : K

/-- A step of the depth computation carried out for a tool. -/
inductive DepthStep where
  | regionExtraction (ToolSourceId : String)
  | planeFit (ToolSourceId : String)
deriving DecidableEq

/-- The collaborators of the update that are outside the source file: the
aruco pose estimator, `cv::Rodrigues`, the plane estimator and the RANSAC
object (whose setters may throw), the floating-point arithmetic and the
functions of `<cmath>`, and the contents of freshly allocated storage. -/
structure Collaborators (K : Type) where
  estimatePose : MarkerPoseTracker K → Marker K → K → MarkerPoseTracker K × Bool
  Rodrigues : Vec3 K → Option (Mat3 K)
  LeastSquaresEstimate : List (Point3 K) → List K
  SetDataThrows : List (Point3 K) → Bool
  SetParametersEstimatorThrows : List (Point3 K) → Bool
  arithmetic : FloatingPoint K
  math : MathFunctions K
  newRmat : Mat3 K
  newLeft : IntArray
  newRight : IntArray

/-- What one call of `InternalUpdate` obtains from its input channels and from
the marker detector. -/
structure FrameInput (K : Type) where
  numInputChannels : Nat
  videoDataAvailable : Bool
  bulkDataAvailable : Bool
  trackedVideoFrameOk : Bool
  trackedPolyDataFrameOk : Bool
  Markers : List (Marker K)
  markerPolyData : PolyData K
  unfilteredTimestamp : K

/-- The members of the tracker that `InternalUpdate` reads and writes. -/
structure Tracker (K : Type) where
  InputType : INPUT_TYPE
  Tools : List (TrackedTool K)
  FrameNumber : Nat

/-- State while the marker loop runs for one tool: the tool, the flag
`toolInFrame`, the calls of `ToolTimeStampedUpdate` and the depth steps made so
far in this call of `InternalUpdate`, and whether `InternalUpdate` has
returned from inside the loop. -/
structure ToolPass (K : Type) where
  tool : TrackedTool K
  toolInFrame : Bool
  updates : List (ToolUpdate K)
  depthSteps : List DepthStep
  returned : Bool

/-- The chain `if (toolIt->DataFusionMethod == ...)` that closes the handling
of a matched marker. -/
def InternalUpdate.fuse {K : Type} [LinearOrderedField K] (FrameNumber : Nat)
    (unfilteredTimestamp : K) (s : ToolPass K) : ToolPass K :=
  match s.tool.DataFusionMethod with
  | FUSION_RGB_ONLY =>
    { s with updates := s.updates ++ [⟨s.tool.ToolSourceId, s.tool.RgbMarkerToCamera, TOOL_OK,
        FrameNumber, unfilteredTimestamp⟩] }
  | FUSION_DEPTH_ONLY =>
    { s with updates := s.updates ++ [⟨s.tool.ToolSourceId, s.tool.DepthMarkerToCamera, TOOL_OK,
        FrameNumber, unfilteredTimestamp⟩] }
  | FUSION_COMPONENT =>
    let mem : MatrixStore ToolMatrix K := fun p =>
      match p with
      | ToolMatrix.Rgb => s.tool.RgbMarkerToCamera
      | ToolMatrix.Depth => s.tool.DepthMarkerToCamera
      | ToolMatrix.Previous => s.tool.PreviousMarkerToCamera
    let mem := ComputeComponentFusion mem ToolMatrix.Rgb ToolMatrix.Depth ToolMatrix.Previous
    let tool := { s.tool with RgbMarkerToCamera := mem ToolMatrix.Rgb,
                              DepthMarkerToCamera := mem ToolMatrix.Depth,
                              PreviousMarkerToCamera := mem ToolMatrix.Previous }
    { s with tool := tool,
             updates := s.updates ++ [⟨tool.ToolSourceId, tool.PreviousMarkerToCamera, TOOL_OK,
               FrameNumber, unfilteredTimestamp⟩] }
  | FUSION_KALMAN => s

/-- The loop over `Markers` of `InternalUpdate` for one tool, from the marker
at the head of the list onwards.  A marker whose id is that of the tool sets
`toolInFrame`; the loop then ends (`break`) unless the plane fit returned no
parameters, in which case it goes on with the next marker (`continue`). -/
def InternalUpdate.markerLoop {K : Type} [LinearOrderedField K] [FloorRing K]
    (E : Collaborators K) (InputType : INPUT_TYPE) (markerPolyData : PolyData K)
    (FrameNumber : Nat) (unfilteredTimestamp : K) :
    List (Marker K) → ToolPass K → ToolPass K
  | [], s => s
  | marker :: rest, s =>
    if s.tool.MarkerId = marker.id then
      let s := { s with toolInFrame := true }
      let est := E.estimatePose s.tool.MarkerPoseTracker marker
        (E.arithmetic.toFloat (s.tool.MarkerSizeMm / MM_PER_M))
      let s := { s with tool := { s.tool with MarkerPoseTracker := est.1 } }
      if est.2 then
        let Rvec := s.tool.MarkerPoseTracker.Rvec
        let Tvec := s.tool.MarkerPoseTracker.Tvec
        let built := BuildOpticalTransformMatrix E.arithmetic E.Rodrigues Rvec Tvec E.newRmat
        let Rmat := built.2.2
        let s := { s with tool := { s.tool with RgbMarkerToCamera := built.2.1 } }
        if InputType = INPUT_RGB_AND_DEPTH then
          let corners := marker.corners
          let itkPlane := GenerateItkData E.arithmetic markerPolyData [] corners E.newLeft
            E.newRight
          let s := { s with depthSteps :=
            s.depthSteps ++ [DepthStep.regionExtraction s.tool.ToolSourceId] }
          let ransacParameterResult := E.LeastSquaresEstimate itkPlane
          let s := { s with depthSteps := s.depthSteps ++ [DepthStep.planeFit s.tool.ToolSourceId] }
          if E.SetDataThrows itkPlane then { s with returned := true }
          else if E.SetParametersEstimatorThrows itkPlane then { s with returned := true }
          else if ransacParameterResult.isEmpty then
            InternalUpdate.markerLoop E InputType markerPolyData FrameNumber unfilteredTimestamp
              rest s
          else
            let zAxis : Fin 4 → K := ![ransacParameterResult.getD 0 0,
              ransacParameterResult.getD 1 0, ransacParameterResult.getD 2 0, 0]
            let xAxis : Fin 4 → K := ![Rmat 0 0, Rmat 1 0, Rmat 2 0, 0]
            let center : Fin 4 → K := ![ransacParameterResult.getD 3 0,
              ransacParameterResult.getD 4 0, ransacParameterResult.getD 5 0, 0]
            let s := { s with tool := { s.tool with
              DepthMarkerToCamera :=
                ComputePlaneTransform E.arithmetic E.math xAxis zAxis center } }
            InternalUpdate.fuse FrameNumber unfilteredTimestamp s
        else
          InternalUpdate.fuse FrameNumber unfilteredTimestamp s
      else s
    else
      InternalUpdate.markerLoop E InputType markerPolyData FrameNumber unfilteredTimestamp rest s

/-- State of the loop over `Tools`: the tools as they are now (those already
visited, in order), the calls of `ToolTimeStampedUpdate` and the depth steps
made so far, and whether `InternalUpdate` has returned from inside the loop. -/
structure ToolLoop (K : Type) where
  Tools : List (TrackedTool K)
  updates : List (ToolUpdate K)
  depthSteps : List DepthStep
  returned : Bool

/-- One iteration of the loop over `Tools`; nothing more is done once
`InternalUpdate` has returned. -/
def InternalUpdate.toolStep {K : Type} [LinearOrderedField K] [FloorRing K]
    (E : Collaborators K) (InputType : INPUT_TYPE) (frame : FrameInput K) (FrameNumber : Nat)
    (s : ToolLoop K) (tool : TrackedTool K) : ToolLoop K :=
  if s.returned then { s with Tools := s.Tools ++ [tool] }
  else
    let pass := InternalUpdate.markerLoop E InputType frame.markerPolyData FrameNumber
      frame.unfilteredTimestamp frame.Markers ⟨tool, false, s.updates, s.depthSteps, false⟩
    if pass.returned then
      ⟨s.Tools ++ [pass.tool], pass.updates, pass.depthSteps, true⟩
    else if !pass.toolInFrame then
      ⟨s.Tools ++ [pass.tool],
        pass.updates ++ [⟨pass.tool.ToolSourceId, Mat4.Identity, TOOL_OUT_OF_VIEW, FrameNumber,
          frame.unfilteredTimestamp⟩],
        pass.depthSteps, false⟩
    else
      ⟨s.Tools ++ [pass.tool], pass.updates, pass.depthSteps, false⟩

/-- What a call of `InternalUpdate` leaves behind: its return value, the
tracker, and the calls of `ToolTimeStampedUpdate` and the depth steps it made,
in order. -/
structure UpdateResult (K : Type) where
  status : PlusStatus
  tracker : Tracker K
  updates : List (ToolUpdate K)
  depthSteps : List DepthStep

/-- Function `vtkPlusOpticalMarkerTracker::InternalUpdate`.  The bookkeeping of
`LastProcessedInputDataTimestamp` is left out.  The test
`else if (InputType = INPUT_RGB_AND_DEPTH)` is an assignment of the value the
member already has on that branch. -/
def InternalUpdate {K : Type} [LinearOrderedField K] [FloorRing K]
    (E : Collaborators K) (frame : FrameInput K) (this : Tracker K) : UpdateResult K :=
  if this.InputType = INPUT_RGB_ONLY ∧ frame.numInputChannels ≠ 1 then
    ⟨PLUS_FAIL, this, [], []⟩
  else if this.InputType ≠ INPUT_RGB_ONLY ∧ frame.numInputChannels ≠ 2 then
    ⟨PLUS_FAIL, this, [], []⟩
  else if !frame.videoDataAvailable then
    ⟨PLUS_SUCCESS, this, [], []⟩
  else if this.InputType = INPUT_RGB_AND_DEPTH ∧ !frame.bulkDataAvailable then
    ⟨PLUS_SUCCESS, this, [], []⟩
  else if !frame.trackedVideoFrameOk then
    ⟨PLUS_FAIL, this, [], []⟩
  else if this.InputType = INPUT_RGB_AND_DEPTH ∧ !frame.trackedPolyDataFrameOk then
    ⟨PLUS_FAIL, this, [], []⟩
  else
    let loop := this.Tools.foldl
      (InternalUpdate.toolStep E this.InputType frame this.FrameNumber) ⟨[], [], [], false⟩
    if loop.returned then
      ⟨PLUS_SUCCESS, { this with Tools := loop.Tools }, loop.updates, loop.depthSteps⟩
    else
      ⟨PLUS_SUCCESS, { this with Tools := loop.Tools, FrameNumber := this.FrameNumber + 1 },
        loop.updates, loop.depthSteps⟩

/-- None of the six early returns of `InternalUpdate` is taken: the number of
input channels fits the input type, data is available on them and the frames
could be retrieved, so that the call reaches the loop over the tools. -/
def InternalUpdate.acquired {K : Type} (frame : FrameInput K) (this : Tracker K) : Prop :=
  ¬ (this.InputType = INPUT_RGB_ONLY ∧ frame.numInputChannels ≠ 1) ∧
  ¬ (this.InputType ≠ INPUT_RGB_ONLY ∧ frame.numInputChannels ≠ 2) ∧
  frame.videoDataAvailable = true ∧
  ¬ (this.InputType = INPUT_RGB_AND_DEPTH ∧ frame.bulkDataAvailable = false) ∧
  frame.trackedVideoFrameOk = true ∧
  ¬ (this.InputType = INPUT_RGB_AND_DEPTH ∧ frame.trackedPolyDataFrameOk = false)

/-! ## Reading the configuration -/

/-- What `ReadConfiguration` reads of a `vtkXMLDataElement`: its name, its
attributes (name and value) and its nested elements, in document order. -/
inductive vtkXMLDataElement where
  | mk (Name : String) (Attributes : List (String × String))
      (NestedElements : List vtkXMLDataElement)

/-- Method `vtkXMLDataElement::GetName`. -/
def vtkXMLDataElement.GetName : vtkXMLDataElement → String
  | mk Name _ _ => Name

/-- Method `vtkXMLDataElement::GetAttribute`: the value of the first attribute
with that name, `none` for `NULL`. -/
def vtkXMLDataElement.GetAttribute : vtkXMLDataElement → String → Option String
  | mk _ Attributes _, name => (Attributes.find? (fun a => a.1 = name)).map (fun a => a.2)

/-- The nested elements `GetNestedElement(0)`, ...,
`GetNestedElement(GetNumberOfNestedElements() - 1)`. -/
def vtkXMLDataElement.GetNestedElements : vtkXMLDataElement → List vtkXMLDataElement
  | mk _ _ NestedElements => NestedElements

/-- Method `vtkXMLDataElement::FindNestedElementWithName`: the first nested element
with that name, `none` for `NULL`. -/
def vtkXMLDataElement.FindNestedElementWithName (e : vtkXMLDataElement) (name : String) :
    Option vtkXMLDataElement :=
  e.GetNestedElements.find? (fun n => n.GetName = name)

/-- Modelled from the spec: `STRCASECMP` is a macro of `PlusCommon.h` for the
comparison of two C strings ignoring case; the result is zero exactly when the
strings are equal ignoring case (the sign of another result is not modelled). -/
def STRCASECMP (a b : String) : Int :=
  if a.toList.map Char.toLower = b.toList.map Char.toLower then 0 else 1

/-- Modelled from the spec: the macro `XML_READ_STRING_ATTRIBUTE_NONMEMBER_REQUIRED`
is defined in `PlusXmlUtils.h`; it assigns the value of the attribute, and makes
the calling function return PLUS_FAIL (`none`) when the attribute is absent. -/
def XML_READ_STRING_ATTRIBUTE_NONMEMBER_REQUIRED (xmlElementVar : vtkXMLDataElement)
    (attributeName : String) : Option String :=
  xmlElementVar.GetAttribute attributeName

/-- Modelled from the spec: the macro `XML_READ_ENUM2_ATTRIBUTE_NONMEMBER_REQUIRED` is
defined in `PlusXmlUtils.h`; it assigns the value whose string equals the
attribute ignoring case, and makes the calling function return PLUS_FAIL
(`none`) when the attribute is absent or equals neither string. -/
def XML_READ_ENUM2_ATTRIBUTE_NONMEMBER_REQUIRED {α : Type} (xmlElementVar : vtkXMLDataElement)
    (varName : String) (enumString1 : String) (enumValue1 : α)
    (enumString2 : String) (enumValue2 : α) : Option α :=
  match xmlElementVar.GetAttribute varName with
  | none => none
  | some strValue =>
    if STRCASECMP strValue enumString1 = 0 then some enumValue1
    else if STRCASECMP strValue enumString2 = 0 then some enumValue2
    else none

/-- Modelled from the spec: the macro `XML_READ_ENUM4_ATTRIBUTE_NONMEMBER_OPTIONAL` is
defined in `PlusXmlUtils.h`; it assigns the value whose string equals the
attribute ignoring case, and leaves the variable as it is when the attribute
is absent or equals none of the four strings. -/
def XML_READ_ENUM4_ATTRIBUTE_NONMEMBER_OPTIONAL {α : Type} (var : α)
    (xmlElementVar : vtkXMLDataElement) (varName : String)
    (enumString1 : String) (enumValue1 : α) (enumString2 : String) (enumValue2 : α)
    (enumString3 : String) (enumValue3 : α) (enumString4 : String) (enumValue4 : α) : α :=
  match xmlElementVar.GetAttribute varName with
  | none => var
  | some strValue =>
    if STRCASECMP strValue enumString1 = 0 then enumValue1
    else if STRCASECMP strValue enumString2 = 0 then enumValue2
    else if STRCASECMP strValue enumString3 = 0 then enumValue3
    else if STRCASECMP strValue enumString4 = 0 then enumValue4
    else var

/-- The collaborators of `ReadConfiguration` that are outside the source file:
the transform name `PlusTransformName(toolId, GetToolReferenceFrameName())`
spells, the numbers `GetScalarAttribute` reads from an attribute value, and a
freshly constructed `aruco::MarkerPoseTracker`. -/
structure ConfigCollaborators (K : Type) where
  GetTransformName : String → String
  GetScalarAttributeInt : String → Int
  GetScalarAttributeFloat : String → K
  newMarkerPoseTracker : MarkerPoseTracker K

/-- The members of `vtkInternal` that `ReadConfiguration` writes. -/
structure vtkInternal (K : Type) where
  CameraCalibrationFile : String
  InputType : INPUT_TYPE
  MarkerDictionary : String
  Tools : List (TrackedTool K)

/-- The policy `fusionMethod` of a data source element: FUSION_RGB_ONLY unless
the attribute `DataFusionMethod` names another one. -/
def ReadConfiguration.fusionMethod (toolDataElement : vtkXMLDataElement) : DATA_FUSION_METHOD :=
  let fusionMethod := FUSION_RGB_ONLY
  XML_READ_ENUM4_ATTRIBUTE_NONMEMBER_OPTIONAL fusionMethod toolDataElement "DataFusionMethod"
    "RGB_ONLY" FUSION_RGB_ONLY "DEPTH_ONLY" FUSION_DEPTH_ONLY
    "COMPONENT" FUSION_COMPONENT "KALMAN" FUSION_KALMAN

/-- The loop of `ReadConfiguration` over the nested elements of `DataSources`,
from the element at the head of the list onwards: returns the status with
which `ReadConfiguration` returns and `vtkInternal` as it is then. -/
def ReadConfiguration.toolLoop {K : Type} [LinearOrderedField K] (C : ConfigCollaborators K) :
    List vtkXMLDataElement → vtkInternal K → PlusStatus × vtkInternal K
  | [], this => (PLUS_SUCCESS, this)
  | toolDataElement :: rest, this =>
    if STRCASECMP toolDataElement.GetName "DataSource" ≠ 0 then
      ReadConfiguration.toolLoop C rest this
    else if (toolDataElement.GetAttribute "Type").isSome ∧
        STRCASECMP ((toolDataElement.GetAttribute "Type").getD "") "Tool" ≠ 0 then
      ReadConfiguration.toolLoop C rest this
    else
      match toolDataElement.GetAttribute "Id" with
      | none => ReadConfiguration.toolLoop C rest this
      | some toolId =>
        let toolSourceId := C.GetTransformName toolId
        let fusionMethod := ReadConfiguration.fusionMethod toolDataElement
        if this.InputType = INPUT_RGB_ONLY ∧ fusionMethod = FUSION_DEPTH_ONLY then
          (PLUS_FAIL, this)
        else if this.InputType = INPUT_RGB_ONLY ∧ fusionMethod = FUSION_COMPONENT then
          (PLUS_FAIL, this)
        else if this.InputType = INPUT_RGB_ONLY ∧ fusionMethod = FUSION_KALMAN then
          (PLUS_FAIL, this)
        else
          match toolDataElement.GetAttribute "MarkerId",
              toolDataElement.GetAttribute "MarkerSizeMm" with
          | some MarkerId, some MarkerSizeMm =>
            let newTool : TrackedTool K :=
              { MarkerId := C.GetScalarAttributeInt MarkerId,
                MarkerSizeMm := C.GetScalarAttributeFloat MarkerSizeMm,
                DataFusionMethod := fusionMethod,
                ToolSourceId := toolSourceId,
                MarkerPoseTracker := C.newMarkerPoseTracker,
                RgbMarkerToCamera := Mat4.Identity,
                DepthMarkerToCamera := Mat4.Identity,
                PreviousMarkerToCamera := Mat4.Identity }
            ReadConfiguration.toolLoop C rest { this with Tools := this.Tools ++ [newTool] }
          | _, _ => ReadConfiguration.toolLoop C rest this

/-- Function `vtkPlusOpticalMarkerTracker::ReadConfiguration`: returns the status and
`vtkInternal` after the call.  `deviceConfig` is the element the macro
`XML_FIND_DEVICE_ELEMENT_REQUIRED_FOR_READING` finds, `none` when the macro
makes the function return PLUS_FAIL. -/
def ReadConfiguration {K : Type} [LinearOrderedField K] (C : ConfigCollaborators K)
    (deviceConfig : Option vtkXMLDataElement) (this : vtkInternal K) :
    PlusStatus × vtkInternal K :=
  match deviceConfig with
  | none => (PLUS_FAIL, this)
  | some deviceConfig =>
    match XML_READ_STRING_ATTRIBUTE_NONMEMBER_REQUIRED deviceConfig "CameraCalibrationFile" with
    | none => (PLUS_FAIL, this)
    | some CameraCalibrationFile =>
      let this := { this with CameraCalibrationFile := CameraCalibrationFile }
      match XML_READ_ENUM2_ATTRIBUTE_NONMEMBER_REQUIRED deviceConfig "InputType"
          "RGB_ONLY" INPUT_RGB_ONLY "RGB_AND_DEPTH" INPUT_RGB_AND_DEPTH with
      | none => (PLUS_FAIL, this)
      | some InputType =>
        let this := { this with InputType := InputType }
        match XML_READ_STRING_ATTRIBUTE_NONMEMBER_REQUIRED deviceConfig "MarkerDictionary" with
        | none => (PLUS_FAIL, this)
        | some MarkerDictionary =>
          let this := { this with MarkerDictionary := MarkerDictionary }
          match deviceConfig.FindNestedElementWithName "DataSources" with
          | none => (PLUS_FAIL, this)
          | some dataSourcesElement =>
            ReadConfiguration.toolLoop C dataSourcesElement.GetNestedElements this

/-! ## Reference definitions for the orientation claims -/

/-- The orientation class as the specification words it: the bottommost corner
is the first index, scanning 0..3, whose `y` equals the maximum `y` of the four
corners; index 1 is skew-left, index 2 rotated, index 0 or 3 skew-right. -/
def bottommostClass {K : Type} [LinearOrderedField K] (corners : List (Point2d K)) :
    MARKER_ORIENTATION :=
  let yMax := max (max (cornerAt corners 0).y (cornerAt corners 1).y)
    (max (cornerAt corners 2).y (cornerAt corners 3).y)
  let bottom := (([0, 1, 2, 3] : List Nat).find? (fun i => (cornerAt corners i).y = yMax)).getD 0
  DetermineMarkerOrientation.switch bottom

/-- An axis-aligned square, listed clockwise from its upper left corner. -/
def alignedSquare : List (Point2d ℚ) := [⟨0, 0⟩, ⟨10, 0⟩, ⟨10, 10⟩, ⟨0, 10⟩]

/-- A convex quadrilateral with sub-pixel corners whose lowest corner is the
second one (y = 10.5) and whose third corner lies in the same pixel row
(y = 10.25). -/
def subPixelQuad : List (Point2d ℚ) := [⟨10, 0⟩, ⟨20, 21 / 2⟩, ⟨8, 41 / 4⟩, ⟨0, 3⟩]

/-! ## Reference definition for the frontal marker -/

/-- The ids of the points `CopyToItkData` looks up, in the order of the scan. -/
def CopyToItkData.visited (top bottom : Int) (leftBoundary rightBoundary : IntArray) :
    List Int :=
  (intRange top bottom).flatMap (fun yPx =>
    (intRange (leftBoundary (yPx - top)) (rightBoundary (yPx - top))).map
      (fun xPx => 640 * yPx + xPx))

/-- The pixels `(yPx, xPx)` the two loops of `CopyToItkData` visit, in the order
of the scan. -/
def CopyToItkData.scan (top bottom : Int) (leftBoundary rightBoundary : IntArray) :
    List (Int × Int) :=
  (intRange top bottom).flatMap (fun yPx =>
    (intRange (leftBoundary (yPx - top)) (rightBoundary (yPx - top))).map
      (fun xPx => (yPx, xPx)))

/-- A nested element of `DataSources` is a Tool data source with an Id: its name
is `DataSource`, its attribute `Type` is absent or `Tool` (both ignoring case)
and it has an attribute `Id`. -/
def IsToolDataSource (toolDataElement : vtkXMLDataElement) : Prop :=
  STRCASECMP toolDataElement.GetName "DataSource" = 0 ∧
  (∀ type, toolDataElement.GetAttribute "Type" = some type → STRCASECMP type "Tool" = 0) ∧
  (toolDataElement.GetAttribute "Id").isSome = true

/-- The element has an attribute `name` whose value is `value`, ignoring case. -/
def AttributeNames (element : vtkXMLDataElement) (name value : String) : Prop :=
  ∃ strValue, element.GetAttribute name = some strValue ∧ STRCASECMP strValue value = 0

/-- The data source requests the fusion policy `policy`: its attribute
`DataFusionMethod` has the value `policy`, ignoring case. -/
def RequestsPolicy (toolDataElement : vtkXMLDataElement) (policy : String) : Prop :=
  AttributeNames toolDataElement "DataFusionMethod" policy

/-- The device element has the attributes `CameraCalibrationFile` and
`MarkerDictionary` and a nested element `DataSources` whose nested elements are
`elements`. -/
def RequiredPresent (deviceConfig : vtkXMLDataElement) (elements : List vtkXMLDataElement) :
    Prop :=
  (deviceConfig.GetAttribute "CameraCalibrationFile").isSome = true ∧
  (deviceConfig.GetAttribute "MarkerDictionary").isSome = true ∧
  (deviceConfig.FindNestedElementWithName "DataSources").map
    vtkXMLDataElement.GetNestedElements = some elements

/-! ## Quadrilaterals -/

/-- Twice the signed area of the triangle `u, v, w`; positive when `w` lies on
the inner side of the edge from `u` to `v` of a clockwise polygon (image
coordinates, `y` downwards). -/
def turn {K : Type} [LinearOrderedField K] (u v w : Point2d K) : K :=
  (v.x - u.x) * (w.y - u.y) - (v.y - u.y) * (w.x - u.x)

/-- The pixel `(m, n)` as a corner. -/
def pixelCorner (K : Type) [LinearOrderedField K] (m n : Int) : Point2d K := ⟨(m : K), (n : K)⟩

/-- The four corners turn the same way, clockwise in image coordinates: each
corner lies strictly on the inner side of the edge joining the two before it. -/
def ClockwiseConvex {K : Type} [LinearOrderedField K] (corners : List (Point2d K)) : Prop :=
  0 < turn (cornerAt corners 0) (cornerAt corners 1) (cornerAt corners 2) ∧
  0 < turn (cornerAt corners 1) (cornerAt corners 2) (cornerAt corners 3) ∧
  0 < turn (cornerAt corners 2) (cornerAt corners 3) (cornerAt corners 0) ∧
  0 < turn (cornerAt corners 3) (cornerAt corners 0) (cornerAt corners 1)

/-- A diamond with whole-pixel corners, listed clockwise from its top. -/
def clockwiseDiamond : List (Point2d ℚ) := [⟨5, 0⟩, ⟨10, 5⟩, ⟨5, 10⟩, ⟨0, 5⟩]

/-- The same diamond listed counter-clockwise from its top. -/
def counterClockwiseDiamond : List (Point2d ℚ) := [⟨5, 0⟩, ⟨0, 5⟩, ⟨5, 10⟩, ⟨10, 5⟩]

/-- A strictly convex quadrilateral with whole-pixel corners, listed clockwise
from its top: the edge from (13, 2) to its bottom corner (6, 15) has the slope
-7/13, which is not a `float`. -/
def roundedQuad : List (Point2d ℚ) := [⟨0, 1⟩, ⟨13, 2⟩, ⟨6, 15⟩, ⟨2, 13⟩]

/-! ## IEEE 754 arithmetic on the rationals -/

/-- The integer nearest to `x`, the even one of the two when `x` lies halfway
between two integers. -/
def roundNearestEven (x : ℚ) : Int :=
  if x - ⌊x⌋ < 1 / 2 then ⌊x⌋
  else if 1 / 2 < x - ⌊x⌋ then ⌊x⌋ + 1
  else if ⌊x⌋ % 2 = 0 then ⌊x⌋ else ⌊x⌋ + 1

/-- Rounding to the binary format with `p` significant bits whose smallest
positive number is `2 ^ emin` (round to nearest, ties to even): a number `q`
with `2 ^ e ≤ |q| < 2 ^ (e + 1)` rounds to the nearest multiple of
`2 ^ (e - (p - 1))`, or of `2 ^ emin` where that is larger (subnormal numbers).
The format has no largest number here. -/
def roundBinary (p : Nat) (emin : Int) (q : ℚ) : ℚ :=
  let k := max (Int.log 2 |q| - ((p : Int) - 1)) emin
  (roundNearestEven (q / (2 : ℚ) ^ k) : ℚ) * (2 : ℚ) ^ k

/-- The square root rounded to the format, as IEEE 754 requires of `sqrt`.  For
`0 < q`, `r` is the whole part of the square root of `q * 4 ^ k`, with `k` so
large that `r` has more than `p + 2` bits.  When the square root of `q` is not
`r / 2 ^ k` it lies strictly between `r / 2 ^ k` and `(r + 1) / 2 ^ k`, where
there is no number of the format and no midpoint of two, so it rounds as
`(r + 1 / 2) / 2 ^ k` does.  The result for `q < 0` (a NaN) is not a number;
0 stands for it. -/
def roundSqrt (p : Nat) (emin : Int) (q : ℚ) : ℚ :=
  if q ≤ 0 then 0
  else
    let k : Int := (p : Int) + 2 - Int.log 2 q / 2
    let r : Nat := Nat.sqrt ⌊q * (4 : ℚ) ^ k⌋.toNat
    let s : ℚ := if (r : ℚ) * r = q * (4 : ℚ) ^ k then r else r + 1 / 2
    roundBinary p emin (s / (2 : ℚ) ^ k)

/-- The arithmetic of IEEE 754: `float` is binary32 (24 significant bits,
smallest positive number `2 ^ (-149)`), `double` is binary64 (53 significant
bits, smallest positive number `2 ^ (-1074)`).  0 stands for the result of a
division by zero. -/
def ieee754 : FloatingPoint ℚ where
  toFloat := roundBinary 24 (-149)
  toDouble := roundBinary 53 (-1074)
  divisionByZero := fun _ => 0

/-! ## Sample frames -/

/-- Three matrix objects with distinguishable entries. -/
def sampleStore : MatrixStore ToolMatrix ℚ := fun p i j =>
  match p with
  | ToolMatrix.Rgb => 1 + (i : ℚ) + 10 * (j : ℚ)
  | ToolMatrix.Depth => 100 + (i : ℚ) + 10 * (j : ℚ)
  | ToolMatrix.Previous => 7

/-- A marker two pixels wide and high, listed clockwise from its upper left
corner. -/
def smallSquare : List (Point2d ℚ) := [⟨5, 5⟩, ⟨6, 5⟩, ⟨6, 6⟩, ⟨5, 6⟩]

/-- A point cloud whose points have depth 100 at the ids in `inBand` and depth 0
elsewhere. -/
def sampleCloud (inBand : List Int) : PolyData ℚ :=
  fun ptId => if ptId ∈ inBand then ⟨0, 0, 100⟩ else ⟨0, 0, 0⟩

/-- Collaborators whose pose estimator accepts every detection, whose plane
fit returns `fit` for three samples or more and no parameters for fewer, and
whose RANSAC object throws in `SetParametersEstimator` when it holds one or two
samples. -/
def sampleCollaborators (fit : List ℚ) : Collaborators ℚ where
  estimatePose := fun tracker _ _ => (tracker, true)
  Rodrigues := fun _ => some (fun i j => if i = j then 1 else 0)
  LeastSquaresEstimate := fun data => if data.length < 3 then [] else fit
  SetDataThrows := fun _ => false
  SetParametersEstimatorThrows := fun data => decide (0 < data.length ∧ data.length < 3)
  arithmetic := ieee754
  math := ⟨fun v => v, fun _ => 0⟩
  newRmat := fun _ _ => 0
  newLeft := fun _ => 0
  newRight := fun _ => 0

/-- A tool as `ReadConfiguration` creates it: identity matrices, marker size
50 mm. -/
def sampleTool (ToolSourceId : String) (MarkerId : Int) (method : DATA_FUSION_METHOD) :
    TrackedTool ℚ where
  MarkerId := MarkerId
  MarkerSizeMm := 50
  DataFusionMethod := method
  ToolSourceId := ToolSourceId
  MarkerPoseTracker := ⟨fun _ => 0, fun _ => 0⟩
  RgbMarkerToCamera := Mat4.Identity
  DepthMarkerToCamera := Mat4.Identity
  PreviousMarkerToCamera := Mat4.Identity

/-- A frame whose inputs are all available, with the given number of input
channels and detections, and the cloud `sampleCloud inBand`. -/
def sampleFrame (numInputChannels : Nat) (Markers : List (Marker ℚ)) (inBand : List Int) :
    FrameInput ℚ where
  numInputChannels := numInputChannels
  videoDataAvailable := true
  bulkDataAvailable := true
  trackedVideoFrameOk := true
  trackedPolyDataFrameOk := true
  Markers := Markers
  markerPolyData := sampleCloud inBand
  unfilteredTimestamp := 1

/-- A second marker two pixels wide and high, away from `smallSquare`. -/
def farSquare : List (Point2d ℚ) := [⟨10, 10⟩, ⟨11, 10⟩, ⟨11, 11⟩, ⟨10, 11⟩]

/-- A steep segment with sub-pixel corners: from (0, 0.75) to (10, 1.25). -/
def steepSegment : List (Point2d ℚ) := [⟨0, 3 / 4⟩, ⟨10, 5 / 4⟩]

/-- Functions of `<cmath>` on the rationals: the square root rounded to
binary64, and as a stand-in for `acos` the chord of the arc cosine through its
values at -1, 0 and 1, rounded to binary64. -/
def sampleMath : MathFunctions ℚ where
  sqrt := roundSqrt 53 (-1074)
  acos := fun v => ieee754.toDouble (PI / 2 * (1 - v))

/-- Collaborators for sample configurations: the source id is the tool id
followed by `ToTracker`, and every number read is 1. -/
def sampleConfigCollaborators : ConfigCollaborators ℚ where
  GetTransformName := fun toolId => toolId ++ "ToTracker"
  GetScalarAttributeInt := fun _ => 1
  GetScalarAttributeFloat := fun _ => 1
  newMarkerPoseTracker := ⟨fun _ => 0, fun _ => 0⟩

/-- A device element with the required attributes, the given input type and
one Tool data source `Marker1` with marker id and size, with the given
attribute list added. -/
def sampleDeviceConfig (InputType : String) (more : List (String × String)) :
    vtkXMLDataElement :=
  vtkXMLDataElement.mk "Device"
    [("CameraCalibrationFile", "calibration.yml"), ("InputType", InputType),
      ("MarkerDictionary", "ARUCO_MIP_36h12")]
    [vtkXMLDataElement.mk "DataSources" []
      [vtkXMLDataElement.mk "DataSource"
        ([("Type", "Tool"), ("Id", "Marker1"), ("MarkerId", "1"), ("MarkerSizeMm", "50")] ++ more)
        []]]

/-- The members of `vtkInternal` before `ReadConfiguration`. -/
def emptyInternal : vtkInternal ℚ := ⟨"", INPUT_RGB_ONLY, "", []⟩

/-- A clockwise convex quadrilateral whose bottommost corner follows the top
corner: class SKEW_LEFT, rows 0 to 10. -/
def skewLeftQuad : List (Point2d ℚ) := [⟨5, 0⟩, ⟨7, 10⟩, ⟨2, 8⟩, ⟨0, 2⟩]

/-! ## Theorems -/

/-! ### Floating-point arithmetic -/

/-- A whole number rounds to itself. -/
theorem roundNearestEven_intCast (n : Int) : roundNearestEven (n : ℚ) = n := by
  simp [roundNearestEven]

/-- Rounding to the nearest integer commutes with negation. -/
theorem roundNearestEven_neg (x : ℚ) : roundNearestEven (-x) = -roundNearestEven x := by
  by_cases hx : ((⌊x⌋ : Int) : ℚ) = x
  · rw [← hx, ← Int.cast_neg, roundNearestEven_intCast, roundNearestEven_intCast]
  · have h1 : ((⌊x⌋ : Int) : ℚ) < x := lt_of_le_of_ne (Int.floor_le x) hx
    have h2 : x < ((⌊x⌋ : Int) : ℚ) + 1 := Int.lt_floor_add_one x
    have hfl : ⌊-x⌋ = -⌊x⌋ - 1 := by
      rw [Int.floor_eq_iff]
      push_cast
      constructor <;> linarith
    unfold roundNearestEven
    rw [hfl]
    push_cast
    split_ifs <;> first | omega | (exfalso; linarith)

/-- A number that is not negative rounds to an integer that is not negative. -/
theorem roundNearestEven_nonneg (x : ℚ) (h : 0 ≤ x) : 0 ≤ roundNearestEven x := by
  have hf : 0 ≤ ⌊x⌋ := Int.floor_nonneg.2 h
  unfold roundNearestEven
  split_ifs <;> omega

/-- The rounded value of a number below a whole bound is not above the bound. -/
theorem roundNearestEven_le (x : ℚ) (N : Int) (h : x < (N : ℚ)) : roundNearestEven x ≤ N := by
  have hf : ⌊x⌋ < N := Int.floor_lt.2 h
  unfold roundNearestEven
  split_ifs <;> omega

/-- The binary exponent of a number between two successive powers of two. -/
theorem log_eq_of_bounds (q : ℚ) (e : Int) (h1 : (2 : ℚ) ^ e ≤ q) (h2 : q < (2 : ℚ) ^ (e + 1)) :
    Int.log 2 q = e := by
  have hq : 0 < q := lt_of_lt_of_le (zpow_pos (by norm_num) e) h1
  have a : e ≤ Int.log 2 q := (Int.zpow_le_iff_le_log (by norm_num) hq).1 (by exact_mod_cast h1)
  have b : Int.log 2 q < e + 1 := (Int.lt_zpow_iff_log_lt (by norm_num) hq).1 (by exact_mod_cast h2)
  omega

/-- Rounding of a number whose binary exponent `e` is known. -/
theorem roundBinary_eval (p : Nat) (emin : Int) (q : ℚ) (e : Int)
    (h1 : (2 : ℚ) ^ e ≤ |q|) (h2 : |q| < (2 : ℚ) ^ (e + 1)) :
    roundBinary p emin q =
      (roundNearestEven (q / (2 : ℚ) ^ (max (e - ((p : Int) - 1)) emin)) : ℚ)
        * (2 : ℚ) ^ (max (e - ((p : Int) - 1)) emin) := by
  unfold roundBinary
  rw [log_eq_of_bounds _ e h1 h2]

/-- Zero belongs to every format. -/
theorem roundBinary_zero (p : Nat) (emin : Int) : roundBinary p emin 0 = 0 := by
  simp [roundBinary, roundNearestEven]

/-- Rounding commutes with negation. -/
theorem roundBinary_neg (p : Nat) (emin : Int) (q : ℚ) :
    roundBinary p emin (-q) = -roundBinary p emin q := by
  unfold roundBinary
  simp only [abs_neg, neg_div, roundNearestEven_neg, Int.cast_neg, neg_mul]

/-- A number that is not negative rounds to one that is not negative. -/
theorem roundBinary_nonneg (p : Nat) (emin : Int) (q : ℚ) (h : 0 ≤ q) :
    0 ≤ roundBinary p emin q := by
  unfold roundBinary
  have hk : ∀ k : Int, (0 : ℚ) < (2 : ℚ) ^ k := fun k => zpow_pos (by norm_num) k
  exact mul_nonneg (by exact_mod_cast roundNearestEven_nonneg _ (div_nonneg h (le_of_lt (hk _))))
    (le_of_lt (hk _))

/-- A number `m * 2 ^ k` with `|m| < 2 ^ p` and `emin ≤ k` belongs to the format:
it rounds to itself. -/
theorem roundBinary_of_scaled (p : Nat) (emin : Int) (m k : Int) (hk : emin ≤ k)
    (hm : |m| < 2 ^ p) : roundBinary p emin ((m : ℚ) * (2 : ℚ) ^ k) = (m : ℚ) * (2 : ℚ) ^ k := by
  by_cases hm0 : m = 0
  · subst hm0
    simp [roundBinary_zero]
  have h2k : (0 : ℚ) < (2 : ℚ) ^ k := zpow_pos (by norm_num) k
  have hq0 : (0 : ℚ) < |(m : ℚ) * (2 : ℚ) ^ k| :=
    abs_pos.2 (mul_ne_zero (by exact_mod_cast hm0) (ne_of_gt h2k))
  have hlt : |(m : ℚ) * (2 : ℚ) ^ k| < (2 : ℚ) ^ ((p : Int) + k) := by
    rw [abs_mul, abs_of_pos h2k, zpow_add₀ (by norm_num : (2 : ℚ) ≠ 0), zpow_natCast]
    have : ((|m| : Int) : ℚ) < (2 : ℚ) ^ p := by exact_mod_cast hm
    rw [← Int.cast_abs]
    exact mul_lt_mul_of_pos_right this h2k
  have hlog : Int.log 2 |(m : ℚ) * (2 : ℚ) ^ k| < (p : Int) + k :=
    (Int.lt_zpow_iff_log_lt (by norm_num) hq0).1 (by exact_mod_cast hlt)
  unfold roundBinary
  have hkk : max (Int.log 2 |(m : ℚ) * (2 : ℚ) ^ k| - ((p : Int) - 1)) emin ≤ k :=
    max_le (by omega) hk
  generalize max (Int.log 2 |(m : ℚ) * (2 : ℚ) ^ k| - ((p : Int) - 1)) emin = kk at hkk
  obtain ⟨d, hd⟩ : ∃ d : ℕ, k = kk + (d : Int) := ⟨(k - kk).toNat, by omega⟩
  have h2kk : (2 : ℚ) ^ kk ≠ 0 := ne_of_gt (zpow_pos (by norm_num) kk)
  have e : (m : ℚ) * (2 : ℚ) ^ k / (2 : ℚ) ^ kk = ((m * 2 ^ d : Int) : ℚ) := by
    rw [hd, zpow_add₀ (by norm_num : (2 : ℚ) ≠ 0), zpow_natCast]
    field_simp
    ring
  simp only []
  rw [e, roundNearestEven_intCast, hd, zpow_add₀ (by norm_num : (2 : ℚ) ≠ 0), zpow_natCast]
  push_cast
  ring

/-- A whole number of at most `p` bits belongs to the format. -/
theorem roundBinary_intCast (p : Nat) (emin : Int) (n : Int) (he : emin ≤ 0)
    (hn : |n| < 2 ^ p) : roundBinary p emin (n : ℚ) = n := by
  simpa using roundBinary_of_scaled p emin n 0 he hn

/-- Rounding yields a number of the format: rounding it again changes nothing. -/
theorem roundBinary_idem (p : Nat) (emin : Int) (hp : 1 ≤ p) (q : ℚ) :
    roundBinary p emin (roundBinary p emin q) = roundBinary p emin q := by
  by_cases hq0 : q = 0
  · subst hq0
    simp [roundBinary_zero]
  have hq : 0 < |q| := abs_pos.2 hq0
  have hlog : |q| < (2 : ℚ) ^ (Int.log 2 |q| + 1) := by
    exact_mod_cast Int.lt_zpow_succ_log_self (by norm_num : 1 < 2) |q|
  have hdef : roundBinary p emin q =
      (roundNearestEven (q / (2 : ℚ) ^ (max (Int.log 2 |q| - ((p : Int) - 1)) emin)) : ℚ)
        * (2 : ℚ) ^ (max (Int.log 2 |q| - ((p : Int) - 1)) emin) := rfl
  have hkk1 : Int.log 2 |q| - ((p : Int) - 1) ≤ max (Int.log 2 |q| - ((p : Int) - 1)) emin :=
    le_max_left _ _
  have hkk2 : emin ≤ max (Int.log 2 |q| - ((p : Int) - 1)) emin := le_max_right _ _
  rw [hdef]
  generalize max (Int.log 2 |q| - ((p : Int) - 1)) emin = kk at hkk1 hkk2
  have h2kk : (0 : ℚ) < (2 : ℚ) ^ kk := zpow_pos (by norm_num) kk
  have hx : |q / (2 : ℚ) ^ kk| < (((2 : Int) ^ p : Int) : ℚ) := by
    rw [abs_div, abs_of_pos h2kk, div_lt_iff₀ h2kk]
    push_cast
    rw [← zpow_natCast, ← zpow_add₀ (by norm_num : (2 : ℚ) ≠ 0)]
    refine lt_of_lt_of_le hlog (zpow_le_zpow_right₀ (by norm_num) (by omega))
  have hup := roundNearestEven_le _ _ (lt_of_le_of_lt (le_abs_self _) hx)
  have hdown : -(2 : Int) ^ p ≤ roundNearestEven (q / (2 : ℚ) ^ kk) := by
    have := roundNearestEven_le (-(q / (2 : ℚ) ^ kk)) _
      (lt_of_le_of_lt (neg_le_abs _) hx)
    rw [roundNearestEven_neg] at this
    omega
  generalize roundNearestEven (q / (2 : ℚ) ^ kk) = j at hup hdown
  have hpow : (2 : Int) ^ p = 2 * 2 ^ (p - 1) := by
    rw [← pow_succ']
    congr 1
    omega
  have hpos : (0 : Int) < 2 ^ (p - 1) := by positivity
  rcases lt_or_eq_of_le hup with h | h
  · rcases lt_or_eq_of_le hdown with h' | h'
    · exact roundBinary_of_scaled p emin j kk hkk2 (abs_lt.2 ⟨h', h⟩)
    · have e : (j : ℚ) * (2 : ℚ) ^ kk = ((-(2 : Int) ^ (p - 1) : Int) : ℚ) * (2 : ℚ) ^ (kk + 1) := by
        rw [← h', hpow, zpow_add₀ (by norm_num : (2 : ℚ) ≠ 0)]
        push_cast
        ring
      rw [e]
      refine roundBinary_of_scaled p emin _ _ (by omega) ?_
      rw [abs_neg, abs_of_pos hpos]
      omega
  · have e : (j : ℚ) * (2 : ℚ) ^ kk = (((2 : Int) ^ (p - 1) : Int) : ℚ) * (2 : ℚ) ^ (kk + 1) := by
      rw [h, hpow, zpow_add₀ (by norm_num : (2 : ℚ) ≠ 0)]
      push_cast
      ring
    rw [e]
    refine roundBinary_of_scaled p emin _ _ (by omega) ?_
    rw [abs_of_pos hpos]
    omega

/-- The arithmetic `ieee754` has the properties of rounding to nearest. -/
theorem ieee754_lawful : ieee754.Lawful where
  toFloat_neg := roundBinary_neg 24 (-149)
  toDouble_neg := roundBinary_neg 53 (-1074)
  toFloat_nonneg := roundBinary_nonneg 24 (-149)
  toDouble_nonneg := roundBinary_nonneg 53 (-1074)
  toDouble_idem := roundBinary_idem 53 (-1074) (by norm_num)
  toFloat_one := by simpa using roundBinary_intCast 24 (-149) 1 (by norm_num) (by norm_num)
  toDouble_one := by simpa using roundBinary_intCast 53 (-1074) 1 (by norm_num) (by norm_num)

/-- Zero rounds to zero. -/
theorem FloatingPoint.Lawful.toDouble_zero {K : Type} [LinearOrderedField K]
    {F : FloatingPoint K} (hF : F.Lawful) : F.toDouble 0 = 0 := by
  have h := hF.toDouble_neg 0
  rw [neg_zero] at h
  linarith

/-- Zero rounds to zero. -/
theorem FloatingPoint.Lawful.toFloat_zero {K : Type} [LinearOrderedField K]
    {F : FloatingPoint K} (hF : F.Lawful) : F.toFloat 0 = 0 := by
  have h := hF.toFloat_neg 0
  rw [neg_zero] at h
  linarith

/-- A number that is not positive rounds to one that is not positive. -/
theorem FloatingPoint.Lawful.toDouble_nonpos {K : Type} [LinearOrderedField K]
    {F : FloatingPoint K} (hF : F.Lawful) (v : K) (h : v ≤ 0) : F.toDouble v ≤ 0 := by
  have h1 := hF.toDouble_nonneg (-v) (by linarith)
  rw [hF.toDouble_neg] at h1
  linarith

/-- A number that is not positive rounds to one that is not positive. -/
theorem FloatingPoint.Lawful.toFloat_nonpos {K : Type} [LinearOrderedField K]
    {F : FloatingPoint K} (hF : F.Lawful) (v : K) (h : v ≤ 0) : F.toFloat v ≤ 0 := by
  have h1 := hF.toFloat_nonneg (-v) (by linarith)
  rw [hF.toFloat_neg] at h1
  linarith

@[simp] theorem ieee754_toFloat_zero : ieee754.toFloat 0 = 0 := roundBinary_zero _ _

@[simp] theorem ieee754_toDouble_zero : ieee754.toDouble 0 = 0 := roundBinary_zero _ _

@[simp] theorem ieee754_toFloat_one : ieee754.toFloat 1 = 1 := ieee754_lawful.toFloat_one

@[simp] theorem ieee754_toDouble_one : ieee754.toDouble 1 = 1 := ieee754_lawful.toDouble_one

@[simp] theorem ieee754_toFloat_neg (v : ℚ) : ieee754.toFloat (-v) = -ieee754.toFloat v :=
  roundBinary_neg _ _ v

@[simp] theorem ieee754_toDouble_neg (v : ℚ) : ieee754.toDouble (-v) = -ieee754.toDouble v :=
  roundBinary_neg _ _ v

/-- A whole number below `2 ^ 24` is a `float`. -/
theorem ieee754_toFloat_natCast (n : Nat) (h : n < 2 ^ 24) :
    ieee754.toFloat (n : ℚ) = n := by
  have := roundBinary_intCast 24 (-149) (n : Int) (by norm_num)
    (by rw [abs_of_nonneg (by positivity)]; exact_mod_cast h)
  simpa using this

/-- A whole number below `2 ^ 53` is a `double`. -/
theorem ieee754_toDouble_natCast (n : Nat) (h : n < 2 ^ 53) :
    ieee754.toDouble (n : ℚ) = n := by
  have := roundBinary_intCast 53 (-1074) (n : Int) (by norm_num)
    (by rw [abs_of_nonneg (by positivity)]; exact_mod_cast h)
  simpa using this

@[simp] theorem ieee754_toFloat_ofNat (n : Nat) [n.AtLeastTwo] (h : n < 2 ^ 24) :
    ieee754.toFloat (no_index (OfNat.ofNat n)) = OfNat.ofNat n := by
  have := ieee754_toFloat_natCast n h
  simpa using this

@[simp] theorem ieee754_toDouble_ofNat (n : Nat) [n.AtLeastTwo] (h : n < 2 ^ 53) :
    ieee754.toDouble (no_index (OfNat.ofNat n)) = OfNat.ofNat n := by
  have := ieee754_toDouble_natCast n h
  simpa using this

/-- Arithmetic without rounding has the properties of rounding to nearest. -/
theorem exactArithmetic_lawful (K : Type) [LinearOrderedField K] :
    (exactArithmetic K).Lawful :=
  ⟨fun _ => rfl, fun _ => rfl, fun _ h => h, fun _ h => h, fun _ => rfl, rfl, rfl⟩

/-! ### Component fusion -/

/-- C1: for every optical matrix A and depth matrix B held by objects other
than the output object, and every prior content of the output, after
`ComputeComponentFusion` the output has the 3x3 rotation block of A entry for entry,
elements (0,3) and (1,3) of A, element (2,3) of B and last row (0,0,0,1), while
A and B are as they were. -/
theorem ComputeComponentFusion_components {P K : Type} [DecidableEq P] [Zero K] [One K]
    (mem : MatrixStore P K) (rgb depth prev : P)
    (hrgb : rgb ≠ prev) (hdepth : depth ≠ prev) :
    (∀ row col : Fin 4, row ≠ 3 → col ≠ 3 →
        ComputeComponentFusion mem rgb depth prev prev row col = mem rgb row col) ∧
    ComputeComponentFusion mem rgb depth prev prev 0 3 = mem rgb 0 3 ∧
    ComputeComponentFusion mem rgb depth prev prev 1 3 = mem rgb 1 3 ∧
    ComputeComponentFusion mem rgb depth prev prev 2 3 = mem depth 2 3 ∧
    ComputeComponentFusion mem rgb depth prev prev 3 0 = 0 ∧
    ComputeComponentFusion mem rgb depth prev prev 3 1 = 0 ∧
    ComputeComponentFusion mem rgb depth prev prev 3 2 = 0 ∧
    ComputeComponentFusion mem rgb depth prev prev 3 3 = 1 ∧
    ComputeComponentFusion mem rgb depth prev rgb = mem rgb ∧
    ComputeComponentFusion mem rgb depth prev depth = mem depth := by
  refine ⟨?_, ?_, ?_, ?_, ?_, ?_, ?_, ?_, ?_, ?_⟩
  · intro row col hr hc
    fin_cases row <;> fin_cases col <;>
      simp_all [ComputeComponentFusion, MatrixStore.Identity, MatrixStore.SetElement,
        MatrixStore.GetElement, Mat4.SetElement, Mat4.GetElement, Mat4.Identity]
  all_goals
    simp [ComputeComponentFusion, MatrixStore.Identity, MatrixStore.SetElement,
      MatrixStore.GetElement, Mat4.SetElement, Mat4.GetElement, Mat4.Identity, hrgb, hdepth]

/-- C1 (witness): component fusion on three distinct sample matrices. -/
theorem ComputeComponentFusion_components_witness :
    (ToolMatrix.Rgb ≠ ToolMatrix.Previous ∧ ToolMatrix.Depth ≠ ToolMatrix.Previous) ∧
    ComputeComponentFusion sampleStore ToolMatrix.Rgb ToolMatrix.Depth ToolMatrix.Previous
      ToolMatrix.Previous 2 3 = sampleStore ToolMatrix.Depth 2 3 :=
  ⟨⟨by decide, by decide⟩,
    (ComputeComponentFusion_components sampleStore ToolMatrix.Rgb ToolMatrix.Depth
      ToolMatrix.Previous (by decide) (by decide)).2.2.2.1⟩

/-! ### Orientation classifier -/

theorem length_four {α : Type} (l : List α) (h : l.length = 4) :
    ∃ a b c d, l = [a, b, c, d] := by
  match l, h with
  | [a, b, c, d], _ => exact ⟨a, b, c, d, rfl⟩

/-- The index `top` left by the first loop, with what the loop guarantees about
it, for each of its four possible values. -/
theorem topLoop_cases {K : Type} [LinearOrderedField K] (a b c d : Point2d K) :
    ((DetermineMarkerOrientation.topLoop [a, b, c, d]).2 = 0 ∧
        a.y ≤ b.y ∧ a.y ≤ c.y ∧ a.y ≤ d.y) ∨
    ((DetermineMarkerOrientation.topLoop [a, b, c, d]).2 = 1 ∧
        b.y < a.y ∧ b.y ≤ c.y ∧ b.y ≤ d.y) ∨
    ((DetermineMarkerOrientation.topLoop [a, b, c, d]).2 = 2 ∧
        c.y < a.y ∧ c.y < b.y ∧ c.y ≤ d.y) ∨
    ((DetermineMarkerOrientation.topLoop [a, b, c, d]).2 = 3 ∧
        d.y < a.y ∧ d.y < b.y ∧ d.y < c.y) := by
  simp only [DetermineMarkerOrientation.topLoop, List.foldl_cons, List.foldl_nil, cornerAt,
    List.getD_cons_zero, List.getD_cons_succ]
  split_ifs with h1 h2 h3 h3 h2 h3 h3 <;> simp at * <;>
    refine ⟨?_, ?_, ?_⟩ <;> linarith

theorem orderedCorners_four {K : Type} [Zero K] (a b c d : Point2d K) :
    DetermineMarkerOrientation.orderedCorners [a, b, c, d] 0 = [a, b, c, d] ∧
    DetermineMarkerOrientation.orderedCorners [a, b, c, d] 1 = [b, c, d, a] ∧
    DetermineMarkerOrientation.orderedCorners [a, b, c, d] 2 = [c, d, a, b] ∧
    DetermineMarkerOrientation.orderedCorners [a, b, c, d] 3 = [d, a, b, c] := by
  simp [DetermineMarkerOrientation.orderedCorners, cornerAt]

/-- What the classifier returns once the value of `top` is known. -/
theorem DetermineMarkerOrientation_of_top {K : Type} [LinearOrderedField K] [FloorRing K]
    (l : List (Point2d K)) (t : Nat) (ht : (DetermineMarkerOrientation.topLoop l).2 = t) :
    DetermineMarkerOrientation l =
      (DetermineMarkerOrientation.switch (DetermineMarkerOrientation.bottomLoop
          (DetermineMarkerOrientation.orderedCorners l t)).2,
        DetermineMarkerOrientation.orderedCorners l t) := by
  simp only [DetermineMarkerOrientation, ht]

/-- A list whose first corner is nowhere below the others is kept as it is. -/
theorem DetermineMarkerOrientation_top_first {K : Type} [LinearOrderedField K] [FloorRing K]
    (a b c d : Point2d K) (hb : a.y ≤ b.y) (hc : a.y ≤ c.y) (hd : a.y ≤ d.y) :
    DetermineMarkerOrientation [a, b, c, d] =
      (DetermineMarkerOrientation.switch (DetermineMarkerOrientation.bottomLoop [a, b, c, d]).2,
        [a, b, c, d]) := by
  have ht : (DetermineMarkerOrientation.topLoop [a, b, c, d]).2 = 0 := by
    rcases topLoop_cases a b c d with h | h | h | h
    · exact h.1
    all_goals exfalso; obtain ⟨_, h1, h2, h3⟩ := h; linarith
  rw [DetermineMarkerOrientation_of_top _ 0 ht, (orderedCorners_four a b c d).1]

/-- With a single topmost corner `p`, each of the four cyclic listings of the
quadrilateral is mapped to the listing that starts at `p`. -/
theorem DetermineMarkerOrientation_unique_top {K : Type} [LinearOrderedField K] [FloorRing K]
    (p q r s : Point2d K) (hq : p.y < q.y) (hr : p.y < r.y) (hs : p.y < s.y) :
    DetermineMarkerOrientation [q, r, s, p] = DetermineMarkerOrientation [p, q, r, s] ∧
    DetermineMarkerOrientation [r, s, p, q] = DetermineMarkerOrientation [p, q, r, s] ∧
    DetermineMarkerOrientation [s, p, q, r] = DetermineMarkerOrientation [p, q, r, s] := by
  rw [DetermineMarkerOrientation_top_first p q r s hq.le hr.le hs.le]
  refine ⟨?_, ?_, ?_⟩
  · have ht : (DetermineMarkerOrientation.topLoop [q, r, s, p]).2 = 3 := by
      rcases topLoop_cases q r s p with h | h | h | h
      · exfalso; obtain ⟨_, h1, h2, h3⟩ := h; linarith
      · exfalso; obtain ⟨_, h1, h2, h3⟩ := h; linarith
      · exfalso; obtain ⟨_, h1, h2, h3⟩ := h; linarith
      · exact h.1
    rw [DetermineMarkerOrientation_of_top _ 3 ht, (orderedCorners_four q r s p).2.2.2]
  · have ht : (DetermineMarkerOrientation.topLoop [r, s, p, q]).2 = 2 := by
      rcases topLoop_cases r s p q with h | h | h | h
      · exfalso; obtain ⟨_, h1, h2, h3⟩ := h; linarith
      · exfalso; obtain ⟨_, h1, h2, h3⟩ := h; linarith
      · exact h.1
      · exfalso; obtain ⟨_, h1, h2, h3⟩ := h; linarith
    rw [DetermineMarkerOrientation_of_top _ 2 ht, (orderedCorners_four r s p q).2.2.1]
  · have ht : (DetermineMarkerOrientation.topLoop [s, p, q, r]).2 = 1 := by
      rcases topLoop_cases s p q r with h | h | h | h
      · exfalso; obtain ⟨_, h1, h2, h3⟩ := h; linarith
      · exact h.1
      · exfalso; obtain ⟨_, h1, h2, h3⟩ := h; linarith
      · exfalso; obtain ⟨_, h1, h2, h3⟩ := h; linarith
    rw [DetermineMarkerOrientation_of_top _ 1 ht, (orderedCorners_four s p q r).2.1]

theorem rotate_four {α : Type} (a b c d : α) (k : Nat) :
    [a, b, c, d].rotate k = [a, b, c, d] ∨ [a, b, c, d].rotate k = [b, c, d, a] ∨
    [a, b, c, d].rotate k = [c, d, a, b] ∨ [a, b, c, d].rotate k = [d, a, b, c] := by
  have h : [a, b, c, d].rotate k = [a, b, c, d].rotate (k % 4) := by
    rw [← List.rotate_mod]; rfl
  have hk : k % 4 < 4 := Nat.mod_lt _ (by norm_num)
  rw [h]
  interval_cases (k % 4)
  · left; rfl
  · right; left; rfl
  · right; right; left; rfl
  · right; right; right; rfl

/-- C2 (counterexample): the axis-aligned square and the same square listed
from its second corner are classified differently (ROTATED and SKEW_LEFT) and
are left in different orders. -/
theorem DetermineMarkerOrientation_rotation_counterexample :
    DetermineMarkerOrientation alignedSquare = (ROTATED, alignedSquare) ∧
    DetermineMarkerOrientation (alignedSquare.rotate 1) =
      (SKEW_LEFT, [⟨10, 0⟩, ⟨10, 10⟩, ⟨0, 10⟩, ⟨0, 0⟩]) ∧
    ¬ (∀ corners : List (Point2d ℚ), corners.length = 4 → ∀ k : Nat,
        DetermineMarkerOrientation (corners.rotate k) = DetermineMarkerOrientation corners) := by
  have h1 : DetermineMarkerOrientation alignedSquare = (ROTATED, alignedSquare) := by
    have hb : (DetermineMarkerOrientation.bottomLoop alignedSquare).2 = 2 := by
      simp only [DetermineMarkerOrientation.bottomLoop, List.foldl_cons, List.foldl_nil,
        cornerAt, List.getD_cons_zero, List.getD_cons_succ, alignedSquare]
      norm_num [toInt]
    have ht := DetermineMarkerOrientation_top_first (⟨0, 0⟩ : Point2d ℚ) ⟨10, 0⟩ ⟨10, 10⟩ ⟨0, 10⟩
      (by norm_num) (by norm_num) (by norm_num)
    rw [show alignedSquare = [⟨0, 0⟩, ⟨10, 0⟩, ⟨10, 10⟩, ⟨0, 10⟩] from rfl] at hb ⊢
    rw [ht, hb]; rfl
  have h2 : DetermineMarkerOrientation (alignedSquare.rotate 1) =
      (SKEW_LEFT, [⟨10, 0⟩, ⟨10, 10⟩, ⟨0, 10⟩, ⟨0, 0⟩]) := by
    have hb : (DetermineMarkerOrientation.bottomLoop
        ([⟨10, 0⟩, ⟨10, 10⟩, ⟨0, 10⟩, ⟨0, 0⟩] : List (Point2d ℚ))).2 = 1 := by
      simp only [DetermineMarkerOrientation.bottomLoop, List.foldl_cons, List.foldl_nil,
        cornerAt, List.getD_cons_zero, List.getD_cons_succ]
      norm_num [toInt]
    have ht := DetermineMarkerOrientation_top_first (⟨10, 0⟩ : Point2d ℚ) ⟨10, 10⟩ ⟨0, 10⟩ ⟨0, 0⟩
      (by norm_num) (by norm_num) (by norm_num)
    rw [show alignedSquare.rotate 1 = [⟨10, 0⟩, ⟨10, 10⟩, ⟨0, 10⟩, ⟨0, 0⟩] from rfl]
    rw [ht, hb]; rfl
  refine ⟨h1, h2, ?_⟩
  intro h
  have h3 := h alignedSquare rfl 1
  rw [h1, h2] at h3
  exact absurd (congrArg Prod.fst h3) (by decide)

/-- C2 (amended): for every list of 4 corners one of which lies strictly above
the other three, every cyclic rotation of the list is given the same
orientation class and is left in the same order as the list itself. -/
theorem DetermineMarkerOrientation_rotation_invariant {K : Type} [LinearOrderedField K]
    [FloorRing K] (corners : List (Point2d K)) (hlen : corners.length = 4)
    (huniq : ∃ t, t < 4 ∧ ∀ j, j < 4 → j ≠ t → (cornerAt corners t).y < (cornerAt corners j).y)
    (k : Nat) :
    DetermineMarkerOrientation (corners.rotate k) = DetermineMarkerOrientation corners := by
  obtain ⟨a, b, c, d, rfl⟩ := length_four corners hlen
  obtain ⟨t, ht, hu⟩ := huniq
  have h0 := hu 0 (by norm_num)
  have h1 := hu 1 (by norm_num)
  have h2 := hu 2 (by norm_num)
  have h3 := hu 3 (by norm_num)
  interval_cases t <;> simp [cornerAt] at h0 h1 h2 h3
  · obtain ⟨e1, e2, e3⟩ := DetermineMarkerOrientation_unique_top a b c d h1 h2 h3
    rcases rotate_four a b c d k with h | h | h | h <;> rw [h]
    · exact e1
    · exact e2
    · exact e3
  · obtain ⟨e1, e2, e3⟩ := DetermineMarkerOrientation_unique_top b c d a h2 h3 h0
    rcases rotate_four a b c d k with h | h | h | h <;> rw [h]
    · exact e3.symm
    · exact e1.trans e3.symm
    · exact e2.trans e3.symm
  · obtain ⟨e1, e2, e3⟩ := DetermineMarkerOrientation_unique_top c d a b h3 h0 h1
    rcases rotate_four a b c d k with h | h | h | h <;> rw [h]
    · exact e3.trans e2.symm
    · exact e2.symm
    · exact e1.trans e2.symm
  · obtain ⟨e1, e2, e3⟩ := DetermineMarkerOrientation_unique_top d a b c h0 h1 h2
    rcases rotate_four a b c d k with h | h | h | h <;> rw [h]
    · exact e2.trans e1.symm
    · exact e3.trans e1.symm
    · exact e1.symm

/-- C2 (witness): the clockwise diamond, whose top corner is alone at `y = 0`,
and its rotation by one place. -/
theorem DetermineMarkerOrientation_rotation_invariant_witness :
    (clockwiseDiamond.length = 4 ∧
      ∃ t, t < 4 ∧ ∀ j, j < 4 → j ≠ t →
        (cornerAt clockwiseDiamond t).y < (cornerAt clockwiseDiamond j).y) ∧
    DetermineMarkerOrientation (clockwiseDiamond.rotate 1)
      = DetermineMarkerOrientation clockwiseDiamond :=
  have huniq : ∃ t, t < 4 ∧ ∀ j, j < 4 → j ≠ t →
      (cornerAt clockwiseDiamond t).y < (cornerAt clockwiseDiamond j).y :=
    ⟨0, by norm_num, by
      intro j hj hne
      interval_cases j <;> simp [cornerAt, clockwiseDiamond] at hne ⊢⟩
  ⟨⟨rfl, huniq⟩, DetermineMarkerOrientation_rotation_invariant clockwiseDiamond rfl huniq 1⟩

/-- C3: the classifier leaves the cyclic rotation of its input that starts at
`top`, the first index in input order whose `y` is the minimum of the four:
`output[i] = input[(top + i) mod 4]`, no corner of the output lies above
`output[0]`, and a corner tied with `input[top]` never precedes it. -/
theorem DetermineMarkerOrientation_canonical {K : Type} [LinearOrderedField K] [FloorRing K]
    (corners : List (Point2d K)) (hlen : corners.length = 4) :
    ∃ top, top < 4 ∧
      (∀ i, i < 4 → (cornerAt corners top).y ≤ (cornerAt corners i).y) ∧
      (∀ j, j < top → (cornerAt corners top).y < (cornerAt corners j).y) ∧
      (DetermineMarkerOrientation corners).2.length = 4 ∧
      (∀ i, i < 4 → cornerAt (DetermineMarkerOrientation corners).2 i
          = cornerAt corners ((top + i) % 4)) ∧
      (∀ i, i < 4 → (cornerAt (DetermineMarkerOrientation corners).2 0).y
          ≤ (cornerAt (DetermineMarkerOrientation corners).2 i).y) := by
  obtain ⟨a, b, c, d, rfl⟩ := length_four corners hlen
  obtain ⟨o0, o1, o2, o3⟩ := orderedCorners_four a b c d
  rcases topLoop_cases a b c d with ⟨ht, h1, h2, h3⟩ | ⟨ht, h1, h2, h3⟩ | ⟨ht, h1, h2, h3⟩ |
    ⟨ht, h1, h2, h3⟩
  · rw [DetermineMarkerOrientation_of_top _ 0 ht, o0]
    refine ⟨0, by norm_num, ?_, ?_, rfl, ?_, ?_⟩
    all_goals intro i hi; interval_cases i <;> simp [cornerAt] <;> linarith
  · rw [DetermineMarkerOrientation_of_top _ 1 ht, o1]
    refine ⟨1, by norm_num, ?_, ?_, rfl, ?_, ?_⟩
    all_goals intro i hi; interval_cases i <;> simp [cornerAt] <;> linarith
  · rw [DetermineMarkerOrientation_of_top _ 2 ht, o2]
    refine ⟨2, by norm_num, ?_, ?_, rfl, ?_, ?_⟩
    all_goals intro i hi; interval_cases i <;> simp [cornerAt] <;> linarith
  · rw [DetermineMarkerOrientation_of_top _ 3 ht, o3]
    refine ⟨3, by norm_num, ?_, ?_, rfl, ?_, ?_⟩
    all_goals intro i hi; interval_cases i <;> simp [cornerAt] <;> linarith

/-- C3 (witness): the canonical ordering of the axis-aligned square. -/
theorem DetermineMarkerOrientation_canonical_witness :
    alignedSquare.length = 4 ∧
    ∃ top, top < 4 ∧
      (∀ i, i < 4 → (cornerAt alignedSquare top).y ≤ (cornerAt alignedSquare i).y) ∧
      (∀ j, j < top → (cornerAt alignedSquare top).y < (cornerAt alignedSquare j).y) ∧
      (DetermineMarkerOrientation alignedSquare).2.length = 4 ∧
      (∀ i, i < 4 → cornerAt (DetermineMarkerOrientation alignedSquare).2 i
          = cornerAt alignedSquare ((top + i) % 4)) ∧
      (∀ i, i < 4 → (cornerAt (DetermineMarkerOrientation alignedSquare).2 0).y
          ≤ (cornerAt (DetermineMarkerOrientation alignedSquare).2 i).y) :=
  ⟨rfl, DetermineMarkerOrientation_canonical alignedSquare rfl⟩

/-- C4 (failing input): on `subPixelQuad` the lowest corner of the canonical
ordering is index 1 (skew-left by the stated rule) and the classifier returns
ROTATED: the corner at index 2, which lies higher, replaces it because the
running maximum is held truncated. -/
theorem DetermineMarkerOrientation_subpixel_bottom :
    DetermineMarkerOrientation subPixelQuad = (ROTATED, subPixelQuad) ∧
    bottommostClass (DetermineMarkerOrientation subPixelQuad).2 = SKEW_LEFT := by
  have hb : (DetermineMarkerOrientation.bottomLoop subPixelQuad).2 = 2 := by
    simp only [DetermineMarkerOrientation.bottomLoop, List.foldl_cons, List.foldl_nil,
      cornerAt, List.getD_cons_zero, List.getD_cons_succ, subPixelQuad]
    norm_num [toInt]
  have ht := DetermineMarkerOrientation_top_first (⟨10, 0⟩ : Point2d ℚ) ⟨20, 21 / 2⟩ ⟨8, 41 / 4⟩
    ⟨0, 3⟩ (by norm_num) (by norm_num) (by norm_num)
  have h1 : DetermineMarkerOrientation subPixelQuad = (ROTATED, subPixelQuad) := by
    rw [show subPixelQuad = [⟨10, 0⟩, ⟨20, 21 / 2⟩, ⟨8, 41 / 4⟩, ⟨0, 3⟩] from rfl] at hb ⊢
    rw [ht, hb]; rfl
  refine ⟨h1, ?_⟩
  rw [h1]
  simp only [bottommostClass, cornerAt, subPixelQuad, List.getD_cons_zero, List.getD_cons_succ]
  norm_num [List.find?, DetermineMarkerOrientation.switch]

/-- C5: running the classifier on the ordering left by a first run returns the
class of the first run and leaves the ordering as it is. -/
theorem DetermineMarkerOrientation_idempotent {K : Type} [LinearOrderedField K] [FloorRing K]
    (corners : List (Point2d K)) (hlen : corners.length = 4) :
    DetermineMarkerOrientation (DetermineMarkerOrientation corners).2
      = DetermineMarkerOrientation corners := by
  obtain ⟨a, b, c, d, rfl⟩ := length_four corners hlen
  obtain ⟨o0, o1, o2, o3⟩ := orderedCorners_four a b c d
  rcases topLoop_cases a b c d with ⟨ht, h1, h2, h3⟩ | ⟨ht, h1, h2, h3⟩ | ⟨ht, h1, h2, h3⟩ |
    ⟨ht, h1, h2, h3⟩
  · rw [DetermineMarkerOrientation_of_top _ 0 ht, o0]
    exact DetermineMarkerOrientation_top_first a b c d h1 h2 h3
  · rw [DetermineMarkerOrientation_of_top _ 1 ht, o1]
    exact DetermineMarkerOrientation_top_first b c d a h2 h3 h1.le
  · rw [DetermineMarkerOrientation_of_top _ 2 ht, o2]
    exact DetermineMarkerOrientation_top_first c d a b h3 h1.le h2.le
  · rw [DetermineMarkerOrientation_of_top _ 3 ht, o3]
    exact DetermineMarkerOrientation_top_first d a b c h1.le h2.le h3.le

/-- C5 (witness): two runs on the sub-pixel quadrilateral. -/
theorem DetermineMarkerOrientation_idempotent_witness :
    subPixelQuad.length = 4 ∧
    DetermineMarkerOrientation (DetermineMarkerOrientation subPixelQuad).2
      = DetermineMarkerOrientation subPixelQuad :=
  ⟨rfl, DetermineMarkerOrientation_idempotent subPixelQuad rfl⟩

/-! ### Region boundaries -/

theorem toInt_intCast {K : Type} [LinearOrderedField K] [FloorRing K] (n : Int) :
    toInt ((n : Int) : K) = n := by
  unfold toInt
  split_ifs
  · exact Int.floor_intCast n
  · rw [← Int.cast_neg, Int.floor_intCast]; ring

theorem toInt_mono {K : Type} [LinearOrderedField K] [FloorRing K] {v w : K} (h : v ≤ w) :
    toInt v ≤ toInt w := by
  unfold toInt
  split_ifs with hv hw hw
  · exact Int.floor_le_floor h
  · exact absurd (le_trans hv h) hw
  · have h1 : ⌊-v⌋ ≥ 0 := Int.floor_nonneg.2 (by linarith)
    have h2 : ⌊w⌋ ≥ 0 := Int.floor_nonneg.2 hw
    omega
  · have := Int.floor_le_floor (show -w ≤ -v by linarith)
    omega

/-- Rows written by one `for (int yPx = lo; yPx <= hi; yPx++)` loop that stores
`f yPx` at offset `yPx - top`. -/
theorem foldl_set_range (f : Int → Int) (top lo : Int) (n : Nat) (b : IntArray) (k : Int) :
    (((List.range n).map (fun (j : Nat) => lo + (j : Int))).foldl
        (fun (b : IntArray) yPx => b.set (yPx - top) (f yPx)) b) k
      = if lo ≤ k + top ∧ k + top < lo + n then f (k + top) else b k := by
  induction n with
  | zero =>
    simp only [List.range_zero, List.map_nil, List.foldl_nil]
    split_ifs with h
    · exfalso; simp at h; omega
    · rfl
  | succ n ih =>
    rw [List.range_succ, List.map_append, List.foldl_append]
    simp only [List.map_cons, List.map_nil, List.foldl_cons, List.foldl_nil, IntArray.set]
    rw [ih]
    by_cases hk : k = lo + (n : Int) - top
    · subst hk
      simp
    · simp only [hk, if_false]
      have e : (lo ≤ k + top ∧ k + top < lo + ((n + 1 : Nat) : Int)) ↔
          (lo ≤ k + top ∧ k + top < lo + (n : Int)) := by
        push_cast; constructor <;> intro h <;> constructor <;> omega
      simp only [e]

theorem foldl_set_intRange (f : Int → Int) (top lo hi : Int) (b : IntArray) (k : Int) :
    ((intRange lo hi).foldl (fun (b : IntArray) yPx => b.set (yPx - top) (f yPx)) b) k
      = if lo ≤ k + top ∧ k + top ≤ hi then f (k + top) else b k := by
  unfold intRange
  rw [foldl_set_range]
  have e : (lo ≤ k + top ∧ k + top < lo + (((hi + 1 - lo).toNat : Nat) : Int)) ↔
      (lo ≤ k + top ∧ k + top ≤ hi) := by
    constructor <;> intro h <;> constructor <;> omega
  simp only [e]

/-- Closed form of one segment pass of `GenerateBoundary`. -/
theorem GenerateBoundary_segment_apply {K : Type} [LinearOrderedField K] [FloorRing K]
    (F : FloatingPoint K) (b : IntArray) (corners : List (Point2d K)) (top : Int) (s : Nat)
    (k : Int) :
    GenerateBoundary.segment F b corners top s k =
      if toInt (cornerAt corners s).y ≤ k + top ∧ k + top ≤ toInt (cornerAt corners (s + 1)).y
      then toInt (F.toFloat (F.toFloat
          (DetermineSlope F (cornerAt corners s) (cornerAt corners (s + 1)) *
            F.toFloat (((k + top - toInt (cornerAt corners s).y : Int) : K)))
          + F.toFloat ((toInt (cornerAt corners s).x : Int) : K)))
      else b k := by
  unfold GenerateBoundary.segment
  exact foldl_set_intRange _ top _ _ b k

theorem GenerateBoundary_two {K : Type} [LinearOrderedField K] [FloorRing K]
    (F : FloatingPoint K) (b : IntArray) (p q : Point2d K) (top : Int) (r : Bool) :
    GenerateBoundary F b [p, q] top r = GenerateBoundary.segment F b [p, q] top 0 := by
  simp [GenerateBoundary, List.range_succ]

theorem GenerateBoundary_three {K : Type} [LinearOrderedField K] [FloorRing K]
    (F : FloatingPoint K) (b : IntArray) (p q u : Point2d K) (top : Int) (r : Bool) :
    GenerateBoundary F b [p, q, u] top r =
      GenerateBoundary.segment F (GenerateBoundary.segment F b [p, q, u] top 0) [p, q, u]
        top 1 := by
  simp [GenerateBoundary, List.range_succ]

theorem bottomLoop_cases_pixel (K : Type) [LinearOrderedField K] [FloorRing K]
    (xa ya xb yb xc yc xd yd : Int) :
    ((DetermineMarkerOrientation.bottomLoop [pixelCorner K xa ya, pixelCorner K xb yb,
        pixelCorner K xc yc, pixelCorner K xd yd]).2 = 0 ∧ yb ≤ ya ∧ yc ≤ ya ∧ yd ≤ ya) ∨
    ((DetermineMarkerOrientation.bottomLoop [pixelCorner K xa ya, pixelCorner K xb yb,
        pixelCorner K xc yc, pixelCorner K xd yd]).2 = 1 ∧ ya < yb ∧ yc ≤ yb ∧ yd ≤ yb) ∨
    ((DetermineMarkerOrientation.bottomLoop [pixelCorner K xa ya, pixelCorner K xb yb,
        pixelCorner K xc yc, pixelCorner K xd yd]).2 = 2 ∧ ya < yc ∧ yb < yc ∧ yd ≤ yc) ∨
    ((DetermineMarkerOrientation.bottomLoop [pixelCorner K xa ya, pixelCorner K xb yb,
        pixelCorner K xc yc, pixelCorner K xd yd]).2 = 3 ∧ ya < yd ∧ yb < yd ∧ yc < yd) := by
  simp only [DetermineMarkerOrientation.bottomLoop, List.foldl_cons, List.foldl_nil, cornerAt,
    List.getD_cons_zero, List.getD_cons_succ, pixelCorner, toInt_intCast, gt_iff_lt,
    Int.cast_lt]
  split_ifs with h1 h2 h3 h3 h2 h3 h3 <;> simp at * <;>
    refine ⟨?_, ?_, ?_⟩ <;> omega

/-- For corners at whole pixels the bottom loop picks the first index that
holds the maximum `y`, as the stated rule does. -/
theorem bottomLoop_pixel_bottommost (K : Type) [LinearOrderedField K] [FloorRing K]
    (xa ya xb yb xc yc xd yd : Int) :
    DetermineMarkerOrientation.switch (DetermineMarkerOrientation.bottomLoop
      [pixelCorner K xa ya, pixelCorner K xb yb, pixelCorner K xc yc, pixelCorner K xd yd]).2
    = bottommostClass
      [pixelCorner K xa ya, pixelCorner K xb yb, pixelCorner K xc yc, pixelCorner K xd yd] := by
  have hcast : max (max (ya : K) (yb : K)) (max (yc : K) (yd : K))
      = ((max (max ya yb) (max yc yd) : Int) : K) := by
    push_cast; rfl
  rcases bottomLoop_cases_pixel K xa ya xb yb xc yc xd yd with
    ⟨e, h1, h2, h3⟩ | ⟨e, h1, h2, h3⟩ | ⟨e, h1, h2, h3⟩ | ⟨e, h1, h2, h3⟩
  · rw [e]
    simp only [bottommostClass, cornerAt, List.getD_cons_zero, List.getD_cons_succ, pixelCorner,
      hcast]
    have hm : max (max ya yb) (max yc yd) = ya := by omega
    simp [hm, List.find?]
  · rw [e]
    simp only [bottommostClass, cornerAt, List.getD_cons_zero, List.getD_cons_succ, pixelCorner,
      hcast]
    have hm : max (max ya yb) (max yc yd) = yb := by omega
    have hne : ¬ ya = yb := by omega
    simp [hm, hne, List.find?]
  · rw [e]
    simp only [bottommostClass, cornerAt, List.getD_cons_zero, List.getD_cons_succ, pixelCorner,
      hcast]
    have hm : max (max ya yb) (max yc yd) = yc := by omega
    have hne : ¬ ya = yc := by omega
    have hne2 : ¬ yb = yc := by omega
    simp [hm, hne, hne2, List.find?]
  · rw [e]
    simp only [bottommostClass, cornerAt, List.getD_cons_zero, List.getD_cons_succ, pixelCorner,
      hcast]
    have hm : max (max ya yb) (max yc yd) = yd := by omega
    have hne : ¬ ya = yd := by omega
    have hne2 : ¬ yb = yd := by omega
    have hne3 : ¬ yc = yd := by omega
    simp [hm, hne, hne2, hne3, List.find?, DetermineMarkerOrientation.switch]

/-- The slope of the edge from (13, 2) to (6, 15) as the code computes it, the
`float` nearest to -7/13; its product with 13, rounded to `float`; and the sum
of that and 13, which is a `float` below 6. -/
theorem roundedEdge_values :
    DetermineSlope ieee754 (⟨13, 2⟩ : Point2d ℚ) ⟨6, 15⟩ = -(4516943 / 8388608) ∧
    ieee754.toFloat (58720259 / 8388608) = 14680065 / 2097152 ∧
    ieee754.toFloat (12582911 / 2097152) = 12582911 / 2097152 ∧
    toInt (12582911 / 2097152 : ℚ) = 5 := by
  have h1 : ieee754.toDouble (7 / 13) = 4850030367937457 / 9007199254740992 := by
    show roundBinary 53 (-1074) (7 / 13) = _
    rw [roundBinary_eval 53 (-1074) (7 / 13) (-1) (by norm_num [le_abs]) (by norm_num [abs_lt])]
    norm_num [roundNearestEven]
  have h2 : ieee754.toFloat (4850030367937457 / 9007199254740992) = 4516943 / 8388608 := by
    show roundBinary 24 (-149) _ = _
    rw [roundBinary_eval 24 (-149) _ (-1) (by norm_num [le_abs]) (by norm_num [abs_lt])]
    norm_num [roundNearestEven]
  have h3 : ieee754.toFloat (58720259 / 8388608) = 14680065 / 2097152 := by
    show roundBinary 24 (-149) _ = _
    rw [roundBinary_eval 24 (-149) _ 2 (by norm_num [le_abs]) (by norm_num [abs_lt])]
    norm_num [roundNearestEven]
  have h4 : ieee754.toFloat (12582911 / 2097152) = 12582911 / 2097152 := by
    show roundBinary 24 (-149) _ = _
    rw [roundBinary_eval 24 (-149) _ 2 (by norm_num [le_abs]) (by norm_num [abs_lt])]
    norm_num [roundNearestEven]
  refine ⟨?_, h3, h4, by norm_num [toInt]⟩
  have hne : ieee754.toDouble ((2 : ℚ) - 15) ≠ 0 := by norm_num
  simp only [DetermineSlope, FloatingPoint.divide, if_neg hne]
  norm_num [h1, h2]

/-- The quadrilateral with corners (0, 1), (13, 2), (6, 15), (2, 13) is
classified ROTATED and kept in its order. -/
theorem roundedQuad_class :
    DetermineMarkerOrientation roundedQuad = (ROTATED, roundedQuad) := by
  have hb : (DetermineMarkerOrientation.bottomLoop roundedQuad).2 = 2 := by
    simp only [DetermineMarkerOrientation.bottomLoop, List.foldl_cons, List.foldl_nil,
      cornerAt, List.getD_cons_zero, List.getD_cons_succ, roundedQuad]
    norm_num [toInt]
  have ht := DetermineMarkerOrientation_top_first (⟨0, 1⟩ : Point2d ℚ) ⟨13, 2⟩ ⟨6, 15⟩ ⟨2, 13⟩
    (by norm_num) (by norm_num) (by norm_num)
  rw [show roundedQuad = [⟨0, 1⟩, ⟨13, 2⟩, ⟨6, 15⟩, ⟨2, 13⟩] from rfl] at hb ⊢
  rw [ht, hb]; rfl

/-- C6 (failing input): the quadrilateral with the whole-pixel corners (0, 1),
(13, 2), (6, 15), (2, 13) is strictly convex and listed clockwise; it is
classified ROTATED and kept in its order, its region has the rows 1 to 15, and
at row 15, the row of its bottom corner (6, 15) where both paths end, the left
boundary is column 6 and the right boundary column 5, whatever the fresh
arrays held: `leftBoundary[row - top] <= rightBoundary[row - top]` fails. -/
theorem region_left_exceeds_right (newLeft newRight : IntArray) :
    ClockwiseConvex roundedQuad ∧
    DetermineMarkerOrientation roundedQuad = (ROTATED, roundedQuad) ∧
    (GenerateItkData.boundaries ieee754 roundedQuad newLeft newRight).top = 1 ∧
    (GenerateItkData.boundaries ieee754 roundedQuad newLeft newRight).bottom = 15 ∧
    (GenerateItkData.boundaries ieee754 roundedQuad newLeft newRight).leftBoundary (15 - 1) = 6 ∧
    (GenerateItkData.boundaries ieee754 roundedQuad newLeft newRight).rightBoundary (15 - 1)
      = 5 := by
  obtain ⟨hm, hp, hs, hi⟩ := roundedEdge_values
  refine ⟨?_, roundedQuad_class, ?_, ?_, ?_, ?_⟩
  · simp only [ClockwiseConvex, turn, cornerAt, roundedQuad, List.getD_cons_zero,
      List.getD_cons_succ]
    norm_num
  · unfold GenerateItkData.boundaries
    rw [roundedQuad_class]
    simp only [GenerateItkData.region, GenerateRotatedItkData.region, cornerAt, roundedQuad,
      List.getD_cons_zero, List.getD_cons_succ]
    norm_num [toInt]
  · unfold GenerateItkData.boundaries
    rw [roundedQuad_class]
    simp only [GenerateItkData.region, GenerateRotatedItkData.region, cornerAt, roundedQuad,
      List.getD_cons_zero, List.getD_cons_succ]
    norm_num [toInt]
  · unfold GenerateItkData.boundaries
    rw [roundedQuad_class]
    simp only [GenerateItkData.region, GenerateRotatedItkData.region, cornerAt, roundedQuad,
      List.getD_cons_zero, List.getD_cons_succ, GenerateBoundary_three,
      GenerateBoundary_segment_apply]
    have hne : ieee754.toDouble ((13 : ℚ) - 15) ≠ 0 := by norm_num
    norm_num [toInt, DetermineSlope, FloatingPoint.divide, hne]
  · unfold GenerateItkData.boundaries
    rw [roundedQuad_class]
    simp only [GenerateItkData.region, GenerateRotatedItkData.region, cornerAt, roundedQuad,
      List.getD_cons_zero, List.getD_cons_succ, GenerateBoundary_three,
      GenerateBoundary_segment_apply, hm]
    norm_num [toInt, hp, hs]

/-- The extractors take the corners to be listed clockwise: the diamond listed
counter-clockwise is convex, is classified ROTATED, and at row 5 of its region
the left boundary is column 10 and the right boundary column 0. -/
theorem region_counterclockwise_example :
    (turn (cornerAt counterClockwiseDiamond 0) (cornerAt counterClockwiseDiamond 1)
        (cornerAt counterClockwiseDiamond 2) < 0 ∧
      turn (cornerAt counterClockwiseDiamond 1) (cornerAt counterClockwiseDiamond 2)
        (cornerAt counterClockwiseDiamond 3) < 0 ∧
      turn (cornerAt counterClockwiseDiamond 2) (cornerAt counterClockwiseDiamond 3)
        (cornerAt counterClockwiseDiamond 0) < 0 ∧
      turn (cornerAt counterClockwiseDiamond 3) (cornerAt counterClockwiseDiamond 0)
        (cornerAt counterClockwiseDiamond 1) < 0) ∧
    DetermineMarkerOrientation counterClockwiseDiamond = (ROTATED, counterClockwiseDiamond) ∧
    (GenerateItkData.boundaries ieee754 counterClockwiseDiamond (fun _ => 0) (fun _ => 0)).top = 0 ∧
    (GenerateItkData.boundaries ieee754 counterClockwiseDiamond (fun _ => 0) (fun _ => 0)).bottom = 10 ∧
    (GenerateItkData.boundaries ieee754 counterClockwiseDiamond (fun _ => 0) (fun _ => 0)).leftBoundary
      (5 - 0) = 10 ∧
    (GenerateItkData.boundaries ieee754 counterClockwiseDiamond (fun _ => 0) (fun _ => 0)).rightBoundary
      (5 - 0) = 0 ∧
    ¬ ((GenerateItkData.boundaries ieee754 counterClockwiseDiamond (fun _ => 0)
        (fun _ => 0)).leftBoundary (5 - 0) ≤
      (GenerateItkData.boundaries ieee754 counterClockwiseDiamond (fun _ => 0)
        (fun _ => 0)).rightBoundary (5 - 0)) := by
  have hcls : DetermineMarkerOrientation counterClockwiseDiamond
      = (ROTATED, counterClockwiseDiamond) := by
    have hb : (DetermineMarkerOrientation.bottomLoop counterClockwiseDiamond).2 = 2 := by
      simp only [DetermineMarkerOrientation.bottomLoop, List.foldl_cons, List.foldl_nil,
        cornerAt, List.getD_cons_zero, List.getD_cons_succ, counterClockwiseDiamond]
      norm_num [toInt]
    have ht := DetermineMarkerOrientation_top_first (⟨5, 0⟩ : Point2d ℚ) ⟨0, 5⟩ ⟨5, 10⟩ ⟨10, 5⟩
      (by norm_num) (by norm_num) (by norm_num)
    rw [show counterClockwiseDiamond = [⟨5, 0⟩, ⟨0, 5⟩, ⟨5, 10⟩, ⟨10, 5⟩] from rfl] at hb ⊢
    rw [ht, hb]; rfl
  refine ⟨?_, hcls, ?_, ?_, ?_, ?_, ?_⟩
  · simp only [turn, cornerAt, counterClockwiseDiamond, List.getD_cons_zero,
      List.getD_cons_succ]
    norm_num
  all_goals
    unfold GenerateItkData.boundaries
    rw [hcls]
    simp only [GenerateItkData.region, GenerateRotatedItkData.region, cornerAt,
      counterClockwiseDiamond, List.getD_cons_zero, List.getD_cons_succ,
      GenerateBoundary_three, GenerateBoundary_segment_apply]
    norm_num [toInt, DetermineSlope, FloatingPoint.divide]

/-! ### Depth filter -/

theorem CopyToItkData_row {K : Type} [LinearOrderedField K]
    (vtkDepthData : PolyData K) (yPx : Int) (cols : List Int) (itkData : List (Point3 K)) :
    cols.foldl (fun itkData xPx => CopyToItkData.pixel vtkDepthData itkData yPx xPx) itkData
      = itkData ++ ((cols.map (fun xPx => 640 * yPx + xPx)).map vtkDepthData).filter
          (fun p => decide (50 < p.z ∧ p.z < 2000)) := by
  induction cols generalizing itkData with
  | nil => simp
  | cons xPx cols ih =>
    rw [List.foldl_cons, ih]
    by_cases h : 50 < (vtkDepthData (640 * yPx + xPx)).z ∧ (vtkDepthData (640 * yPx + xPx)).z < 2000
    · simp [CopyToItkData.pixel, h, List.filter_cons]
    · simp [CopyToItkData.pixel, h, List.filter_cons]

theorem CopyToItkData_rows {K : Type} [LinearOrderedField K]
    (vtkDepthData : PolyData K) (cols : Int → List Int) (rows : List Int)
    (itkData : List (Point3 K)) :
    rows.foldl (fun itkData yPx =>
        (cols yPx).foldl (fun itkData xPx => CopyToItkData.pixel vtkDepthData itkData yPx xPx)
          itkData) itkData
      = itkData ++ ((rows.flatMap (fun yPx => (cols yPx).map (fun xPx => 640 * yPx + xPx))).map
          vtkDepthData).filter (fun p => decide (50 < p.z ∧ p.z < 2000)) := by
  induction rows generalizing itkData with
  | nil => simp
  | cons yPx rows ih =>
    rw [List.foldl_cons, ih, CopyToItkData_row]
    simp [List.flatMap_cons, List.filter_append, List.append_assoc]

/-- C7: what `CopyToItkData` appends is the list of samples visited by the scan
with those kept whose depth satisfies `50 < z < 2000`: a visited sample is
appended exactly when its depth is strictly inside the band, and no appended
sample has depth 50 or 2000. -/
theorem CopyToItkData_depth_filter {K : Type} [LinearOrderedField K]
    (vtkDepthData : PolyData K) (itkData : List (Point3 K)) (top bottom : Int)
    (leftBoundary rightBoundary : IntArray) :
    ∃ appended : List (Point3 K),
      CopyToItkData vtkDepthData itkData top bottom leftBoundary rightBoundary
        = itkData ++ appended ∧
      appended = ((CopyToItkData.visited top bottom leftBoundary rightBoundary).map
        vtkDepthData).filter (fun p => decide (50 < p.z ∧ p.z < 2000)) ∧
      (∀ ptId ∈ CopyToItkData.visited top bottom leftBoundary rightBoundary,
        (vtkDepthData ptId ∈ appended ↔
          50 < (vtkDepthData ptId).z ∧ (vtkDepthData ptId).z < 2000)) ∧
      (∀ p ∈ appended, p.z ≠ 50 ∧ p.z ≠ 2000) := by
  refine ⟨_, ?_, rfl, ?_, ?_⟩
  · exact CopyToItkData_rows vtkDepthData
      (fun yPx => intRange (leftBoundary (yPx - top)) (rightBoundary (yPx - top)))
      (intRange top bottom) itkData
  · intro ptId hpt
    simp only [List.mem_filter, List.mem_map, decide_eq_true_eq]
    constructor
    · intro h; exact h.2
    · intro h; exact ⟨⟨ptId, hpt, rfl⟩, h⟩
  · intro p hp
    simp only [List.mem_filter, decide_eq_true_eq] at hp
    exact ⟨ne_of_gt hp.2.1, ne_of_lt hp.2.2⟩

/-! ### Samples of a small marker -/

/-- The small square is classified ROTATED and kept in its order. -/
theorem smallSquare_class :
    DetermineMarkerOrientation smallSquare = (ROTATED, smallSquare) := by
  have hb : (DetermineMarkerOrientation.bottomLoop smallSquare).2 = 2 := by
    simp only [DetermineMarkerOrientation.bottomLoop, List.foldl_cons, List.foldl_nil,
      cornerAt, List.getD_cons_zero, List.getD_cons_succ, smallSquare]
    norm_num [toInt]
  have ht := DetermineMarkerOrientation_top_first (⟨5, 5⟩ : Point2d ℚ) ⟨6, 5⟩ ⟨6, 6⟩ ⟨5, 6⟩
    (by norm_num) (by norm_num) (by norm_num)
  rw [show smallSquare = [⟨5, 5⟩, ⟨6, 5⟩, ⟨6, 6⟩, ⟨5, 6⟩] from rfl] at hb ⊢
  rw [ht, hb]; rfl

/-- Rows and column bounds of the region of the small square. -/
theorem smallSquare_boundaries (newLeft newRight : IntArray) :
    (GenerateItkData.boundaries ieee754 smallSquare newLeft newRight).top = 5 ∧
    (GenerateItkData.boundaries ieee754 smallSquare newLeft newRight).bottom = 6 ∧
    (GenerateItkData.boundaries ieee754 smallSquare newLeft newRight).leftBoundary 0 = 5 ∧
    (GenerateItkData.boundaries ieee754 smallSquare newLeft newRight).leftBoundary 1 = 5 ∧
    (GenerateItkData.boundaries ieee754 smallSquare newLeft newRight).rightBoundary 0 = 6 ∧
    (GenerateItkData.boundaries ieee754 smallSquare newLeft newRight).rightBoundary 1 = 6 := by
  refine ⟨?_, ?_, ?_, ?_, ?_, ?_⟩
  all_goals
    unfold GenerateItkData.boundaries
    rw [smallSquare_class]
    simp only [GenerateItkData.region, GenerateRotatedItkData.region, cornerAt,
      smallSquare, List.getD_cons_zero, List.getD_cons_succ,
      GenerateBoundary_three, GenerateBoundary_segment_apply]
    norm_num [toInt, DetermineSlope, FloatingPoint.divide]

/-- The rows the scan of the small square visits. -/
theorem intRange_5_6 : intRange 5 6 = [5, 6] := by decide

/-- The samples `GenerateItkData` collects for the small square: the points
3205, 3206, 3845 and 3846 of the cloud that pass the depth filter. -/
theorem smallSquare_samples (vtkDepthData : PolyData ℚ) (newLeft newRight : IntArray) :
    GenerateItkData ieee754 vtkDepthData [] smallSquare newLeft newRight
      = ([3205, 3206, 3845, 3846].map vtkDepthData).filter
          (fun p => decide (50 < p.z ∧ p.z < 2000)) := by
  obtain ⟨h1, h2, h3, h4, h5, h6⟩ := smallSquare_boundaries newLeft newRight
  have e := CopyToItkData_rows vtkDepthData
    (fun yPx => intRange
      ((GenerateItkData.boundaries ieee754 smallSquare newLeft newRight).leftBoundary
        (yPx - (GenerateItkData.boundaries ieee754 smallSquare newLeft newRight).top))
      ((GenerateItkData.boundaries ieee754 smallSquare newLeft newRight).rightBoundary
        (yPx - (GenerateItkData.boundaries ieee754 smallSquare newLeft newRight).top)))
    (intRange (GenerateItkData.boundaries ieee754 smallSquare newLeft newRight).top
      (GenerateItkData.boundaries ieee754 smallSquare newLeft newRight).bottom) []
  simp only [GenerateItkData, CopyToItkData]
  rw [e, List.nil_append]
  simp only [h1, h2, intRange_5_6,
    List.flatMap_cons, List.flatMap_nil, sub_self, h3, h5,
    show (6 : Int) - 5 = 1 from rfl, h4, h6, List.map_cons, List.map_nil, List.append_nil,
    List.cons_append, List.nil_append]
  norm_num

/-- One point of the cloud in the depth band: one sample. -/
theorem smallSquare_samples_one (newLeft newRight : IntArray) :
    GenerateItkData ieee754 (sampleCloud [3205]) [] smallSquare newLeft newRight = [⟨0, 0, 100⟩] := by
  rw [smallSquare_samples]
  simp only [sampleCloud, List.map_cons, List.map_nil]
  norm_num

/-- No point of the cloud in the depth band: no sample. -/
theorem smallSquare_samples_none (newLeft newRight : IntArray) :
    GenerateItkData ieee754 (sampleCloud []) [] smallSquare newLeft newRight = [] := by
  rw [smallSquare_samples]
  simp only [sampleCloud, List.map_cons, List.map_nil]
  norm_num

/-- Three points of the cloud in the depth band: three samples. -/
theorem smallSquare_samples_three (newLeft newRight : IntArray) :
    GenerateItkData ieee754 (sampleCloud [3205, 3206, 3845]) [] smallSquare newLeft newRight
      = [⟨0, 0, 100⟩, ⟨0, 0, 100⟩, ⟨0, 0, 100⟩] := by
  rw [smallSquare_samples]
  simp only [sampleCloud, List.map_cons, List.map_nil]
  norm_num

/-! ### Entries of the plane transform -/

/-- The double loop that copies a 3x3 matrix into the rotation block of a 4x4
matrix leaves the last row and the last column as they were. -/
theorem setRotation_apply {K : Type} (R : Mat3 K) (m : Mat4 K) (i j : Fin 4) :
    (([0, 1, 2] : List (Fin 3)).foldl (fun (m : Mat4 K) row =>
      ([0, 1, 2] : List (Fin 3)).foldl (fun (m : Mat4 K) col =>
        m.SetElement row.castSucc col.castSucc (R row col)) m) m) i j =
      ![![R 0 0, R 0 1, R 0 2, m 0 3], ![R 1 0, R 1 1, R 1 2, m 1 3],
        ![R 2 0, R 2 1, R 2 2, m 2 3], ![m 3 0, m 3 1, m 3 2, m 3 3]] i j := by
  have c2 : (Fin.castSucc (2 : Fin 3) : Fin 4) = 2 := rfl
  fin_cases i <;> fin_cases j <;>
    simp [Mat4.SetElement, List.foldl_cons, List.foldl_nil, c2]

/-- The entries of the matrix `ComputePlaneTransform` produces: the three axes
in the columns of the rotation block, the centre with its second component
negated in the last column, and the last row of the identity. -/
theorem ComputePlaneTransform_apply {K : Type} [LinearOrderedField K] (F : FloatingPoint K)
    (M : MathFunctions K) (x_axis z_axis center : Fin 4 → K) (i j : Fin 4) :
    ComputePlaneTransform F M x_axis z_axis center i j =
      ![![(ComputePlaneTransform.axes F M (normalize F M ![x_axis 0, x_axis 1, x_axis 2])
            (ComputePlaneTransform.zAxis F M z_axis)).1 0,
          (ComputePlaneTransform.axes F M (normalize F M ![x_axis 0, x_axis 1, x_axis 2])
            (ComputePlaneTransform.zAxis F M z_axis)).2 0,
          ComputePlaneTransform.zAxis F M z_axis 0, center 0],
        ![(ComputePlaneTransform.axes F M (normalize F M ![x_axis 0, x_axis 1, x_axis 2])
            (ComputePlaneTransform.zAxis F M z_axis)).1 1,
          (ComputePlaneTransform.axes F M (normalize F M ![x_axis 0, x_axis 1, x_axis 2])
            (ComputePlaneTransform.zAxis F M z_axis)).2 1,
          ComputePlaneTransform.zAxis F M z_axis 1, -center 1],
        ![(ComputePlaneTransform.axes F M (normalize F M ![x_axis 0, x_axis 1, x_axis 2])
            (ComputePlaneTransform.zAxis F M z_axis)).1 2,
          (ComputePlaneTransform.axes F M (normalize F M ![x_axis 0, x_axis 1, x_axis 2])
            (ComputePlaneTransform.zAxis F M z_axis)).2 2,
          ComputePlaneTransform.zAxis F M z_axis 2, center 2],
        ![0, 0, 0, 1]] i j := by
  simp only [ComputePlaneTransform, ComputePlaneTransform.axes, ComputePlaneTransform.zAxis,
    ComputePlaneTransform.corrected, Mat4.SetElement, setRotation_apply]
  fin_cases i <;> fin_cases j <;> simp [Mat4.Identity]

/-! ### Per-frame update -/

/-- An object other than the output is left as it was by component fusion. -/
theorem ComputeComponentFusion_other {P K : Type} [DecidableEq P] [Zero K] [One K]
    (mem : MatrixStore P K) (rgb depth prev q : P) (hq : q ≠ prev) :
    ComputeComponentFusion mem rgb depth prev q = mem q := by
  simp [ComputeComponentFusion, MatrixStore.Identity, MatrixStore.SetElement, hq]

/-- What `fuse` keeps and what it adds. -/
theorem fuse_spec {K : Type} [LinearOrderedField K] (n : Nat) (ts : K) (s : ToolPass K) :
    (InternalUpdate.fuse n ts s).tool.ToolSourceId = s.tool.ToolSourceId ∧
    (InternalUpdate.fuse n ts s).tool.DepthMarkerToCamera = s.tool.DepthMarkerToCamera ∧
    (InternalUpdate.fuse n ts s).depthSteps = s.depthSteps ∧
    (InternalUpdate.fuse n ts s).returned = s.returned ∧
    (InternalUpdate.fuse n ts s).toolInFrame = s.toolInFrame ∧
    ∃ new, (InternalUpdate.fuse n ts s).updates = s.updates ++ new ∧
      ∀ u ∈ new, u.ToolSourceId = s.tool.ToolSourceId := by
  unfold InternalUpdate.fuse
  cases h : s.tool.DataFusionMethod
  · exact ⟨rfl, rfl, rfl, rfl, rfl, _, rfl, by simp⟩
  · exact ⟨rfl, rfl, rfl, rfl, rfl, _, rfl, by simp⟩
  · refine ⟨rfl, ?_, rfl, rfl, rfl, _, rfl, by simp⟩
    dsimp only
    exact @ComputeComponentFusion_other ToolMatrix K _ _ _ _ ToolMatrix.Rgb ToolMatrix.Depth
      ToolMatrix.Previous
      ToolMatrix.Depth (by decide)
  · exact ⟨rfl, rfl, rfl, rfl, rfl, [], by simp, by simp⟩

/-- The marker loop keeps the source id of the tool and only adds updates that
carry it. -/
theorem markerLoop_updates {K : Type} [LinearOrderedField K] [FloorRing K]
    (E : Collaborators K) (it : INPUT_TYPE) (pd : PolyData K) (n : Nat) (ts : K)
    (ms : List (Marker K)) (s : ToolPass K) :
    (InternalUpdate.markerLoop E it pd n ts ms s).tool.ToolSourceId = s.tool.ToolSourceId ∧
    ∃ new, (InternalUpdate.markerLoop E it pd n ts ms s).updates = s.updates ++ new ∧
      ∀ u ∈ new, u.ToolSourceId = s.tool.ToolSourceId := by
  induction ms generalizing s with
  | nil => exact ⟨rfl, [], by simp [InternalUpdate.markerLoop], by simp⟩
  | cons m rest ih =>
    simp only [InternalUpdate.markerLoop]
    split_ifs
    all_goals first
      | exact ih _
      | exact ⟨rfl, [], by simp, by simp⟩
      | exact ⟨(fuse_spec n ts _).1, (fuse_spec n ts _).2.2.2.2.2⟩

/-- With RGB-only input the marker loop takes no depth step, leaves the depth
matrix as it was and does not return from the update. -/
theorem markerLoop_rgb_input {K : Type} [LinearOrderedField K] [FloorRing K]
    (E : Collaborators K) (pd : PolyData K) (n : Nat) (ts : K)
    (ms : List (Marker K)) (s : ToolPass K) :
    (InternalUpdate.markerLoop E INPUT_RGB_ONLY pd n ts ms s).depthSteps = s.depthSteps ∧
    (InternalUpdate.markerLoop E INPUT_RGB_ONLY pd n ts ms s).tool.DepthMarkerToCamera
      = s.tool.DepthMarkerToCamera ∧
    (InternalUpdate.markerLoop E INPUT_RGB_ONLY pd n ts ms s).returned = s.returned := by
  induction ms generalizing s with
  | nil => exact ⟨rfl, rfl, rfl⟩
  | cons m rest ih =>
    have hne : ¬ (INPUT_RGB_ONLY = INPUT_RGB_AND_DEPTH) := by decide
    simp only [InternalUpdate.markerLoop, hne, if_false]
    split_ifs
    all_goals first
      | exact ih _
      | exact ⟨rfl, rfl, rfl⟩
      | exact ⟨(fuse_spec n ts _).2.2.1, (fuse_spec n ts _).2.1, (fuse_spec n ts _).2.2.2.1⟩

/-- A tool whose marker id no detection carries passes the marker loop
untouched. -/
theorem markerLoop_no_match {K : Type} [LinearOrderedField K] [FloorRing K]
    (E : Collaborators K) (it : INPUT_TYPE) (pd : PolyData K) (n : Nat) (ts : K)
    (ms : List (Marker K)) (s : ToolPass K) (h : ∀ m ∈ ms, m.id ≠ s.tool.MarkerId) :
    InternalUpdate.markerLoop E it pd n ts ms s = s := by
  induction ms generalizing s with
  | nil => rfl
  | cons m rest ih =>
    simp only [InternalUpdate.markerLoop]
    have hm : ¬ s.tool.MarkerId = m.id := fun e => h m (List.mem_cons_self _ _) e.symm
    rw [if_neg hm]
    exact ih s (fun m' hm' => h m' (List.mem_cons_of_mem _ hm'))

theorem toolStep_returned {K : Type} [LinearOrderedField K] [FloorRing K]
    (E : Collaborators K) (it : INPUT_TYPE) (frame : FrameInput K) (n : Nat)
    (s : ToolLoop K) (t : TrackedTool K) (h : s.returned = true) :
    (InternalUpdate.toolStep E it frame n s t).returned = true := by
  simp [InternalUpdate.toolStep, h]

theorem toolLoop_returned {K : Type} [LinearOrderedField K] [FloorRing K]
    (E : Collaborators K) (it : INPUT_TYPE) (frame : FrameInput K) (n : Nat)
    (ts : List (TrackedTool K)) (s : ToolLoop K) (h : s.returned = true) :
    (ts.foldl (InternalUpdate.toolStep E it frame n) s).returned = true := by
  induction ts generalizing s with
  | nil => exact h
  | cons t ts ih => exact ih _ (toolStep_returned E it frame n s t h)

/-- An iteration of the tool loop only adds updates that carry the source id
of its tool. -/
theorem toolStep_updates {K : Type} [LinearOrderedField K] [FloorRing K]
    (E : Collaborators K) (it : INPUT_TYPE) (frame : FrameInput K) (n : Nat)
    (s : ToolLoop K) (t : TrackedTool K) :
    ∃ new, (InternalUpdate.toolStep E it frame n s t).updates = s.updates ++ new ∧
      ∀ u ∈ new, u.ToolSourceId = t.ToolSourceId := by
  obtain ⟨hid, new, hnew, hall⟩ := markerLoop_updates E it frame.markerPolyData n
    frame.unfilteredTimestamp frame.Markers ⟨t, false, s.updates, s.depthSteps, false⟩
  simp only at hid hnew hall
  simp only [InternalUpdate.toolStep]
  split_ifs
  · exact ⟨[], by simp, by simp⟩
  · exact ⟨new, hnew, hall⟩
  · refine ⟨new ++ [⟨(InternalUpdate.markerLoop E it frame.markerPolyData n
        frame.unfilteredTimestamp frame.Markers
        ⟨t, false, s.updates, s.depthSteps, false⟩).tool.ToolSourceId, Mat4.Identity,
        TOOL_OUT_OF_VIEW, n, frame.unfilteredTimestamp⟩], ?_, ?_⟩
    · simp only [hnew, List.append_assoc]
    · intro u hu
      rcases List.mem_append.1 hu with h | h
      · exact hall u h
      · simp only [List.mem_singleton] at h
        rw [h]; exact hid
  · exact ⟨new, hnew, hall⟩

theorem toolLoop_filter {K : Type} [LinearOrderedField K] [FloorRing K]
    (E : Collaborators K) (it : INPUT_TYPE) (frame : FrameInput K) (n : Nat)
    (ts : List (TrackedTool K)) (s : ToolLoop K) (x : String)
    (h : ∀ t ∈ ts, t.ToolSourceId ≠ x) :
    (ts.foldl (InternalUpdate.toolStep E it frame n) s).updates.filter
        (fun u => u.ToolSourceId = x)
      = s.updates.filter (fun u => u.ToolSourceId = x) := by
  induction ts generalizing s with
  | nil => rfl
  | cons t ts ih =>
    rw [List.foldl_cons, ih _ (fun t' ht' => h t' (List.mem_cons_of_mem _ ht'))]
    obtain ⟨new, hnew, hall⟩ := toolStep_updates E it frame n s t
    rw [hnew, List.filter_append]
    have : new.filter (fun u => decide (u.ToolSourceId = x)) = [] := by
      rw [List.filter_eq_nil_iff]
      intro u hu
      simp only [decide_eq_true_eq]
      rw [hall u hu]
      exact h t (List.mem_cons_self _ _)
    rw [this, List.append_nil]

/-- A call that increments the frame counter ran the tool loop to its end, and
its updates are those of the loop. -/
theorem InternalUpdate_to_end {K : Type} [LinearOrderedField K] [FloorRing K]
    (E : Collaborators K) (frame : FrameInput K) (this : Tracker K)
    (hend : (InternalUpdate E frame this).tracker.FrameNumber = this.FrameNumber + 1) :
    (this.Tools.foldl (InternalUpdate.toolStep E this.InputType frame this.FrameNumber)
        ⟨[], [], [], false⟩).returned = false ∧
    (InternalUpdate E frame this).updates =
      (this.Tools.foldl (InternalUpdate.toolStep E this.InputType frame this.FrameNumber)
        ⟨[], [], [], false⟩).updates := by
  simp only [InternalUpdate] at hend ⊢
  split_ifs at hend ⊢ with h1 h2 h3 h4 h5 h6 h7
  all_goals first
    | (exfalso; simp at hend; done)
    | exact ⟨by simpa using h7, rfl⟩

/-- C8 (amended): in a call of `InternalUpdate` that processes the frame to the
end (the frame counter is incremented), a tool whose marker id is the id of no
detection, and whose source id no other tool has, is given exactly one update:
the identity transform with status TOOL_OUT_OF_VIEW, and no TOOL_OK update. -/
theorem InternalUpdate_out_of_view {K : Type} [LinearOrderedField K] [FloorRing K]
    (E : Collaborators K) (frame : FrameInput K) (this : Tracker K)
    (pre post : List (TrackedTool K)) (tool : TrackedTool K)
    (hTools : this.Tools = pre ++ tool :: post)
    (hend : (InternalUpdate E frame this).tracker.FrameNumber = this.FrameNumber + 1)
    (hno : ∀ m ∈ frame.Markers, m.id ≠ tool.MarkerId)
    (hid : ∀ t ∈ pre ++ post, t.ToolSourceId ≠ tool.ToolSourceId) :
    (InternalUpdate E frame this).updates.filter (fun u => u.ToolSourceId = tool.ToolSourceId)
      = [⟨tool.ToolSourceId, Mat4.Identity, TOOL_OUT_OF_VIEW, this.FrameNumber,
          frame.unfilteredTimestamp⟩] := by
  obtain ⟨hret, hupd⟩ := InternalUpdate_to_end E frame this hend
  rw [hupd, hTools, List.foldl_append, List.foldl_cons]
  rw [hTools, List.foldl_append, List.foldl_cons] at hret
  have h1 : (pre.foldl (InternalUpdate.toolStep E this.InputType frame this.FrameNumber)
      ⟨[], [], [], false⟩).returned = false := by
    by_contra hc
    rw [Bool.not_eq_false] at hc
    rw [toolLoop_returned E _ frame _ post _
      (toolStep_returned E _ frame _ _ tool hc)] at hret
    exact Bool.noConfusion hret
  rw [toolLoop_filter E _ frame _ post _ _
    (fun t ht => hid t (List.mem_append_right _ ht))]
  have hpass := markerLoop_no_match E this.InputType frame.markerPolyData this.FrameNumber
    frame.unfilteredTimestamp frame.Markers
    ⟨tool, false, (pre.foldl (InternalUpdate.toolStep E this.InputType frame this.FrameNumber)
      ⟨[], [], [], false⟩).updates,
      (pre.foldl (InternalUpdate.toolStep E this.InputType frame this.FrameNumber)
      ⟨[], [], [], false⟩).depthSteps, false⟩ hno
  simp only [InternalUpdate.toolStep, h1, hpass, Bool.false_eq_true, if_false, Bool.not_false,
    if_true, List.filter_append]
  rw [toolLoop_filter E _ frame _ pre _ _
    (fun t ht => hid t (List.mem_append_left _ ht))]
  simp

/-- C8 (witness): RGB-only input, tool B out of view while tool A is seen. -/
theorem InternalUpdate_out_of_view_witness :
    ((⟨INPUT_RGB_ONLY, [sampleTool "A" 1 FUSION_RGB_ONLY, sampleTool "B" 2 FUSION_RGB_ONLY], 0⟩ :
        Tracker ℚ).Tools
        = [sampleTool "A" 1 FUSION_RGB_ONLY] ++ sampleTool "B" 2 FUSION_RGB_ONLY :: [] ∧
      (InternalUpdate (sampleCollaborators []) (sampleFrame 1 [⟨1, smallSquare⟩] [])
        ⟨INPUT_RGB_ONLY, [sampleTool "A" 1 FUSION_RGB_ONLY, sampleTool "B" 2 FUSION_RGB_ONLY],
          0⟩).tracker.FrameNumber = 0 + 1 ∧
      (∀ m ∈ (sampleFrame 1 [⟨1, smallSquare⟩] []).Markers,
        m.id ≠ (sampleTool "B" 2 FUSION_RGB_ONLY).MarkerId) ∧
      (∀ t ∈ [sampleTool "A" 1 FUSION_RGB_ONLY] ++ [],
        t.ToolSourceId ≠ (sampleTool "B" 2 FUSION_RGB_ONLY).ToolSourceId)) ∧
    (InternalUpdate (sampleCollaborators []) (sampleFrame 1 [⟨1, smallSquare⟩] [])
        ⟨INPUT_RGB_ONLY, [sampleTool "A" 1 FUSION_RGB_ONLY, sampleTool "B" 2 FUSION_RGB_ONLY],
          0⟩).updates.filter
        (fun u => u.ToolSourceId = (sampleTool "B" 2 FUSION_RGB_ONLY).ToolSourceId)
      = [⟨(sampleTool "B" 2 FUSION_RGB_ONLY).ToolSourceId, Mat4.Identity, TOOL_OUT_OF_VIEW, 0,
          (sampleFrame 1 [⟨1, smallSquare⟩] []).unfilteredTimestamp⟩] :=
  have hend : (InternalUpdate (sampleCollaborators []) (sampleFrame 1 [⟨1, smallSquare⟩] [])
        ⟨INPUT_RGB_ONLY, [sampleTool "A" 1 FUSION_RGB_ONLY, sampleTool "B" 2 FUSION_RGB_ONLY],
          0⟩).tracker.FrameNumber = 0 + 1 := by
    simp [InternalUpdate, InternalUpdate.toolStep, InternalUpdate.markerLoop,
      InternalUpdate.fuse, sampleFrame, sampleTool, sampleCollaborators]
  have hno : ∀ m ∈ (sampleFrame 1 [⟨1, smallSquare⟩] []).Markers,
      m.id ≠ (sampleTool "B" 2 FUSION_RGB_ONLY).MarkerId := by
    simp [sampleFrame, sampleTool]
  have hid : ∀ t ∈ [sampleTool "A" 1 FUSION_RGB_ONLY] ++ [],
      t.ToolSourceId ≠ (sampleTool "B" 2 FUSION_RGB_ONLY).ToolSourceId := by
    simp [sampleTool]
  ⟨⟨rfl, hend, hno, hid⟩,
    InternalUpdate_out_of_view (sampleCollaborators []) (sampleFrame 1 [⟨1, smallSquare⟩] [])
      ⟨INPUT_RGB_ONLY, [sampleTool "A" 1 FUSION_RGB_ONLY, sampleTool "B" 2 FUSION_RGB_ONLY], 0⟩
      [sampleTool "A" 1 FUSION_RGB_ONLY] [] (sampleTool "B" 2 FUSION_RGB_ONLY) rfl hend hno hid⟩

/-- C8 (counterexample): RGB+depth input, tools A (marker 1) and B (marker 2),
one detection of marker 1 whose region holds a single sample in the depth
band; the RANSAC setter throws while A is handled, the call returns
PLUS_SUCCESS from inside the loop, and B, whose marker id no detection
carries, is given no update at all. -/
theorem InternalUpdate_out_of_view_counterexample :
    (∀ m ∈ (sampleFrame 2 [⟨1, smallSquare⟩] [3205]).Markers,
      m.id ≠ (sampleTool "B" 2 FUSION_RGB_ONLY).MarkerId) ∧
    (InternalUpdate (sampleCollaborators []) (sampleFrame 2 [⟨1, smallSquare⟩] [3205])
      ⟨INPUT_RGB_AND_DEPTH, [sampleTool "A" 1 FUSION_COMPONENT, sampleTool "B" 2 FUSION_RGB_ONLY],
        0⟩).status = PLUS_SUCCESS ∧
    (InternalUpdate (sampleCollaborators []) (sampleFrame 2 [⟨1, smallSquare⟩] [3205])
      ⟨INPUT_RGB_AND_DEPTH, [sampleTool "A" 1 FUSION_COMPONENT, sampleTool "B" 2 FUSION_RGB_ONLY],
        0⟩).updates = [] := by
  refine ⟨?_, ?_, ?_⟩
  · simp [sampleFrame, sampleTool]
  · simp [InternalUpdate, InternalUpdate.toolStep, InternalUpdate.markerLoop, sampleFrame,
      sampleTool, sampleCollaborators, smallSquare_samples_one]
  · simp [InternalUpdate, InternalUpdate.toolStep, InternalUpdate.markerLoop, sampleFrame,
      sampleTool, sampleCollaborators, smallSquare_samples_one]

/-- With RGB-only input an iteration of the tool loop takes no depth step and
stores the tool with its depth matrix as it was. -/
theorem toolLoop_rgb_input {K : Type} [LinearOrderedField K] [FloorRing K]
    (E : Collaborators K) (frame : FrameInput K) (n : Nat)
    (ts : List (TrackedTool K)) (s : ToolLoop K) :
    (ts.foldl (InternalUpdate.toolStep E INPUT_RGB_ONLY frame n) s).depthSteps = s.depthSteps ∧
    (ts.foldl (InternalUpdate.toolStep E INPUT_RGB_ONLY frame n) s).Tools.map
        (fun t => t.DepthMarkerToCamera)
      = s.Tools.map (fun t => t.DepthMarkerToCamera) ++ ts.map (fun t => t.DepthMarkerToCamera) := by
  induction ts generalizing s with
  | nil => simp
  | cons t ts ih =>
    obtain ⟨h1, h2, h3⟩ := markerLoop_rgb_input E frame.markerPolyData n
      frame.unfilteredTimestamp frame.Markers ⟨t, false, s.updates, s.depthSteps, false⟩
    simp only at h1 h2 h3
    have key : (InternalUpdate.toolStep E INPUT_RGB_ONLY frame n s t).depthSteps = s.depthSteps ∧
        (InternalUpdate.toolStep E INPUT_RGB_ONLY frame n s t).Tools.map
          (fun t => t.DepthMarkerToCamera)
        = s.Tools.map (fun t => t.DepthMarkerToCamera) ++ [t.DepthMarkerToCamera] := by
      simp only [InternalUpdate.toolStep]
      split_ifs <;> simp [h1, h2]
    rw [List.foldl_cons, (ih _).1, (ih _).2, key.1, key.2]
    simp

/-- C10 (amended): with RGB-only input, processing a frame takes no region
extraction and no plane fit step for any tool, in particular for a tool whose
policy is FUSION_RGB_ONLY, and leaves the DepthMarkerToCamera of every tool as it
was. -/
theorem InternalUpdate_rgb_input_no_depth {K : Type} [LinearOrderedField K] [FloorRing K]
    (E : Collaborators K) (frame : FrameInput K) (this : Tracker K)
    (hmode : this.InputType = INPUT_RGB_ONLY) :
    (InternalUpdate E frame this).depthSteps = [] ∧
    (InternalUpdate E frame this).tracker.Tools.map (fun t => t.DepthMarkerToCamera)
      = this.Tools.map (fun t => t.DepthMarkerToCamera) := by
  obtain ⟨h1, h2⟩ := toolLoop_rgb_input E frame this.FrameNumber this.Tools ⟨[], [], [], false⟩
  simp only [InternalUpdate, hmode]
  split_ifs <;> simp [h1, h2]

/-- C10 (witness): RGB-only input with the marker of tool A detected. -/
theorem InternalUpdate_rgb_input_no_depth_witness :
    (⟨INPUT_RGB_ONLY, [sampleTool "A" 1 FUSION_RGB_ONLY], 0⟩ : Tracker ℚ).InputType
      = INPUT_RGB_ONLY ∧
    (InternalUpdate (sampleCollaborators [0, 0, 1, 7, 8, 9])
      (sampleFrame 1 [⟨1, smallSquare⟩] [3205, 3206, 3845])
      ⟨INPUT_RGB_ONLY, [sampleTool "A" 1 FUSION_RGB_ONLY], 0⟩).depthSteps = [] ∧
    (InternalUpdate (sampleCollaborators [0, 0, 1, 7, 8, 9])
      (sampleFrame 1 [⟨1, smallSquare⟩] [3205, 3206, 3845])
      ⟨INPUT_RGB_ONLY, [sampleTool "A" 1 FUSION_RGB_ONLY], 0⟩).tracker.Tools.map
        (fun t => t.DepthMarkerToCamera)
      = (⟨INPUT_RGB_ONLY, [sampleTool "A" 1 FUSION_RGB_ONLY], 0⟩ : Tracker ℚ).Tools.map
        (fun t => t.DepthMarkerToCamera) :=
  ⟨rfl, InternalUpdate_rgb_input_no_depth (sampleCollaborators [0, 0, 1, 7, 8, 9])
      (sampleFrame 1 [⟨1, smallSquare⟩] [3205, 3206, 3845])
      ⟨INPUT_RGB_ONLY, [sampleTool "A" 1 FUSION_RGB_ONLY], 0⟩ rfl⟩

/-- C10 (counterexample): RGB+depth input and one tool of policy
FUSION_RGB_ONLY whose marker is detected: the call extracts the region and
fits the plane for the tool and overwrites its DepthMarkerToCamera (element
(0,3) goes from 0 to the fitted centre 7). -/
theorem InternalUpdate_policy_gate_counterexample :
    (InternalUpdate (sampleCollaborators [0, 0, 1, 7, 8, 9])
      (sampleFrame 2 [⟨1, smallSquare⟩] [3205, 3206, 3845])
      ⟨INPUT_RGB_AND_DEPTH, [sampleTool "A" 1 FUSION_RGB_ONLY], 0⟩).depthSteps
      = [DepthStep.regionExtraction "A", DepthStep.planeFit "A"] ∧
    (sampleTool "A" 1 FUSION_RGB_ONLY).DepthMarkerToCamera 0 3 = 0 ∧
    (InternalUpdate (sampleCollaborators [0, 0, 1, 7, 8, 9])
      (sampleFrame 2 [⟨1, smallSquare⟩] [3205, 3206, 3845])
      ⟨INPUT_RGB_AND_DEPTH, [sampleTool "A" 1 FUSION_RGB_ONLY], 0⟩).tracker.Tools.map
        (fun t => t.DepthMarkerToCamera 0 3) = [7] := by
  refine ⟨?_, ?_, ?_⟩
  · simp [InternalUpdate, InternalUpdate.toolStep, InternalUpdate.markerLoop,
      InternalUpdate.fuse, sampleFrame, sampleTool, sampleCollaborators,
      smallSquare_samples_three]
  · simp [sampleTool, Mat4.Identity]
  · simp [InternalUpdate, InternalUpdate.toolStep, InternalUpdate.markerLoop,
      InternalUpdate.fuse, sampleFrame, sampleTool, sampleCollaborators,
      smallSquare_samples_three, ComputePlaneTransform_apply]

/-- Detections that do not carry the marker id of the tool are passed over. -/
theorem markerLoop_skip {K : Type} [LinearOrderedField K] [FloorRing K]
    (E : Collaborators K) (it : INPUT_TYPE) (pd : PolyData K) (n : Nat) (ts : K)
    (before rest : List (Marker K)) (s : ToolPass K)
    (h : ∀ m ∈ before, m.id ≠ s.tool.MarkerId) :
    InternalUpdate.markerLoop E it pd n ts (before ++ rest) s
      = InternalUpdate.markerLoop E it pd n ts rest s := by
  induction before with
  | nil => rfl
  | cons m before ih =>
    have hm : ¬ s.tool.MarkerId = m.id := fun e => h m (List.mem_cons_self _ _) e.symm
    rw [List.cons_append]
    simp only [InternalUpdate.markerLoop, hm, if_false]
    exact ih (fun m' hm' => h m' (List.mem_cons_of_mem _ hm'))

/-- The marker loop of an optical-only tool at its first matching detection,
when the pose estimator accepts it and the depth computation neither throws
nor comes back empty: one TOOL_OK update with the optical transform, or a
return from the update. -/
theorem markerLoop_rgb_only {K : Type} [LinearOrderedField K] [FloorRing K]
    (E : Collaborators K) (it : INPUT_TYPE) (pd : PolyData K) (n : Nat) (ts : K)
    (marker : Marker K) (rest : List (Marker K)) (tool : TrackedTool K)
    (upd : List (ToolUpdate K)) (steps : List DepthStep)
    (hmatch : marker.id = tool.MarkerId)
    (hpose : (E.estimatePose tool.MarkerPoseTracker marker
            (E.arithmetic.toFloat (tool.MarkerSizeMm / MM_PER_M))).2
      = true)
    (hpolicy : tool.DataFusionMethod = FUSION_RGB_ONLY)
    (hdepth : it = INPUT_RGB_ONLY ∨
      (E.LeastSquaresEstimate (GenerateItkData E.arithmetic pd [] marker.corners E.newLeft
        E.newRight)).isEmpty = false) :
    (InternalUpdate.markerLoop E it pd n ts (marker :: rest)
        ⟨tool, false, upd, steps, false⟩).returned = true ∨
    ((InternalUpdate.markerLoop E it pd n ts (marker :: rest)
        ⟨tool, false, upd, steps, false⟩).returned = false ∧
     (InternalUpdate.markerLoop E it pd n ts (marker :: rest)
        ⟨tool, false, upd, steps, false⟩).toolInFrame = true ∧
     (InternalUpdate.markerLoop E it pd n ts (marker :: rest)
        ⟨tool, false, upd, steps, false⟩).updates = upd ++
        [⟨tool.ToolSourceId,
          (BuildOpticalTransformMatrix E.arithmetic E.Rodrigues
            (E.estimatePose tool.MarkerPoseTracker marker
            (E.arithmetic.toFloat (tool.MarkerSizeMm / MM_PER_M))).1.Rvec
            (E.estimatePose tool.MarkerPoseTracker marker
            (E.arithmetic.toFloat (tool.MarkerSizeMm / MM_PER_M))).1.Tvec
            E.newRmat).2.1, TOOL_OK, n, ts⟩]) := by
  simp only [InternalUpdate.markerLoop, hmatch, hpose, if_true]
  rcases hdepth with h | h
  · subst h
    have hne : ¬ (INPUT_RGB_ONLY = INPUT_RGB_AND_DEPTH) := by decide
    simp only [hne, if_false]
    right
    simp [InternalUpdate.fuse, hpolicy]
  · split_ifs with h1 h2 h3 h4
    · left; rfl
    · left; rfl
    · exact absurd h4 (by simp [h])
    · right; simp [InternalUpdate.fuse, hpolicy]
    · right; simp [InternalUpdate.fuse, hpolicy]

/-- C9 (amended): in a call of `InternalUpdate` that processes the frame to the
end, for a tool of policy FUSION_RGB_ONLY (whose source id no other tool has)
whose first matching detection the pose estimator accepts: with RGB-only
input, or with RGB+depth input when the plane fit for that detection returns
parameters, the tool is given exactly one update, with status TOOL_OK and the
transform built by `BuildOpticalTransformMatrix` from the rotation and the
translation of the estimator. -/
theorem InternalUpdate_rgb_only {K : Type} [LinearOrderedField K] [FloorRing K]
    (E : Collaborators K) (frame : FrameInput K) (this : Tracker K)
    (pre post : List (TrackedTool K)) (tool : TrackedTool K)
    (before after : List (Marker K)) (marker : Marker K)
    (hTools : this.Tools = pre ++ tool :: post)
    (hend : (InternalUpdate E frame this).tracker.FrameNumber = this.FrameNumber + 1)
    (hid : ∀ t ∈ pre ++ post, t.ToolSourceId ≠ tool.ToolSourceId)
    (hMarkers : frame.Markers = before ++ marker :: after)
    (hbefore : ∀ m ∈ before, m.id ≠ tool.MarkerId)
    (hmatch : marker.id = tool.MarkerId)
    (hpose : (E.estimatePose tool.MarkerPoseTracker marker
            (E.arithmetic.toFloat (tool.MarkerSizeMm / MM_PER_M))).2
      = true)
    (hpolicy : tool.DataFusionMethod = FUSION_RGB_ONLY)
    (hdepth : this.InputType = INPUT_RGB_ONLY ∨
      (E.LeastSquaresEstimate (GenerateItkData E.arithmetic frame.markerPolyData [] marker.corners E.newLeft
        E.newRight)).isEmpty = false) :
    (InternalUpdate E frame this).updates.filter (fun u => u.ToolSourceId = tool.ToolSourceId)
      = [⟨tool.ToolSourceId,
          (BuildOpticalTransformMatrix E.arithmetic E.Rodrigues
            (E.estimatePose tool.MarkerPoseTracker marker
            (E.arithmetic.toFloat (tool.MarkerSizeMm / MM_PER_M))).1.Rvec
            (E.estimatePose tool.MarkerPoseTracker marker
            (E.arithmetic.toFloat (tool.MarkerSizeMm / MM_PER_M))).1.Tvec
            E.newRmat).2.1, TOOL_OK, this.FrameNumber, frame.unfilteredTimestamp⟩] := by
  obtain ⟨hret, hupd⟩ := InternalUpdate_to_end E frame this hend
  rw [hupd, hTools, List.foldl_append, List.foldl_cons]
  rw [hTools, List.foldl_append, List.foldl_cons] at hret
  have h1 : (pre.foldl (InternalUpdate.toolStep E this.InputType frame this.FrameNumber)
      ⟨[], [], [], false⟩).returned = false := by
    by_contra hc
    rw [Bool.not_eq_false] at hc
    rw [toolLoop_returned E _ frame _ post _
      (toolStep_returned E _ frame _ _ tool hc)] at hret
    exact Bool.noConfusion hret
  rw [toolLoop_filter E _ frame _ post _ _
    (fun t ht => hid t (List.mem_append_right _ ht))]
  have hskip := markerLoop_skip E this.InputType frame.markerPolyData this.FrameNumber
    frame.unfilteredTimestamp before (marker :: after)
    ⟨tool, false, (pre.foldl (InternalUpdate.toolStep E this.InputType frame this.FrameNumber)
      ⟨[], [], [], false⟩).updates,
      (pre.foldl (InternalUpdate.toolStep E this.InputType frame this.FrameNumber)
      ⟨[], [], [], false⟩).depthSteps, false⟩ hbefore
  rcases markerLoop_rgb_only E this.InputType frame.markerPolyData this.FrameNumber
    frame.unfilteredTimestamp marker after tool
    (pre.foldl (InternalUpdate.toolStep E this.InputType frame this.FrameNumber)
      ⟨[], [], [], false⟩).updates
    (pre.foldl (InternalUpdate.toolStep E this.InputType frame this.FrameNumber)
      ⟨[], [], [], false⟩).depthSteps hmatch hpose hpolicy hdepth with hr | ⟨hr, hin, hu⟩
  · exfalso
    have hstep : (InternalUpdate.toolStep E this.InputType frame this.FrameNumber
        (pre.foldl (InternalUpdate.toolStep E this.InputType frame this.FrameNumber)
          ⟨[], [], [], false⟩) tool).returned = true := by
      simp only [InternalUpdate.toolStep, h1, hMarkers, hskip, hr, Bool.false_eq_true, if_false,
        if_true]
    rw [toolLoop_returned E _ frame _ post _ hstep] at hret
    exact Bool.noConfusion hret
  · simp only [InternalUpdate.toolStep, h1, hMarkers, hskip, hr, hin, hu, Bool.false_eq_true,
      if_false, Bool.not_true, List.filter_append]
    rw [toolLoop_filter E _ frame _ pre _ _
      (fun t ht => hid t (List.mem_append_left _ ht))]
    simp

/-- C9 (witness): RGB+depth input, the second detection carries the marker of
tool A and the plane fit returns six parameters. -/
theorem InternalUpdate_rgb_only_witness :
    ((InternalUpdate (sampleCollaborators [0, 0, 1, 7, 8, 9])
        (sampleFrame 2 [⟨3, smallSquare⟩, ⟨1, smallSquare⟩] [3205, 3206, 3845])
        ⟨INPUT_RGB_AND_DEPTH, [sampleTool "A" 1 FUSION_RGB_ONLY], 0⟩).tracker.FrameNumber = 0 + 1 ∧
      ((sampleCollaborators [0, 0, 1, 7, 8, 9]).LeastSquaresEstimate
        (GenerateItkData (sampleCollaborators [0, 0, 1, 7, 8, 9]).arithmetic
          (sampleFrame 2 [⟨3, smallSquare⟩, ⟨1, smallSquare⟩] [3205, 3206, 3845]).markerPolyData []
          (⟨1, smallSquare⟩ : Marker ℚ).corners (sampleCollaborators [0, 0, 1, 7, 8, 9]).newLeft
          (sampleCollaborators [0, 0, 1, 7, 8, 9]).newRight)).isEmpty = false) ∧
    (InternalUpdate (sampleCollaborators [0, 0, 1, 7, 8, 9])
        (sampleFrame 2 [⟨3, smallSquare⟩, ⟨1, smallSquare⟩] [3205, 3206, 3845])
        ⟨INPUT_RGB_AND_DEPTH, [sampleTool "A" 1 FUSION_RGB_ONLY], 0⟩).updates.filter
        (fun u => u.ToolSourceId = (sampleTool "A" 1 FUSION_RGB_ONLY).ToolSourceId)
      = [⟨(sampleTool "A" 1 FUSION_RGB_ONLY).ToolSourceId,
          (BuildOpticalTransformMatrix (sampleCollaborators [0, 0, 1, 7, 8, 9]).arithmetic
            (sampleCollaborators [0, 0, 1, 7, 8, 9]).Rodrigues
            ((sampleCollaborators [0, 0, 1, 7, 8, 9]).estimatePose
              (sampleTool "A" 1 FUSION_RGB_ONLY).MarkerPoseTracker ⟨1, smallSquare⟩
              ((sampleCollaborators [0, 0, 1, 7, 8, 9]).arithmetic.toFloat
                ((sampleTool "A" 1 FUSION_RGB_ONLY).MarkerSizeMm / MM_PER_M))).1.Rvec
            ((sampleCollaborators [0, 0, 1, 7, 8, 9]).estimatePose
              (sampleTool "A" 1 FUSION_RGB_ONLY).MarkerPoseTracker ⟨1, smallSquare⟩
              ((sampleCollaborators [0, 0, 1, 7, 8, 9]).arithmetic.toFloat
                ((sampleTool "A" 1 FUSION_RGB_ONLY).MarkerSizeMm / MM_PER_M))).1.Tvec
            (sampleCollaborators [0, 0, 1, 7, 8, 9]).newRmat).2.1, TOOL_OK, 0,
          (sampleFrame 2 [⟨3, smallSquare⟩, ⟨1, smallSquare⟩]
            [3205, 3206, 3845]).unfilteredTimestamp⟩] :=
  have hend : (InternalUpdate (sampleCollaborators [0, 0, 1, 7, 8, 9])
        (sampleFrame 2 [⟨3, smallSquare⟩, ⟨1, smallSquare⟩] [3205, 3206, 3845])
        ⟨INPUT_RGB_AND_DEPTH, [sampleTool "A" 1 FUSION_RGB_ONLY], 0⟩).tracker.FrameNumber
        = 0 + 1 := by
    simp [InternalUpdate, InternalUpdate.toolStep, InternalUpdate.markerLoop,
      InternalUpdate.fuse, sampleFrame, sampleTool, sampleCollaborators,
      smallSquare_samples_three]
  have hfit : ((sampleCollaborators [0, 0, 1, 7, 8, 9]).LeastSquaresEstimate
        (GenerateItkData (sampleCollaborators [0, 0, 1, 7, 8, 9]).arithmetic
          (sampleFrame 2 [⟨3, smallSquare⟩, ⟨1, smallSquare⟩] [3205, 3206, 3845]).markerPolyData []
          (⟨1, smallSquare⟩ : Marker ℚ).corners (sampleCollaborators [0, 0, 1, 7, 8, 9]).newLeft
          (sampleCollaborators [0, 0, 1, 7, 8, 9]).newRight)).isEmpty = false := by
    simp [sampleFrame, sampleCollaborators, smallSquare_samples_three]
  ⟨⟨hend, hfit⟩,
    InternalUpdate_rgb_only (sampleCollaborators [0, 0, 1, 7, 8, 9])
      (sampleFrame 2 [⟨3, smallSquare⟩, ⟨1, smallSquare⟩] [3205, 3206, 3845])
      ⟨INPUT_RGB_AND_DEPTH, [sampleTool "A" 1 FUSION_RGB_ONLY], 0⟩
      [] [] (sampleTool "A" 1 FUSION_RGB_ONLY) [⟨3, smallSquare⟩] [] ⟨1, smallSquare⟩
      rfl hend (by simp) rfl (by simp [sampleTool]) rfl rfl rfl (Or.inr hfit)⟩

/-- C9 (counterexample): RGB+depth input, one tool of policy FUSION_RGB_ONLY,
one detection of its marker accepted by the pose estimator, no sample of the
region in the depth band; the plane fit returns no parameters, the frame is
processed to the end and the tool is given no update. -/
theorem InternalUpdate_rgb_only_counterexample :
    ((sampleCollaborators []).estimatePose
      (sampleTool "A" 1 FUSION_RGB_ONLY).MarkerPoseTracker ⟨1, smallSquare⟩
      ((sampleCollaborators []).arithmetic.toFloat
        ((sampleTool "A" 1 FUSION_RGB_ONLY).MarkerSizeMm / MM_PER_M))).2 = true ∧
    (InternalUpdate (sampleCollaborators []) (sampleFrame 2 [⟨1, smallSquare⟩] [])
      ⟨INPUT_RGB_AND_DEPTH, [sampleTool "A" 1 FUSION_RGB_ONLY], 0⟩).tracker.FrameNumber = 1 ∧
    (InternalUpdate (sampleCollaborators []) (sampleFrame 2 [⟨1, smallSquare⟩] [])
      ⟨INPUT_RGB_AND_DEPTH, [sampleTool "A" 1 FUSION_RGB_ONLY], 0⟩).updates = [] := by
  refine ⟨rfl, ?_, ?_⟩
  · simp [InternalUpdate, InternalUpdate.toolStep, InternalUpdate.markerLoop, sampleFrame,
      sampleTool, sampleCollaborators, smallSquare_samples_none]
  · simp [InternalUpdate, InternalUpdate.toolStep, InternalUpdate.markerLoop, sampleFrame,
      sampleTool, sampleCollaborators, smallSquare_samples_none]

/-! ### Outcome of one update -/

/-- What the fusion chain keeps of the tool and how many updates it adds: none
or one, carrying the source id of the tool, the frame number and the
timestamp of the call. -/
theorem fuse_outcome {K : Type} [LinearOrderedField K] (n : Nat) (ts : K) (s : ToolPass K) :
    (InternalUpdate.fuse n ts s).tool.MarkerId = s.tool.MarkerId ∧
    (InternalUpdate.fuse n ts s).tool.DataFusionMethod = s.tool.DataFusionMethod ∧
    ∃ new, (InternalUpdate.fuse n ts s).updates = s.updates ++ new ∧
      (new = [] ∨ ∃ u, new = [u] ∧ u.ToolSourceId = s.tool.ToolSourceId ∧
        u.FrameNumber = n ∧ u.unfilteredTimestamp = ts) := by
  unfold InternalUpdate.fuse
  cases h : s.tool.DataFusionMethod
  · exact ⟨rfl, h, _, rfl, Or.inr ⟨_, rfl, rfl, rfl, rfl⟩⟩
  · exact ⟨rfl, h, _, rfl, Or.inr ⟨_, rfl, rfl, rfl, rfl⟩⟩
  · exact ⟨rfl, h, _, rfl, Or.inr ⟨_, rfl, rfl, rfl, rfl⟩⟩
  · exact ⟨rfl, h, [], by simp, Or.inl rfl⟩

/-- The marker loop keeps the marker id and the policy of the tool, never
clears `toolInFrame`, and adds no update or one update; a pass that added one
has set `toolInFrame`. -/
theorem markerLoop_outcome {K : Type} [LinearOrderedField K] [FloorRing K]
    (E : Collaborators K) (it : INPUT_TYPE) (pd : PolyData K) (n : Nat) (ts : K)
    (ms : List (Marker K)) (s : ToolPass K) :
    (InternalUpdate.markerLoop E it pd n ts ms s).tool.MarkerId = s.tool.MarkerId ∧
    (InternalUpdate.markerLoop E it pd n ts ms s).tool.DataFusionMethod
      = s.tool.DataFusionMethod ∧
    (s.toolInFrame = true → (InternalUpdate.markerLoop E it pd n ts ms s).toolInFrame = true) ∧
    ∃ new, (InternalUpdate.markerLoop E it pd n ts ms s).updates = s.updates ++ new ∧
      (new = [] ∨ ∃ u, new = [u] ∧ u.ToolSourceId = s.tool.ToolSourceId ∧
        u.FrameNumber = n ∧ u.unfilteredTimestamp = ts ∧
        (InternalUpdate.markerLoop E it pd n ts ms s).toolInFrame = true) := by
  induction ms generalizing s with
  | nil => exact ⟨rfl, rfl, fun h => h, [], by simp [InternalUpdate.markerLoop], Or.inl rfl⟩
  | cons m rest ih =>
    simp only [InternalUpdate.markerLoop]
    split_ifs
    all_goals first
      | exact ih _
      | exact ⟨rfl, rfl, fun _ => rfl, [], by simp, Or.inl rfl⟩
      | (obtain ⟨h1, h2, new, h3, h4⟩ := fuse_outcome n ts _
         refine ⟨h1, h2, fun _ => (fuse_spec n ts _).2.2.2.2.1, new, h3, ?_⟩
         rcases h4 with h4 | ⟨u, hu, hid, hn, hts⟩
         · exact Or.inl h4
         · exact Or.inr ⟨u, hu, hid, hn, hts, (fuse_spec n ts _).2.2.2.2.1⟩)
      | (obtain ⟨h1, h2, h3, h4⟩ := ih _
         exact ⟨h1, h2, fun _ => h3 rfl, h4⟩)

/-- An iteration of the tool loop adds no update or one update, carrying the
source id of its tool, the frame number and the timestamp of the call. -/
theorem toolStep_outcome {K : Type} [LinearOrderedField K] [FloorRing K]
    (E : Collaborators K) (it : INPUT_TYPE) (frame : FrameInput K) (n : Nat)
    (s : ToolLoop K) (t : TrackedTool K) :
    ∃ new, (InternalUpdate.toolStep E it frame n s t).updates = s.updates ++ new ∧
      (new = [] ∨ ∃ u, new = [u] ∧ u.ToolSourceId = t.ToolSourceId ∧
        u.FrameNumber = n ∧ u.unfilteredTimestamp = frame.unfilteredTimestamp) := by
  obtain ⟨-, -, -, new, hnew, hone⟩ := markerLoop_outcome E it frame.markerPolyData n
    frame.unfilteredTimestamp frame.Markers ⟨t, false, s.updates, s.depthSteps, false⟩
  have hid := (markerLoop_updates E it frame.markerPolyData n
    frame.unfilteredTimestamp frame.Markers ⟨t, false, s.updates, s.depthSteps, false⟩).1
  simp only at hid hnew hone
  simp only [InternalUpdate.toolStep]
  split_ifs with h1 h2 h3
  · exact ⟨[], by simp, Or.inl rfl⟩
  · refine ⟨new, hnew, ?_⟩
    rcases hone with h | ⟨u, hu, h4, h5, h6, -⟩
    · exact Or.inl h
    · exact Or.inr ⟨u, hu, h4, h5, h6⟩
  · rcases hone with h | ⟨u, hu, h4, h5, h6, h7⟩
    · refine ⟨[⟨(InternalUpdate.markerLoop E it frame.markerPolyData n
        frame.unfilteredTimestamp frame.Markers
        ⟨t, false, s.updates, s.depthSteps, false⟩).tool.ToolSourceId, Mat4.Identity,
        TOOL_OUT_OF_VIEW, n, frame.unfilteredTimestamp⟩], ?_, Or.inr ⟨_, rfl, hid, rfl, rfl⟩⟩
      rw [hnew, h, List.append_nil]
    · rw [h7] at h3
      exact absurd h3 (by simp)
  · refine ⟨new, hnew, ?_⟩
    rcases hone with h | ⟨u, hu, h4, h5, h6, -⟩
    · exact Or.inl h
    · exact Or.inr ⟨u, hu, h4, h5, h6⟩

/-- The updates added by the tool loop, read in order, belong to tools met in
that order, at most one to each, and carry the frame number and the timestamp
of the call. -/
theorem toolLoop_outcome {K : Type} [LinearOrderedField K] [FloorRing K]
    (E : Collaborators K) (it : INPUT_TYPE) (frame : FrameInput K) (n : Nat)
    (ts : List (TrackedTool K)) (s : ToolLoop K) :
    ∃ new, (ts.foldl (InternalUpdate.toolStep E it frame n) s).updates = s.updates ++ new ∧
      (new.map (fun u => u.ToolSourceId)).Sublist (ts.map (fun t => t.ToolSourceId)) ∧
      ∀ u ∈ new, u.FrameNumber = n ∧ u.unfilteredTimestamp = frame.unfilteredTimestamp := by
  induction ts generalizing s with
  | nil => exact ⟨[], by simp, by simp, by simp⟩
  | cons t ts ih =>
    obtain ⟨new1, h1, hone⟩ := toolStep_outcome E it frame n s t
    obtain ⟨new2, h2, hsub, hall⟩ := ih (InternalUpdate.toolStep E it frame n s t)
    refine ⟨new1 ++ new2, ?_, ?_, ?_⟩
    · rw [List.foldl_cons, h2, h1, List.append_assoc]
    · rcases hone with h | ⟨u, hu, hid, -, -⟩
      · rw [h, List.nil_append, List.map_cons]
        exact List.Sublist.cons _ hsub
      · rw [hu, List.map_cons, List.singleton_append, List.map_cons, hid]
        exact List.Sublist.cons₂ _ hsub
    · intro u hu
      rcases List.mem_append.1 hu with h | h
      · rcases hone with h0 | ⟨v, hv, -, hn, hts⟩
        · rw [h0] at h; exact absurd h (List.not_mem_nil _)
        · rw [hv, List.mem_singleton] at h
          rw [h]; exact ⟨hn, hts⟩
      · exact hall u h

/-- The tool loop stores one tool for each tool it is given, after those it
already holds. -/
theorem toolLoop_Tools {K : Type} [LinearOrderedField K] [FloorRing K]
    (E : Collaborators K) (it : INPUT_TYPE) (frame : FrameInput K) (n : Nat)
    (ts : List (TrackedTool K)) (s : ToolLoop K) :
    ∃ stored, (ts.foldl (InternalUpdate.toolStep E it frame n) s).Tools = s.Tools ++ stored ∧
      stored.length = ts.length := by
  induction ts generalizing s with
  | nil => exact ⟨[], by simp, rfl⟩
  | cons t ts ih =>
    obtain ⟨stored, h1, h2⟩ := ih (InternalUpdate.toolStep E it frame n s t)
    have hstep : ∃ t', (InternalUpdate.toolStep E it frame n s t).Tools = s.Tools ++ [t'] := by
      simp only [InternalUpdate.toolStep]
      split_ifs <;> exact ⟨_, rfl⟩
    obtain ⟨t', ht'⟩ := hstep
    refine ⟨t' :: stored, ?_, by simp [h2]⟩
    rw [List.foldl_cons, h1, ht', List.append_assoc, List.singleton_append]

/-- A detection carrying the marker id of the tool sets `toolInFrame`. -/
theorem markerLoop_match {K : Type} [LinearOrderedField K] [FloorRing K]
    (E : Collaborators K) (it : INPUT_TYPE) (pd : PolyData K) (n : Nat) (ts : K)
    (ms : List (Marker K)) (s : ToolPass K) (h : ∃ m ∈ ms, m.id = s.tool.MarkerId) :
    (InternalUpdate.markerLoop E it pd n ts ms s).toolInFrame = true := by
  induction ms generalizing s with
  | nil => obtain ⟨m, hm, -⟩ := h; exact absurd hm (List.not_mem_nil _)
  | cons m rest ih =>
    by_cases hm : s.tool.MarkerId = m.id
    · simp only [InternalUpdate.markerLoop, hm, if_true]
      split_ifs
      all_goals first
        | rfl
        | exact (fuse_spec n ts _).2.2.2.2.1
        | exact (markerLoop_outcome E it pd n ts rest _).2.2.1 rfl
    · simp only [InternalUpdate.markerLoop, hm, if_false]
      obtain ⟨m', hm', hid⟩ := h
      rcases List.mem_cons.1 hm' with e | e
      · exact absurd (e ▸ hid).symm hm
      · exact ih s ⟨m', e, hid⟩

/-- With RGB+depth input, when the plane fit returns no parameters for every
detection carrying the marker id of the tool, the marker loop adds no update. -/
theorem markerLoop_fit_empty {K : Type} [LinearOrderedField K] [FloorRing K]
    (E : Collaborators K) (pd : PolyData K) (n : Nat) (ts : K)
    (ms : List (Marker K)) (s : ToolPass K)
    (h : ∀ m ∈ ms, m.id = s.tool.MarkerId →
      (E.LeastSquaresEstimate (GenerateItkData E.arithmetic pd [] m.corners E.newLeft E.newRight)).isEmpty
        = true) :
    (InternalUpdate.markerLoop E INPUT_RGB_AND_DEPTH pd n ts ms s).updates = s.updates := by
  induction ms generalizing s with
  | nil => rfl
  | cons m rest ih =>
    by_cases hm : s.tool.MarkerId = m.id
    · have hfit := h m (List.mem_cons_self _ _) hm.symm
      simp only [InternalUpdate.markerLoop, hm, if_true, hfit]
      split_ifs
      all_goals first
        | rfl
        | exact ih _ (fun m' hm' hid => h m' (List.mem_cons_of_mem _ hm') (hid.trans hm.symm))
    · simp only [InternalUpdate.markerLoop, hm, if_false]
      exact ih s (fun m' hm' hid => h m' (List.mem_cons_of_mem _ hm') hid)

/-- The marker loop of a tool of policy FUSION_KALMAN adds no update and leaves
`PreviousMarkerToCamera` as it was. -/
theorem markerLoop_kalman {K : Type} [LinearOrderedField K] [FloorRing K]
    (E : Collaborators K) (it : INPUT_TYPE) (pd : PolyData K) (n : Nat) (ts : K)
    (ms : List (Marker K)) (s : ToolPass K) (h : s.tool.DataFusionMethod = FUSION_KALMAN) :
    (InternalUpdate.markerLoop E it pd n ts ms s).updates = s.updates ∧
    (InternalUpdate.markerLoop E it pd n ts ms s).tool.PreviousMarkerToCamera
      = s.tool.PreviousMarkerToCamera := by
  induction ms generalizing s with
  | nil => exact ⟨rfl, rfl⟩
  | cons m rest ih =>
    simp only [InternalUpdate.markerLoop]
    split_ifs
    all_goals first
      | exact ih s h
      | exact ⟨rfl, rfl⟩
      | exact ih _ h
      | simp [InternalUpdate.fuse, h]

/-- The two ways a call of `InternalUpdate` ends: before the loop over the
tools, leaving the tracker as it was and making no update, or after it. -/
theorem InternalUpdate_cases {K : Type} [LinearOrderedField K] [FloorRing K]
    (E : Collaborators K) (frame : FrameInput K) (this : Tracker K) :
    (¬ InternalUpdate.acquired frame this ∧ (InternalUpdate E frame this).tracker = this ∧
      (InternalUpdate E frame this).updates = []) ∨
    (InternalUpdate.acquired frame this ∧
      (InternalUpdate E frame this).status = PLUS_SUCCESS ∧
      (InternalUpdate E frame this).updates =
        (this.Tools.foldl (InternalUpdate.toolStep E this.InputType frame this.FrameNumber)
          ⟨[], [], [], false⟩).updates ∧
      (InternalUpdate E frame this).tracker.Tools =
        (this.Tools.foldl (InternalUpdate.toolStep E this.InputType frame this.FrameNumber)
          ⟨[], [], [], false⟩).Tools ∧
      (InternalUpdate E frame this).tracker.FrameNumber =
        if (this.Tools.foldl (InternalUpdate.toolStep E this.InputType frame this.FrameNumber)
          ⟨[], [], [], false⟩).returned then this.FrameNumber else this.FrameNumber + 1) := by
  simp only [InternalUpdate]
  split_ifs with h1 h2 h3 h4 h5 h6 h7
  all_goals first
    | (left
       refine ⟨fun h => ?_, rfl, rfl⟩
       unfold InternalUpdate.acquired at h
       simp_all)
    | (right
       refine ⟨?_, rfl, rfl, rfl, rfl⟩
       unfold InternalUpdate.acquired
       simp_all)

/-- A tool whose iteration adds no update: the updates of the call, read in
order, belong to the other tools, at most one to each. -/
theorem InternalUpdate_silent_tool {K : Type} [LinearOrderedField K] [FloorRing K]
    (E : Collaborators K) (frame : FrameInput K) (this : Tracker K)
    (pre post : List (TrackedTool K)) (tool : TrackedTool K)
    (hTools : this.Tools = pre ++ tool :: post)
    (hsilent : ∀ s, (InternalUpdate.toolStep E this.InputType frame this.FrameNumber s tool).updates
      = s.updates) :
    ((InternalUpdate E frame this).updates.map (fun u => u.ToolSourceId)).Sublist
      ((pre ++ post).map (fun t => t.ToolSourceId)) := by
  rcases InternalUpdate_cases E frame this with ⟨-, -, h⟩ | ⟨-, -, h, -, -⟩
  · rw [h]; exact List.nil_sublist _
  · rw [h, hTools, List.foldl_append, List.foldl_cons]
    obtain ⟨new1, h1, hs1, -⟩ := toolLoop_outcome E this.InputType frame this.FrameNumber pre
      ⟨[], [], [], false⟩
    obtain ⟨new2, h2, hs2, -⟩ := toolLoop_outcome E this.InputType frame this.FrameNumber post
      (InternalUpdate.toolStep E this.InputType frame this.FrameNumber
        (pre.foldl (InternalUpdate.toolStep E this.InputType frame this.FrameNumber)
          ⟨[], [], [], false⟩) tool)
    rw [h2, hsilent, h1, List.nil_append, List.map_append, List.map_append]
    exact List.Sublist.append hs1 hs2

/-- The tool stored by an iteration whose tool has policy FUSION_KALMAN has the
`PreviousMarkerToCamera` it had. -/
theorem toolStep_kalman {K : Type} [LinearOrderedField K] [FloorRing K]
    (E : Collaborators K) (it : INPUT_TYPE) (frame : FrameInput K) (n : Nat)
    (s : ToolLoop K) (t : TrackedTool K) (h : t.DataFusionMethod = FUSION_KALMAN) :
    ∃ t', (InternalUpdate.toolStep E it frame n s t).Tools = s.Tools ++ [t'] ∧
      t'.PreviousMarkerToCamera = t.PreviousMarkerToCamera := by
  have hk := (markerLoop_kalman E it frame.markerPolyData n frame.unfilteredTimestamp
    frame.Markers ⟨t, false, s.updates, s.depthSteps, false⟩ h).2
  simp only [InternalUpdate.toolStep]
  split_ifs
  · exact ⟨t, rfl, rfl⟩
  · exact ⟨_, rfl, hk⟩
  · exact ⟨_, rfl, hk⟩
  · exact ⟨_, rfl, hk⟩

/-- An iteration adds no update when some detection carries the marker id of
its tool and the marker loop of the tool adds none. -/
theorem toolStep_silent {K : Type} [LinearOrderedField K] [FloorRing K]
    (E : Collaborators K) (it : INPUT_TYPE) (frame : FrameInput K) (n : Nat)
    (s : ToolLoop K) (t : TrackedTool K)
    (hmatch : ∃ m ∈ frame.Markers, m.id = t.MarkerId)
    (hloop : (InternalUpdate.markerLoop E it frame.markerPolyData n frame.unfilteredTimestamp
      frame.Markers ⟨t, false, s.updates, s.depthSteps, false⟩).updates = s.updates) :
    (InternalUpdate.toolStep E it frame n s t).updates = s.updates := by
  have hin := markerLoop_match E it frame.markerPolyData n frame.unfilteredTimestamp
    frame.Markers ⟨t, false, s.updates, s.depthSteps, false⟩ hmatch
  simp only [InternalUpdate.toolStep]
  split_ifs with h1 h2 h3
  · rfl
  · exact hloop
  · rw [hin] at h3; exact absurd h3 (by simp)
  · exact hloop

/-- The rows the scan of the far square visits. -/
theorem intRange_10_11 : intRange 10 11 = [10, 11] := by decide

/-- The far square is classified ROTATED and kept in its order. -/
theorem farSquare_class :
    DetermineMarkerOrientation farSquare = (ROTATED, farSquare) := by
  have hb : (DetermineMarkerOrientation.bottomLoop farSquare).2 = 2 := by
    simp only [DetermineMarkerOrientation.bottomLoop, List.foldl_cons, List.foldl_nil,
      cornerAt, List.getD_cons_zero, List.getD_cons_succ, farSquare]
    norm_num [toInt]
  have ht := DetermineMarkerOrientation_top_first (⟨10, 10⟩ : Point2d ℚ) ⟨11, 10⟩ ⟨11, 11⟩
    ⟨10, 11⟩ (by norm_num) (by norm_num) (by norm_num)
  rw [show farSquare = [⟨10, 10⟩, ⟨11, 10⟩, ⟨11, 11⟩, ⟨10, 11⟩] from rfl] at hb ⊢
  rw [ht, hb]; rfl

/-- Rows and column bounds of the region of the far square. -/
theorem farSquare_boundaries (newLeft newRight : IntArray) :
    (GenerateItkData.boundaries ieee754 farSquare newLeft newRight).top = 10 ∧
    (GenerateItkData.boundaries ieee754 farSquare newLeft newRight).bottom = 11 ∧
    (GenerateItkData.boundaries ieee754 farSquare newLeft newRight).leftBoundary 0 = 10 ∧
    (GenerateItkData.boundaries ieee754 farSquare newLeft newRight).leftBoundary 1 = 10 ∧
    (GenerateItkData.boundaries ieee754 farSquare newLeft newRight).rightBoundary 0 = 11 ∧
    (GenerateItkData.boundaries ieee754 farSquare newLeft newRight).rightBoundary 1 = 11 := by
  refine ⟨?_, ?_, ?_, ?_, ?_, ?_⟩
  all_goals
    unfold GenerateItkData.boundaries
    rw [farSquare_class]
    simp only [GenerateItkData.region, GenerateRotatedItkData.region, cornerAt,
      farSquare, List.getD_cons_zero, List.getD_cons_succ,
      GenerateBoundary_three, GenerateBoundary_segment_apply]
    norm_num [toInt, DetermineSlope, FloatingPoint.divide]

/-- The samples `GenerateItkData` collects for the far square: the points
6410, 6411, 7050 and 7051 of the cloud that pass the depth filter. -/
theorem farSquare_samples (vtkDepthData : PolyData ℚ) (newLeft newRight : IntArray) :
    GenerateItkData ieee754 vtkDepthData [] farSquare newLeft newRight
      = ([6410, 6411, 7050, 7051].map vtkDepthData).filter
          (fun p => decide (50 < p.z ∧ p.z < 2000)) := by
  obtain ⟨h1, h2, h3, h4, h5, h6⟩ := farSquare_boundaries newLeft newRight
  have e := CopyToItkData_rows vtkDepthData
    (fun yPx => intRange
      ((GenerateItkData.boundaries ieee754 farSquare newLeft newRight).leftBoundary
        (yPx - (GenerateItkData.boundaries ieee754 farSquare newLeft newRight).top))
      ((GenerateItkData.boundaries ieee754 farSquare newLeft newRight).rightBoundary
        (yPx - (GenerateItkData.boundaries ieee754 farSquare newLeft newRight).top)))
    (intRange (GenerateItkData.boundaries ieee754 farSquare newLeft newRight).top
      (GenerateItkData.boundaries ieee754 farSquare newLeft newRight).bottom) []
  simp only [GenerateItkData, CopyToItkData]
  rw [e, List.nil_append]
  simp only [h1, h2, intRange_10_11,
    List.flatMap_cons, List.flatMap_nil, sub_self, h3, h5,
    show (11 : Int) - 10 = 1 from rfl, h4, h6, List.map_cons, List.map_nil, List.append_nil,
    List.cons_append, List.nil_append]
  norm_num

/-- With three points of the far square in the depth band, the far square has
three samples and the small square none. -/
theorem farCloud_samples (newLeft newRight : IntArray) :
    GenerateItkData ieee754 (sampleCloud [6410, 6411, 7050]) [] farSquare newLeft newRight
      = [⟨0, 0, 100⟩, ⟨0, 0, 100⟩, ⟨0, 0, 100⟩] ∧
    GenerateItkData ieee754 (sampleCloud [6410, 6411, 7050]) [] smallSquare newLeft newRight = [] := by
  constructor
  · rw [farSquare_samples]
    simp only [sampleCloud, List.map_cons, List.map_nil]
    norm_num
  · rw [smallSquare_samples]
    simp only [sampleCloud, List.map_cons, List.map_nil]
    norm_num

/-- C11 (amended): with RGB+depth input, for a tool (of policy FUSION_COMPONENT
or any other) and every detection list, if the plane fit returns no parameters
for the first detection carrying the marker id of the tool and for every later
detection carrying that id, then the updates of the call all belong to the
other tools, so that the tool is given neither a TOOL_OK nor a TOOL_OUT_OF_VIEW
update, whatever the pose estimator answers; and a call whose frame was
acquired returns success. -/
theorem InternalUpdate_plane_fit_failure {K : Type} [LinearOrderedField K] [FloorRing K]
    (E : Collaborators K) (frame : FrameInput K) (this : Tracker K)
    (pre post : List (TrackedTool K)) (tool : TrackedTool K)
    (before after : List (Marker K)) (marker : Marker K)
    (hInput : this.InputType = INPUT_RGB_AND_DEPTH)
    (hacq : InternalUpdate.acquired frame this)
    (hTools : this.Tools = pre ++ tool :: post)
    (hMarkers : frame.Markers = before ++ marker :: after)
    (hbefore : ∀ m ∈ before, m.id ≠ tool.MarkerId)
    (hmatch : marker.id = tool.MarkerId)
    (hfit : (E.LeastSquaresEstimate (GenerateItkData E.arithmetic frame.markerPolyData [] marker.corners
      E.newLeft E.newRight)).isEmpty = true)
    (hafter : ∀ m ∈ after, m.id = tool.MarkerId →
      (E.LeastSquaresEstimate (GenerateItkData E.arithmetic frame.markerPolyData [] m.corners
        E.newLeft E.newRight)).isEmpty = true) :
    ((InternalUpdate E frame this).updates.map (fun u => u.ToolSourceId)).Sublist
      ((pre ++ post).map (fun t => t.ToolSourceId)) ∧
    (InternalUpdate E frame this).status = PLUS_SUCCESS := by
  constructor
  · refine InternalUpdate_silent_tool E frame this pre post tool hTools (fun s => ?_)
    refine toolStep_silent E _ frame _ s tool ⟨marker, ?_, hmatch⟩ ?_
    · rw [hMarkers]; simp
    · rw [hInput]
      refine markerLoop_fit_empty E frame.markerPolyData _ _ frame.Markers _ (fun m hm hid => ?_)
      rw [hMarkers] at hm
      rcases List.mem_append.1 hm with h | h
      · exact absurd hid (hbefore m h)
      · rcases List.mem_cons.1 h with h | h
        · rw [h]; exact hfit
        · exact hafter m h hid
  · rcases InternalUpdate_cases E frame this with ⟨h, -, -⟩ | ⟨-, h, -⟩
    · exact absurd hacq h
    · exact h

/-- C11 (witness): RGB+depth input, tools A (FUSION_COMPONENT, marker 1) and B
(marker 2); the second detection carries marker 1 and its region holds no
sample in the depth band, so that the plane fit returns no parameters. -/
theorem InternalUpdate_plane_fit_failure_witness :
    ((InternalUpdate (sampleCollaborators [0, 0, 1, 7, 8, 9])
        (sampleFrame 2 [⟨3, smallSquare⟩, ⟨1, smallSquare⟩] [])
        ⟨INPUT_RGB_AND_DEPTH, [sampleTool "A" 1 FUSION_COMPONENT, sampleTool "B" 2 FUSION_RGB_ONLY],
          0⟩).updates.map (fun u => u.ToolSourceId)).Sublist
      ((([] : List (TrackedTool ℚ)) ++ [sampleTool "B" 2 FUSION_RGB_ONLY]).map
        (fun t => t.ToolSourceId)) ∧
    (InternalUpdate (sampleCollaborators [0, 0, 1, 7, 8, 9])
        (sampleFrame 2 [⟨3, smallSquare⟩, ⟨1, smallSquare⟩] [])
        ⟨INPUT_RGB_AND_DEPTH, [sampleTool "A" 1 FUSION_COMPONENT, sampleTool "B" 2 FUSION_RGB_ONLY],
          0⟩).status = PLUS_SUCCESS :=
  InternalUpdate_plane_fit_failure (sampleCollaborators [0, 0, 1, 7, 8, 9])
    (sampleFrame 2 [⟨3, smallSquare⟩, ⟨1, smallSquare⟩] [])
    ⟨INPUT_RGB_AND_DEPTH, [sampleTool "A" 1 FUSION_COMPONENT, sampleTool "B" 2 FUSION_RGB_ONLY], 0⟩
    [] [sampleTool "B" 2 FUSION_RGB_ONLY] (sampleTool "A" 1 FUSION_COMPONENT)
    [⟨3, smallSquare⟩] [] ⟨1, smallSquare⟩
    rfl (by simp [InternalUpdate.acquired, sampleFrame]) rfl rfl (by simp [sampleTool]) rfl
    (by simp [sampleFrame, sampleCollaborators, smallSquare_samples_none])
    (by simp)

/-- C11 (counterexample): RGB+depth input, one tool of policy FUSION_COMPONENT
with marker 1, two detections carrying marker 1.  The pose estimator accepts
the first and its region holds no sample in the depth band, so that its plane
fit returns no parameters; the loop goes on to the second detection, whose
plane fit returns parameters, and the tool is given a TOOL_OK update. -/
theorem InternalUpdate_plane_fit_failure_counterexample :
    ((sampleCollaborators [0, 0, 1, 7, 8, 9]).estimatePose
      (sampleTool "A" 1 FUSION_COMPONENT).MarkerPoseTracker ⟨1, smallSquare⟩
      ((sampleCollaborators [0, 0, 1, 7, 8, 9]).arithmetic.toFloat
        ((sampleTool "A" 1 FUSION_COMPONENT).MarkerSizeMm / MM_PER_M))).2 = true ∧
    ((sampleCollaborators [0, 0, 1, 7, 8, 9]).LeastSquaresEstimate
      (GenerateItkData (sampleCollaborators [0, 0, 1, 7, 8, 9]).arithmetic
        (sampleFrame 2 [⟨1, smallSquare⟩, ⟨1, farSquare⟩]
          [6410, 6411, 7050]).markerPolyData [] smallSquare
        (sampleCollaborators [0, 0, 1, 7, 8, 9]).newLeft
        (sampleCollaborators [0, 0, 1, 7, 8, 9]).newRight)).isEmpty = true ∧
    (InternalUpdate (sampleCollaborators [0, 0, 1, 7, 8, 9])
      (sampleFrame 2 [⟨1, smallSquare⟩, ⟨1, farSquare⟩] [6410, 6411, 7050])
      ⟨INPUT_RGB_AND_DEPTH, [sampleTool "A" 1 FUSION_COMPONENT], 0⟩).updates.map
        (fun u => (u.ToolSourceId, u.status)) = [("A", TOOL_OK)] := by
  refine ⟨rfl, ?_, ?_⟩
  · simp [sampleFrame, sampleCollaborators, (farCloud_samples _ _).2]
  · simp [InternalUpdate, InternalUpdate.toolStep, InternalUpdate.markerLoop,
      InternalUpdate.fuse, sampleFrame, sampleTool, sampleCollaborators,
      (farCloud_samples _ _).1, (farCloud_samples _ _).2]

/-- The element that follows a prefix is found at the length of the prefix. -/
theorem getElem?_after_init {α : Type} (l1 l2 : List α) (a : α) :
    (l1 ++ a :: l2)[l1.length]? = some a := by
  induction l1 with
  | nil => simp
  | cons b l1 ih => simpa using ih

/-- C12: in one call of `InternalUpdate`, for every tool list, detection list
and collaborator behaviour: the updates, read in order, belong to tools read
in order, at most one update to each tool; every update carries the timestamp
of the call and the frame number held at entry; the frame counter goes up by
exactly 1 when the frame was acquired and the loop over the tools was run to
its end, and stays as it was in every other call. -/
theorem InternalUpdate_frame_outcome {K : Type} [LinearOrderedField K] [FloorRing K]
    (E : Collaborators K) (frame : FrameInput K) (this : Tracker K) :
    ((InternalUpdate E frame this).updates.map (fun u => u.ToolSourceId)).Sublist
      (this.Tools.map (fun t => t.ToolSourceId)) ∧
    (∀ u ∈ (InternalUpdate E frame this).updates,
      u.unfilteredTimestamp = frame.unfilteredTimestamp ∧ u.FrameNumber = this.FrameNumber) ∧
    (InternalUpdate.acquired frame this →
      (this.Tools.foldl (InternalUpdate.toolStep E this.InputType frame this.FrameNumber)
        ⟨[], [], [], false⟩).returned = false →
      (InternalUpdate E frame this).tracker.FrameNumber = this.FrameNumber + 1) ∧
    (¬ (InternalUpdate.acquired frame this ∧
        (this.Tools.foldl (InternalUpdate.toolStep E this.InputType frame this.FrameNumber)
          ⟨[], [], [], false⟩).returned = false) →
      (InternalUpdate E frame this).tracker.FrameNumber = this.FrameNumber) := by
  obtain ⟨new, h1, hsub, hall⟩ := toolLoop_outcome E this.InputType frame this.FrameNumber
    this.Tools ⟨[], [], [], false⟩
  rw [List.nil_append] at h1
  rcases InternalUpdate_cases E frame this with ⟨hacq, ht, hu⟩ | ⟨hacq, -, hu, -, hn⟩
  · refine ⟨?_, ?_, fun h => absurd h hacq, fun _ => by rw [ht]⟩
    · rw [hu]; exact List.nil_sublist _
    · intro u h; rw [hu] at h; exact absurd h (List.not_mem_nil _)
  · refine ⟨?_, ?_, fun _ hr => ?_, fun hnot => ?_⟩
    · rw [hu, h1]; exact hsub
    · intro u h
      rw [hu, h1] at h
      exact ⟨(hall u h).2, (hall u h).1⟩
    · rw [hn, hr]; rfl
    · have hr : (this.Tools.foldl
          (InternalUpdate.toolStep E this.InputType frame this.FrameNumber)
          ⟨[], [], [], false⟩).returned = true := by
        by_contra hc
        exact hnot ⟨hacq, by simpa using hc⟩
      rw [hn, hr]; rfl

/-- C12 (witness): RGB+depth input, tools A (marker 1, detected, plane fitted)
and B (marker 2, out of view); the call makes one update for each and the
frame counter goes from 0 to 1. -/
theorem InternalUpdate_frame_outcome_witness :
    (InternalUpdate (sampleCollaborators [0, 0, 1, 7, 8, 9])
      (sampleFrame 2 [⟨1, smallSquare⟩] [3205, 3206, 3845])
      ⟨INPUT_RGB_AND_DEPTH, [sampleTool "A" 1 FUSION_COMPONENT, sampleTool "B" 2 FUSION_RGB_ONLY],
        0⟩).tracker.FrameNumber = 0 + 1 ∧
    (InternalUpdate (sampleCollaborators [0, 0, 1, 7, 8, 9])
      (sampleFrame 2 [⟨1, smallSquare⟩] [3205, 3206, 3845])
      ⟨INPUT_RGB_AND_DEPTH, [sampleTool "A" 1 FUSION_COMPONENT, sampleTool "B" 2 FUSION_RGB_ONLY],
        0⟩).updates.map (fun u => (u.ToolSourceId, u.status))
      = [("A", TOOL_OK), ("B", TOOL_OUT_OF_VIEW)] :=
  ⟨(InternalUpdate_frame_outcome (sampleCollaborators [0, 0, 1, 7, 8, 9])
      (sampleFrame 2 [⟨1, smallSquare⟩] [3205, 3206, 3845])
      ⟨INPUT_RGB_AND_DEPTH, [sampleTool "A" 1 FUSION_COMPONENT, sampleTool "B" 2 FUSION_RGB_ONLY],
        0⟩).2.2.1
      (by simp [InternalUpdate.acquired, sampleFrame])
      (by simp [InternalUpdate.toolStep, InternalUpdate.markerLoop,
        InternalUpdate.fuse, sampleFrame, sampleTool, sampleCollaborators,
        smallSquare_samples_three]),
    by simp [InternalUpdate, InternalUpdate.toolStep, InternalUpdate.markerLoop,
        InternalUpdate.fuse, sampleFrame, sampleTool, sampleCollaborators,
        smallSquare_samples_three]⟩

/-- C16: for a tool of policy FUSION_KALMAN whose marker id some detection
carries, whatever the pose estimator and the plane fit answer: the updates of
the call all belong to the other tools (the tool is given no update), and the
tool is stored with the `PreviousMarkerToCamera` it had; `ComputeKalmanFusion`
leaves every matrix object as it was. -/
theorem InternalUpdate_kalman_inert {K : Type} [LinearOrderedField K] [FloorRing K]
    (E : Collaborators K) (frame : FrameInput K) (this : Tracker K)
    (pre post : List (TrackedTool K)) (tool : TrackedTool K)
    (hTools : this.Tools = pre ++ tool :: post)
    (hpolicy : tool.DataFusionMethod = FUSION_KALMAN)
    (hmatch : ∃ m ∈ frame.Markers, m.id = tool.MarkerId) :
    ((InternalUpdate E frame this).updates.map (fun u => u.ToolSourceId)).Sublist
      ((pre ++ post).map (fun t => t.ToolSourceId)) ∧
    ((InternalUpdate E frame this).tracker.Tools[pre.length]?).map
        (fun t => t.PreviousMarkerToCamera) = some tool.PreviousMarkerToCamera ∧
    (∀ (mem : MatrixStore ToolMatrix K) (rgb depth previous : ToolMatrix),
      ComputeKalmanFusion mem rgb depth previous = mem) := by
  refine ⟨?_, ?_, fun _ _ _ _ => rfl⟩
  · refine InternalUpdate_silent_tool E frame this pre post tool hTools (fun s => ?_)
    exact toolStep_silent E _ frame _ s tool hmatch
      (markerLoop_kalman E _ frame.markerPolyData _ frame.unfilteredTimestamp frame.Markers
        ⟨tool, false, s.updates, s.depthSteps, false⟩ hpolicy).1
  · rcases InternalUpdate_cases E frame this with ⟨-, ht, -⟩ | ⟨-, -, -, ht, -⟩
    · rw [ht, hTools, getElem?_after_init]; rfl
    · rw [ht, hTools, List.foldl_append, List.foldl_cons]
      obtain ⟨s1, h1, hl1⟩ := toolLoop_Tools E this.InputType frame this.FrameNumber pre
        ⟨[], [], [], false⟩
      obtain ⟨t', h2, hprev⟩ := toolStep_kalman E this.InputType frame this.FrameNumber
        (pre.foldl (InternalUpdate.toolStep E this.InputType frame this.FrameNumber)
          ⟨[], [], [], false⟩) tool hpolicy
      obtain ⟨s3, h3, -⟩ := toolLoop_Tools E this.InputType frame this.FrameNumber post
        (InternalUpdate.toolStep E this.InputType frame this.FrameNumber
          (pre.foldl (InternalUpdate.toolStep E this.InputType frame this.FrameNumber)
            ⟨[], [], [], false⟩) tool)
      rw [h3, h2, h1, List.nil_append, ← hl1, List.append_assoc, List.singleton_append,
        getElem?_after_init, Option.map_some', hprev]

/-- C16 (witness): RGB+depth input, tools A (marker 1) of policy FUSION_KALMAN
and B (marker 2) out of view; marker 1 is detected, the pose estimator accepts
it and the plane fit returns six parameters. -/
theorem InternalUpdate_kalman_inert_witness :
    ((InternalUpdate (sampleCollaborators [0, 0, 1, 7, 8, 9])
        (sampleFrame 2 [⟨1, smallSquare⟩] [3205, 3206, 3845])
        ⟨INPUT_RGB_AND_DEPTH, [sampleTool "A" 1 FUSION_KALMAN, sampleTool "B" 2 FUSION_RGB_ONLY],
          0⟩).updates.map (fun u => u.ToolSourceId)).Sublist
      ((([] : List (TrackedTool ℚ)) ++ [sampleTool "B" 2 FUSION_RGB_ONLY]).map
        (fun t => t.ToolSourceId)) ∧
    ((InternalUpdate (sampleCollaborators [0, 0, 1, 7, 8, 9])
        (sampleFrame 2 [⟨1, smallSquare⟩] [3205, 3206, 3845])
        ⟨INPUT_RGB_AND_DEPTH, [sampleTool "A" 1 FUSION_KALMAN, sampleTool "B" 2 FUSION_RGB_ONLY],
          0⟩).tracker.Tools[([] : List (TrackedTool ℚ)).length]?).map
        (fun t => t.PreviousMarkerToCamera)
      = some (sampleTool "A" 1 FUSION_KALMAN).PreviousMarkerToCamera :=
  have h := InternalUpdate_kalman_inert (sampleCollaborators [0, 0, 1, 7, 8, 9])
    (sampleFrame 2 [⟨1, smallSquare⟩] [3205, 3206, 3845])
    ⟨INPUT_RGB_AND_DEPTH, [sampleTool "A" 1 FUSION_KALMAN, sampleTool "B" 2 FUSION_RGB_ONLY], 0⟩
    [] [sampleTool "B" 2 FUSION_RGB_ONLY] (sampleTool "A" 1 FUSION_KALMAN) rfl rfl
    ⟨⟨1, smallSquare⟩, by simp [sampleFrame], rfl⟩
  ⟨h.1, h.2.1⟩

/-! ### Frame construction from a plane -/

/-- The plane normal after the sign correction, for a normal whose components
are `double`s: the second component is negated, and the whole vector is
negated when the third component, narrowed to `float`, is positive. -/
theorem ComputePlaneTransform_corrected_apply {K : Type} [LinearOrderedField K]
    {F : FloatingPoint K} (hF : F.Lawful) (n : Fin 4 → K)
    (hrep : ∀ i, F.toDouble (n i) = n i) :
    (![ComputePlaneTransform.corrected F n 0, ComputePlaneTransform.corrected F n 1,
        ComputePlaneTransform.corrected F n 2] : Vec3 K) =
      if 0 < F.toFloat (n 2) then ![-n 0, n 1, -n 2] else ![n 0, -n 1, n 2] := by
  have h0 := hrep 0
  have h1 := hrep 1
  have h2 := hrep 2
  have hdot : F.toFloat (vtkMath.Dot F ![0, 0, -1, 0] ![n 0, -n 1, n 2, n 3])
      = -F.toFloat (n 2) := by
    simp [vtkMath.Dot, hF.toDouble_zero, hF.toDouble_neg, hF.toFloat_neg, h2]
  simp only [ComputePlaneTransform.corrected, hdot, Left.neg_neg_iff]
  by_cases h : 0 < F.toFloat (n 2)
  · simp [h, hF.toDouble_neg, h0, h1, h2]
  · simp [h]

/-- The sum of the squares that `normalize` computes is the same for a vector
and its negation. -/
theorem normalize_tmp_neg {K : Type} [LinearOrderedField K] (F : FloatingPoint K)
    (a b c : K) : normalize.tmp F ![-a, -b, -c] = normalize.tmp F ![a, b, c] := by
  simp [normalize.tmp]

/-- A vector of `double`s for which the computed sum of the squares is 1 is left
as it is by `normalize`. -/
theorem normalize_of_tmp_one {K : Type} [LinearOrderedField K] {F : FloatingPoint K}
    (hF : F.Lawful) (M : MathFunctions K) (hsqrt1 : M.sqrt 1 = 1) (v : Vec3 K)
    (hrep : ∀ i, F.toDouble (v i) = v i) (h : normalize.tmp F v = 1) :
    normalize F M v = v := by
  funext i
  simp [normalize, h, hsqrt1, FloatingPoint.divide, hF.toDouble_one, hrep]

/-- The normalised plane normal for the input normal (0, 0, -1) or (0, 0, 1). -/
theorem ComputePlaneTransform_zAxis_unit {K : Type} [LinearOrderedField K]
    {F : FloatingPoint K} (hF : F.Lawful) (M : MathFunctions K) (hsqrt1 : M.sqrt 1 = 1) :
    ComputePlaneTransform.zAxis F M ![0, 0, -1, 0] = ![0, 0, -1] ∧
    ComputePlaneTransform.zAxis F M ![0, 0, 1, 0] = ![0, 0, -1] := by
  have hneg : ¬ (0 : K) < F.toFloat (-1) := by
    rw [hF.toFloat_neg, hF.toFloat_one]; norm_num
  have hpos : (0 : K) < F.toFloat 1 := by rw [hF.toFloat_one]; norm_num
  have hn : normalize F M (![0, 0, -1] : Vec3 K) = ![0, 0, -1] := by
    refine normalize_of_tmp_one hF M hsqrt1 _ (fun i => ?_) ?_
    · fin_cases i <;> simp [hF.toDouble_zero, hF.toDouble_neg, hF.toDouble_one]
    · simp [normalize.tmp, hF.toDouble_zero, hF.toDouble_one]
  constructor
  · unfold ComputePlaneTransform.zAxis
    rw [ComputePlaneTransform_corrected_apply hF _ (fun i => by
      fin_cases i <;> simp [hF.toDouble_zero, hF.toDouble_neg, hF.toDouble_one])]
    simp only [Matrix.cons_val_two, Matrix.tail_cons, Matrix.head_cons, if_neg hneg,
      Matrix.cons_val_zero, Matrix.cons_val_one, neg_zero]
    exact hn
  · unfold ComputePlaneTransform.zAxis
    rw [ComputePlaneTransform_corrected_apply hF _ (fun i => by
      fin_cases i <;> simp [hF.toDouble_zero, hF.toDouble_neg, hF.toDouble_one])]
    simp only [Matrix.cons_val_two, Matrix.tail_cons, Matrix.head_cons, if_pos hpos,
      Matrix.cons_val_zero, Matrix.cons_val_one, neg_zero]
    exact hn

/-- C18 (failing input): unit normal (0, 0, -1), which the sign correction
keeps, and unit x-guess (0, 0, 1), its opposite (rounding to nearest, square
root exact at 1, the angle computed from the arc cosine of -1 more than 10
degrees).  The angle test passes, the first tier is taken with a reference
axis anti-parallel to z, and the x and y columns of the transform are both
zero. -/
theorem ComputePlaneTransform_antiparallel_guess {K : Type} [LinearOrderedField K]
    (F : FloatingPoint K) (M : MathFunctions K) (hF : F.Lawful) (c : Fin 4 → K)
    (hsqrt1 : M.sqrt 1 = 1)
    (hacos : 10 < F.toFloat |F.divide (F.toDouble (M.acos (-1) * 180)) (F.toDouble PI)|) :
    VectorAngleDeg F M (normalize F M ![0, 0, 1])
      (ComputePlaneTransform.zAxis F M ![0, 0, -1, 0]) > 10 ∧
    (∀ i : Fin 3, ComputePlaneTransform F M ![0, 0, 1, 0] ![0, 0, -1, 0] c i.castSucc 0 = 0) ∧
    (∀ i : Fin 3, ComputePlaneTransform F M ![0, 0, 1, 0] ![0, 0, -1, 0] c i.castSucc 1 = 0) ∧
    (∀ i : Fin 3, ComputePlaneTransform F M ![0, 0, 1, 0] ![0, 0, -1, 0] c i.castSucc 2
      = (![0, 0, -1] : Vec3 K) i) := by
  have hzA := (ComputePlaneTransform_zAxis_unit hF M hsqrt1).1
  have hgN : normalize F M (![0, 0, 1] : Vec3 K) = ![0, 0, 1] := by
    refine normalize_of_tmp_one hF M hsqrt1 _ (fun i => ?_) ?_
    · fin_cases i <;> simp [hF.toDouble_zero, hF.toDouble_one]
    · simp [normalize.tmp, hF.toDouble_zero, hF.toDouble_one]
  have hang : VectorAngleDeg F M (![0, 0, 1] : Vec3 K) ![0, 0, -1] > 10 := by
    simp only [VectorAngleDeg, Matrix.cons_val_zero, Matrix.cons_val_one, Matrix.head_cons,
      Matrix.cons_val_two, Matrix.tail_cons]
    simpa [hF.toDouble_zero, hF.toDouble_neg, hF.toDouble_one, hF.toFloat_neg,
      hF.toFloat_one] using hacos
  have hax : ComputePlaneTransform.axes F M (![0, 0, 1] : Vec3 K) ![0, 0, -1]
      = (![0, 0, 0], ![0, 0, 0]) := by
    simp only [ComputePlaneTransform.axes, if_pos hang]
    refine Prod.ext ?_ ?_
    · funext i
      fin_cases i <;> simp [vnl_cross_3d, hF.toDouble_zero]
    · funext i
      fin_cases i <;> simp [vnl_cross_3d, hF.toDouble_zero]
  have hgN' : normalize F M (![(![0, 0, 1, 0] : Fin 4 → K) 0, (![0, 0, 1, 0] : Fin 4 → K) 1,
      (![0, 0, 1, 0] : Fin 4 → K) 2]) = ![0, 0, 1] := hgN
  have c2 : (Fin.castSucc (2 : Fin 3) : Fin 4) = 2 := rfl
  refine ⟨by rw [hzA, hgN]; exact hang, fun i => ?_, fun i => ?_, fun i => ?_⟩
  all_goals
    rw [ComputePlaneTransform_apply, hzA, hgN', hax]
    fin_cases i <;> simp [c2, Matrix.vecHead, Matrix.vecTail]

/-- What `normalize` makes of a vector of `double`s whose second component is
zero: the second component stays zero and the first is a `double`. -/
theorem normalize_plane {K : Type} [LinearOrderedField K] {F : FloatingPoint K}
    (hF : F.Lawful) (M : MathFunctions K) (x0 x2 : K) (h0 : F.toDouble x0 = x0) :
    normalize F M ![x0, 0, x2] 1 = 0 ∧
    F.toDouble (normalize F M ![x0, 0, x2] 0) = normalize F M ![x0, 0, x2] 0 := by
  unfold normalize
  by_cases h : normalize.tmp F ![x0, 0, x2] = 0
  · simp [h, h0]
  · simp [h, hF.toDouble_zero, hF.toDouble_idem]

/-- C13 (failing input): normal (0, 0, 1) and an x-guess (x0, 0, x2) that the
angle test accepts (rounding to nearest, square root exact at 1).  The first
tier is taken and the transform has x column (u0, 0, 0), y column (0, -u0, 0)
and z column (0, 0, -1), where u0 is the first component of the normalised
guess: the determinant of the rotation block is u0 * u0.  In exact arithmetic,
for the x-guess (3/5, 0, 4/5) of unit length (arc cosine of -4/5 more than 10
degrees), the x column is (3/5, 0, 0) and the y column (0, -3/5, 0): both have
squared length 9/25 and the determinant of the rotation block is 9/25. -/
theorem ComputePlaneTransform_not_orthonormal {K : Type} [LinearOrderedField K]
    (F : FloatingPoint K) (M : MathFunctions K) (hF : F.Lawful) (hsqrt1 : M.sqrt 1 = 1) :
    (∀ x0 x2 : K, F.toDouble x0 = x0 →
      10 < VectorAngleDeg F M (normalize F M ![x0, 0, x2]) ![0, 0, -1] →
      (∀ i j : Fin 4,
        ComputePlaneTransform F M ![x0, 0, x2, 0] ![0, 0, 1, 0] ![0, 0, 0, 0] i j =
          ![![normalize F M ![x0, 0, x2] 0, 0, 0, 0],
            ![0, -(normalize F M ![x0, 0, x2] 0), 0, 0], ![0, 0, -1, 0], ![0, 0, 0, 1]] i j) ∧
      (ComputePlaneTransform F M ![x0, 0, x2, 0] ![0, 0, 1, 0]
        ![0, 0, 0, 0]).rotationDeterminant
        = normalize F M ![x0, 0, x2] 0 * normalize F M ![x0, 0, x2] 0) ∧
    ((∀ v, F.toDouble v = v) → (∀ v, F.toFloat v = v) →
      10 < |M.acos (-(4 / 5)) * 180 / PI| →
      (∀ i j : Fin 4,
        ComputePlaneTransform F M ![3 / 5, 0, 4 / 5, 0] ![0, 0, 1, 0] ![0, 0, 0, 0] i j =
          ![![3 / 5, 0, 0, 0], ![0, -(3 / 5), 0, 0], ![0, 0, -1, 0], ![0, 0, 0, 1]] i j) ∧
      ComputePlaneTransform F M ![3 / 5, 0, 4 / 5, 0] ![0, 0, 1, 0] ![0, 0, 0, 0] 0 0 *
          ComputePlaneTransform F M ![3 / 5, 0, 4 / 5, 0] ![0, 0, 1, 0] ![0, 0, 0, 0] 0 0
        + ComputePlaneTransform F M ![3 / 5, 0, 4 / 5, 0] ![0, 0, 1, 0] ![0, 0, 0, 0] 1 0 *
          ComputePlaneTransform F M ![3 / 5, 0, 4 / 5, 0] ![0, 0, 1, 0] ![0, 0, 0, 0] 1 0
        + ComputePlaneTransform F M ![3 / 5, 0, 4 / 5, 0] ![0, 0, 1, 0] ![0, 0, 0, 0] 2 0 *
          ComputePlaneTransform F M ![3 / 5, 0, 4 / 5, 0] ![0, 0, 1, 0] ![0, 0, 0, 0] 2 0
        = 9 / 25 ∧
      (ComputePlaneTransform F M ![3 / 5, 0, 4 / 5, 0] ![0, 0, 1, 0]
        ![0, 0, 0, 0]).rotationDeterminant = 9 / 25) := by
  have hzA := (ComputePlaneTransform_zAxis_unit hF M hsqrt1).2
  have hgen : ∀ x0 x2 : K, F.toDouble x0 = x0 →
      10 < VectorAngleDeg F M (normalize F M ![x0, 0, x2]) ![0, 0, -1] →
      ∀ i j : Fin 4,
        ComputePlaneTransform F M ![x0, 0, x2, 0] ![0, 0, 1, 0] ![0, 0, 0, 0] i j =
          ![![normalize F M ![x0, 0, x2] 0, 0, 0, 0],
            ![0, -(normalize F M ![x0, 0, x2] 0), 0, 0], ![0, 0, -1, 0], ![0, 0, 0, 1]] i j := by
    intro x0 x2 h0 hang i j
    obtain ⟨hu1, hu0⟩ := normalize_plane hF M x0 x2 h0
    have hax : ComputePlaneTransform.axes F M (normalize F M ![x0, 0, x2]) ![0, 0, -1]
        = (![normalize F M ![x0, 0, x2] 0, 0, 0], ![0, -(normalize F M ![x0, 0, x2] 0), 0]) := by
      simp only [ComputePlaneTransform.axes, if_pos hang]
      refine Prod.ext ?_ ?_
      · funext i
        fin_cases i <;> simp [vnl_cross_3d, hF.toDouble_zero, hF.toDouble_neg, hu1, hu0]
      · funext i
        fin_cases i <;> simp [vnl_cross_3d, hF.toDouble_zero, hF.toDouble_neg, hu1, hu0]
    rw [ComputePlaneTransform_apply, hzA]
    simp only [Matrix.cons_val_zero, Matrix.cons_val_one, Matrix.head_cons,
      Matrix.cons_val_two, Matrix.tail_cons]
    rw [hax]
    fin_cases i <;> fin_cases j <;> simp
  refine ⟨fun x0 x2 h0 hang => ⟨hgen x0 x2 h0 hang, ?_⟩, fun hD hFl hacos => ?_⟩
  · simp only [Mat4.rotationDeterminant, hgen x0 x2 h0 hang]
    simp [Matrix.vecHead, Matrix.vecTail]
  · have hgN : normalize F M (![3 / 5, 0, 4 / 5] : Vec3 K) = ![3 / 5, 0, 4 / 5] := by
      refine normalize_of_tmp_one hF M hsqrt1 _ (fun i => hD _) ?_
      simp only [normalize.tmp, hD, Matrix.cons_val_zero, Matrix.cons_val_one,
        Matrix.head_cons, Matrix.cons_val_two, Matrix.tail_cons]
      norm_num
    have hpi : (PI : K) ≠ 0 := by norm_num [PI]
    have hang : 10 < VectorAngleDeg F M (normalize F M ![3 / 5, 0, 4 / 5]) ![0, 0, -1] := by
      rw [hgN]
      simp only [VectorAngleDeg, FloatingPoint.divide, hD, hFl, if_neg hpi,
        Matrix.cons_val_zero, Matrix.cons_val_one, Matrix.head_cons, Matrix.cons_val_two,
        Matrix.tail_cons]
      simpa using hacos
    have hall := hgen (3 / 5) (4 / 5) (hD _) hang
    rw [hgN] at hall
    simp only [Matrix.cons_val_zero] at hall
    refine ⟨hall, ?_, ?_⟩
    · rw [hall, hall, hall]
      norm_num [Matrix.vecHead, Matrix.vecTail]
    · simp only [Mat4.rotationDeterminant, hall]
      norm_num

/-- Narrowing to `float` keeps the sign of a `double` that does not underflow to
zero. -/
theorem toFloat_pos_iff {K : Type} [LinearOrderedField K] {F : FloatingPoint K}
    (hF : F.Lawful) (v : K) (hunder : F.toFloat v = 0 → v = 0) : 0 < F.toFloat v ↔ 0 < v := by
  constructor
  · intro h
    by_contra hv
    have := hF.toFloat_nonpos v (not_lt.1 hv)
    linarith
  · intro h
    rcases lt_or_eq_of_le (hF.toFloat_nonneg v (le_of_lt h)) with h' | h'
    · exact h'
    · exact absurd (hunder h'.symm) (ne_of_gt h)

/-- The z column of the transform is the normalised plane normal. -/
theorem ComputePlaneTransform_zColumn {K : Type} [LinearOrderedField K] (F : FloatingPoint K)
    (M : MathFunctions K) (x n c : Fin 4 → K) (i : Fin 3) :
    ComputePlaneTransform F M x n c i.castSucc 2 = ComputePlaneTransform.zAxis F M n i := by
  rw [ComputePlaneTransform_apply]
  fin_cases i <;> rfl

/-- The normalised plane normal for a normal of `double`s whose third component
does not underflow to zero when narrowed to `float`. -/
theorem ComputePlaneTransform_zAxis_apply {K : Type} [LinearOrderedField K]
    {F : FloatingPoint K} (hF : F.Lawful) (M : MathFunctions K) (n : Fin 4 → K)
    (hrep : ∀ i, F.toDouble (n i) = n i) (hunder : F.toFloat (n 2) = 0 → n 2 = 0) :
    ComputePlaneTransform.zAxis F M n =
      normalize F M (if 0 < n 2 then ![-n 0, n 1, -n 2] else ![n 0, -n 1, n 2]) := by
  unfold ComputePlaneTransform.zAxis
  rw [ComputePlaneTransform_corrected_apply hF n hrep]
  simp only [toFloat_pos_iff hF (n 2) hunder]

/-- The third component of a normalised vector has the sign of the third
component of the vector, when the square root is positive. -/
theorem normalize_nonpos {K : Type} [LinearOrderedField K] {F : FloatingPoint K}
    (hF : F.Lawful) (M : MathFunctions K) (v : Vec3 K)
    (hsqrt : normalize.tmp F v ≠ 0 → 0 < M.sqrt (normalize.tmp F v)) (hv : v 2 ≤ 0) :
    normalize F M v 2 ≤ 0 := by
  unfold normalize
  by_cases h : normalize.tmp F v = 0
  · simpa [h] using hv
  · have hpos := hsqrt h
    simp only [h, if_false, FloatingPoint.divide, if_neg (ne_of_gt hpos)]
    refine hF.toDouble_nonpos _ (mul_nonpos_of_nonneg_of_nonpos ?_ hv)
    exact hF.toDouble_nonneg _ (le_of_lt (one_div_pos.2 hpos))

/-- C14 (amended): for every input normal n of `double`s whose third component
does not underflow to zero when narrowed to `float` (rounding to nearest, a
square root that is positive at the squared length), the z column of the
transform is what `normalize` makes of (n0, -n1, n2), negated as a whole
exactly when n2 is positive: each component is multiplied by the inverse of
the square root of the squared length unless that squared length is computed
as zero; its dot product with the reference direction (0,0,-1) is not
negative; and the inputs n and -n give the same z column whenever n2 is not
zero. -/
theorem ComputePlaneTransform_sign_correction {K : Type} [LinearOrderedField K]
    (F : FloatingPoint K) (M : MathFunctions K) (hF : F.Lawful) (x n c : Fin 4 → K)
    (hrep : ∀ i, F.toDouble (n i) = n i)
    (hunder : F.toFloat (n 2) = 0 → n 2 = 0)
    (hsqrt : normalize.tmp F ![n 0, -n 1, n 2] ≠ 0 →
      0 < M.sqrt (normalize.tmp F ![n 0, -n 1, n 2])) :
    (∀ i : Fin 3, ComputePlaneTransform F M x n c i.castSucc 2 =
      normalize F M (if 0 < n 2 then ![-n 0, n 1, -n 2] else ![n 0, -n 1, n 2]) i) ∧
    (normalize.tmp F ![n 0, -n 1, n 2] ≠ 0 →
      ∀ i : Fin 3, ComputePlaneTransform F M x n c i.castSucc 2 =
        F.toDouble (F.toDouble (1 / M.sqrt (normalize.tmp F ![n 0, -n 1, n 2])) *
          (if 0 < n 2 then -(![n 0, -n 1, n 2] i) else ![n 0, -n 1, n 2] i))) ∧
    0 ≤ 0 * ComputePlaneTransform F M x n c 0 2 + 0 * ComputePlaneTransform F M x n c 1 2
      + (-1) * ComputePlaneTransform F M x n c 2 2 ∧
    (n 2 ≠ 0 → ∀ i : Fin 3, ComputePlaneTransform F M x (fun k => -(n k)) c i.castSucc 2
      = ComputePlaneTransform F M x n c i.castSucc 2) := by
  have htmp : normalize.tmp F ![-n 0, n 1, -n 2] = normalize.tmp F ![n 0, -n 1, n 2] := by
    have := normalize_tmp_neg F (n 0) (-n 1) (n 2)
    simpa using this
  have hz : ∀ i : Fin 3, ComputePlaneTransform F M x n c i.castSucc 2 =
      normalize F M (if 0 < n 2 then ![-n 0, n 1, -n 2] else ![n 0, -n 1, n 2]) i := by
    intro i
    rw [ComputePlaneTransform_zColumn, ComputePlaneTransform_zAxis_apply hF M n hrep hunder]
  have c2 : (Fin.castSucc (2 : Fin 3) : Fin 4) = 2 := rfl
  refine ⟨hz, fun hne i => ?_, ?_, fun hn2 i => ?_⟩
  · rw [hz i]
    have hs := ne_of_gt (hsqrt hne)
    by_cases h : 0 < n 2
    · simp only [if_pos h, normalize, htmp, if_neg hne, FloatingPoint.divide, if_neg hs]
      fin_cases i <;> simp
    · simp only [if_neg h, normalize, if_neg hne, FloatingPoint.divide, if_neg hs]
  · have h2 := hz 2
    rw [c2] at h2
    rw [h2]
    have : normalize F M (if 0 < n 2 then ![-n 0, n 1, -n 2] else ![n 0, -n 1, n 2]) 2 ≤ 0 := by
      by_cases h : 0 < n 2
      · rw [if_pos h]
        refine normalize_nonpos hF M _ (by rw [htmp]; exact hsqrt) ?_
        simpa using le_of_lt h
      · rw [if_neg h]
        refine normalize_nonpos hF M _ hsqrt ?_
        simpa using not_lt.1 h
    linarith
  · rw [hz i, ComputePlaneTransform_zColumn,
      ComputePlaneTransform_zAxis_apply hF M (fun k => -(n k))
        (fun k => by simp only [hF.toDouble_neg, hrep])
        (fun h => by
          simp only [hF.toFloat_neg, neg_eq_zero] at h
          simp only [neg_eq_zero]
          exact hunder h)]
    simp only [neg_neg, Left.neg_pos_iff]
    rcases lt_or_gt_of_ne hn2 with h | h
    · rw [if_pos h, if_neg (not_lt.2 (le_of_lt h))]
    · rw [if_neg (not_lt.2 (le_of_lt h)), if_pos h]

/-- The rounded square root of the square of a whole number is the rounded
number. -/
theorem roundSqrt_sq (p : Nat) (emin : Int) (a : Nat) (e : Int) (ha : 0 < a)
    (h1 : (2 : ℚ) ^ e ≤ (a : ℚ) ^ 2) (h2 : (a : ℚ) ^ 2 < (2 : ℚ) ^ (e + 1))
    (he : e / 2 ≤ (p : Int) + 2) :
    roundSqrt p emin ((a : ℚ) ^ 2) = roundBinary p emin a := by
  have hq : ¬ ((a : ℚ) ^ 2 ≤ 0) := not_le.2 (by positivity)
  unfold roundSqrt
  rw [if_neg hq, log_eq_of_bounds _ e h1 h2]
  obtain ⟨d, hd⟩ : ∃ d : ℕ, (p : Int) + 2 - e / 2 = (d : Int) :=
    ⟨((p : Int) + 2 - e / 2).toNat, by omega⟩
  simp only [hd, zpow_natCast]
  have e4 : (4 : ℚ) ^ d = ((2 : ℚ) ^ d) ^ 2 := by
    rw [← pow_mul, mul_comm, pow_mul]; norm_num
  have e1 : (a : ℚ) ^ 2 * (4 : ℚ) ^ d = (((a * 2 ^ d) ^ 2 : ℕ) : ℚ) := by
    rw [e4]; push_cast; ring
  have e2 : ⌊(a : ℚ) ^ 2 * (4 : ℚ) ^ d⌋.toNat = (a * 2 ^ d) ^ 2 := by
    rw [e1, Int.floor_natCast, Int.toNat_natCast]
  rw [e2, Nat.sqrt_eq']
  have e3 : ((a * 2 ^ d : ℕ) : ℚ) * ((a * 2 ^ d : ℕ) : ℚ) = (a : ℚ) ^ 2 * (4 : ℚ) ^ d := by
    rw [e4]; push_cast; ring
  rw [if_pos e3]
  congr 1
  push_cast
  field_simp

/-- The square root of the sample functions at 1, 4, 9, 25 and 49 * 49. -/
theorem sampleMath_sqrt :
    sampleMath.sqrt 1 = 1 ∧ sampleMath.sqrt 4 = 2 ∧ sampleMath.sqrt 9 = 3 ∧
    sampleMath.sqrt 25 = 5 ∧ sampleMath.sqrt 2401 = 49 := by
  refine ⟨?_, ?_, ?_, ?_, ?_⟩
  · have h := roundSqrt_sq 53 (-1074) 1 0 (by norm_num) (by norm_num) (by norm_num)
      (by norm_num)
    have e : sampleMath.sqrt 1 = roundSqrt 53 (-1074) (((1 : ℕ) : ℚ) ^ 2) := by
      norm_num [sampleMath]
    rw [e, h]
    exact_mod_cast ieee754_toDouble_natCast 1 (by norm_num)
  · have h := roundSqrt_sq 53 (-1074) 2 2 (by norm_num) (by norm_num) (by norm_num)
      (by norm_num)
    have e : sampleMath.sqrt 4 = roundSqrt 53 (-1074) (((2 : ℕ) : ℚ) ^ 2) := by
      norm_num [sampleMath]
    rw [e, h]
    exact_mod_cast ieee754_toDouble_natCast 2 (by norm_num)
  · have h := roundSqrt_sq 53 (-1074) 3 3 (by norm_num) (by norm_num) (by norm_num)
      (by norm_num)
    have e : sampleMath.sqrt 9 = roundSqrt 53 (-1074) (((3 : ℕ) : ℚ) ^ 2) := by
      norm_num [sampleMath]
    rw [e, h]
    exact_mod_cast ieee754_toDouble_natCast 3 (by norm_num)
  · have h := roundSqrt_sq 53 (-1074) 5 4 (by norm_num) (by norm_num) (by norm_num)
      (by norm_num)
    have e : sampleMath.sqrt 25 = roundSqrt 53 (-1074) (((5 : ℕ) : ℚ) ^ 2) := by
      norm_num [sampleMath]
    rw [e, h]
    exact_mod_cast ieee754_toDouble_natCast 5 (by norm_num)
  · have h := roundSqrt_sq 53 (-1074) 49 11 (by norm_num) (by norm_num) (by norm_num)
      (by norm_num)
    have e : sampleMath.sqrt 2401 = roundSqrt 53 (-1074) (((49 : ℕ) : ℚ) ^ 2) := by
      norm_num [sampleMath]
    rw [e, h]
    exact_mod_cast ieee754_toDouble_natCast 49 (by norm_num)

/-- The `double` nearest to the constant `PI`. -/
theorem ieee754_toDouble_PI : ieee754.toDouble PI = 884279719003555 / 281474976710656 := by
  show roundBinary 53 (-1074) PI = _
  rw [roundBinary_eval 53 (-1074) PI 1 (by norm_num [le_abs, PI]) (by norm_num [abs_lt, PI])]
  norm_num [roundNearestEven, PI]

/-- The angle that `VectorAngleDeg` computes from the arc cosine of the sample
functions at -1: 180 degrees. -/
theorem sampleMath_angle_opposite :
    ieee754.toFloat |ieee754.divide (ieee754.toDouble (sampleMath.acos (-1) * 180))
      (ieee754.toDouble PI)| = 180 := by
  have h1 : sampleMath.acos (-1) = 884279719003555 / 281474976710656 := by
    show roundBinary 53 (-1074) (PI / 2 * (1 - -1)) = _
    rw [roundBinary_eval 53 (-1074) _ 1 (by norm_num [le_abs, PI]) (by norm_num [abs_lt, PI])]
    norm_num [roundNearestEven, PI]
  have h2 : ieee754.toDouble (884279719003555 / 281474976710656 * 180)
      = 4974073419394997 / 8796093022208 := by
    show roundBinary 53 (-1074) _ = _
    rw [roundBinary_eval 53 (-1074) _ 9 (by norm_num [le_abs]) (by norm_num [abs_lt])]
    norm_num [roundNearestEven]
  have h3 : ieee754.toDouble (4974073419394997 / 8796093022208
      / (884279719003555 / 281474976710656)) = 180 := by
    show roundBinary 53 (-1074) _ = _
    rw [roundBinary_eval 53 (-1074) _ 7 (by norm_num [le_abs]) (by norm_num [abs_lt])]
    norm_num [roundNearestEven]
  rw [h1, h2, ieee754_toDouble_PI, FloatingPoint.divide, if_neg (by norm_num), h3]
  norm_num

/-- C18 (witness): IEEE 754 arithmetic and the sample functions satisfy the
hypotheses; the angle test passes and the x and y columns are zero. -/
theorem ComputePlaneTransform_antiparallel_guess_witness :
    (sampleMath.sqrt 1 = 1 ∧
      10 < ieee754.toFloat |ieee754.divide (ieee754.toDouble (sampleMath.acos (-1) * 180))
        (ieee754.toDouble PI)|) ∧
    VectorAngleDeg ieee754 sampleMath (normalize ieee754 sampleMath ![0, 0, 1])
      (ComputePlaneTransform.zAxis ieee754 sampleMath ![0, 0, -1, 0]) > 10 ∧
    ComputePlaneTransform ieee754 sampleMath ![0, 0, 1, 0] ![0, 0, -1, 0] ![7, 8, 9, 0] 0 0
      = 0 ∧
    ComputePlaneTransform ieee754 sampleMath ![0, 0, 1, 0] ![0, 0, -1, 0] ![7, 8, 9, 0] 1 1
      = 0 :=
  have hacos : 10 < ieee754.toFloat
      |ieee754.divide (ieee754.toDouble (sampleMath.acos (-1) * 180)) (ieee754.toDouble PI)| := by
    rw [sampleMath_angle_opposite]; norm_num
  have h := ComputePlaneTransform_antiparallel_guess ieee754 sampleMath ieee754_lawful
    ![7, 8, 9, 0] sampleMath_sqrt.1 hacos
  ⟨⟨sampleMath_sqrt.1, hacos⟩, h.1, h.2.1 0, h.2.2.1 1⟩

/-- The x-guess (3, 0, 4) as `normalize` leaves it in IEEE 754 arithmetic, and
the angle that `VectorAngleDeg` computes for it and the normal (0, 0, -1). -/
theorem sampleGuess_values :
    normalize ieee754 sampleMath ![3, 0, 4] = ![1351079888211149 / 2251799813685248, 0,
      3602879701896397 / 4503599627370496] ∧
    VectorAngleDeg ieee754 sampleMath ![1351079888211149 / 2251799813685248, 0,
      3602879701896397 / 4503599627370496] ![0, 0, -1] = 162 := by
  have hs : ieee754.toDouble (1 / 5) = 3602879701896397 / 18014398509481984 := by
    show roundBinary 53 (-1074) _ = _
    rw [roundBinary_eval 53 (-1074) _ (-3) (by norm_num [le_abs]) (by norm_num [abs_lt])]
    norm_num [roundNearestEven]
  have h0 : ieee754.toDouble (10808639105689191 / 18014398509481984)
      = 1351079888211149 / 2251799813685248 := by
    show roundBinary 53 (-1074) _ = _
    rw [roundBinary_eval 53 (-1074) _ (-1) (by norm_num [le_abs]) (by norm_num [abs_lt])]
    norm_num [roundNearestEven]
  have h2 : ieee754.toDouble (3602879701896397 / 4503599627370496)
      = 3602879701896397 / 4503599627370496 := by
    show roundBinary 53 (-1074) _ = _
    rw [roundBinary_eval 53 (-1074) _ (-1) (by norm_num [le_abs]) (by norm_num [abs_lt])]
    norm_num [roundNearestEven]
  have hf : ieee754.toFloat (3602879701896397 / 4503599627370496) = 13421773 / 16777216 := by
    show roundBinary 24 (-149) _ = _
    rw [roundBinary_eval 24 (-149) _ (-1) (by norm_num [le_abs]) (by norm_num [abs_lt])]
    norm_num [roundNearestEven]
  have ha : sampleMath.acos (-(13421773 / 16777216)) = 6366814018991339 / 2251799813685248 := by
    show roundBinary 53 (-1074) (PI / 2 * (1 - -(13421773 / 16777216))) = _
    rw [roundBinary_eval 53 (-1074) _ 1 (by norm_num [le_abs, PI]) (by norm_num [abs_lt, PI])]
    norm_num [roundNearestEven, PI]
  have hx : ieee754.toDouble (6366814018991339 / 2251799813685248 * 180)
      = 4476666107103285 / 8796093022208 := by
    show roundBinary 53 (-1074) _ = _
    rw [roundBinary_eval 53 (-1074) _ 8 (by norm_num [le_abs]) (by norm_num [abs_lt])]
    norm_num [roundNearestEven]
  have hy : ieee754.toDouble (4476666107103285 / 8796093022208
      / (884279719003555 / 281474976710656)) = 1358954505 / 8388608 := by
    show roundBinary 53 (-1074) _ = _
    rw [roundBinary_eval 53 (-1074) _ 7 (by norm_num [le_abs]) (by norm_num [abs_lt])]
    norm_num [roundNearestEven]
  have hang : ieee754.toFloat (1358954505 / 8388608) = 162 := by
    show roundBinary 24 (-149) _ = _
    rw [roundBinary_eval 24 (-149) _ 7 (by norm_num [le_abs]) (by norm_num [abs_lt])]
    norm_num [roundNearestEven]
  have htmp : normalize.tmp ieee754 (![3, 0, 4] : Vec3 ℚ) = 25 := by
    norm_num [normalize.tmp]
  constructor
  · funext i
    simp only [normalize, htmp, FloatingPoint.divide, sampleMath_sqrt.2.2.2.1, hs]
    fin_cases i <;> norm_num [h0, h2]
  · have hdot : ieee754.toFloat (ieee754.toDouble (ieee754.toDouble
        (ieee754.toDouble (1351079888211149 / 2251799813685248 * 0) + ieee754.toDouble (0 * 0))
        + ieee754.toDouble (3602879701896397 / 4503599627370496 * -1)))
        = -(13421773 / 16777216) := by
      norm_num [h2, hf]
    simp only [VectorAngleDeg, Matrix.cons_val_zero, Matrix.cons_val_one, Matrix.head_cons,
      Matrix.cons_val_two, Matrix.tail_cons]
    rw [hdot, ha, hx, ieee754_toDouble_PI, FloatingPoint.divide, if_neg (by norm_num), hy,
      abs_of_pos (by norm_num), hang]

/-- C13 (witness): IEEE 754 arithmetic, the sample functions and the x-guess
(3, 0, 4), at about 127 degrees to the normal: the x column is (u0, 0, 0) with
u0 the `double` next above 3/5, and the determinant of the rotation block is
u0 * u0.  Arithmetic without rounding and the unit x-guess (3/5, 0, 4/5): the
determinant of the rotation block is 9/25. -/
theorem ComputePlaneTransform_not_orthonormal_witness :
    (sampleMath.sqrt 1 = 1 ∧ ieee754.toDouble 3 = 3 ∧
      10 < VectorAngleDeg ieee754 sampleMath (normalize ieee754 sampleMath ![3, 0, 4])
        ![0, 0, -1]) ∧
    normalize ieee754 sampleMath ![3, 0, 4] 0 = 1351079888211149 / 2251799813685248 ∧
    (ComputePlaneTransform ieee754 sampleMath ![3, 0, 4, 0] ![0, 0, 1, 0]
      ![0, 0, 0, 0]).rotationDeterminant
      = normalize ieee754 sampleMath ![3, 0, 4] 0 * normalize ieee754 sampleMath ![3, 0, 4] 0 ∧
    (10 : ℚ) < |PI / 2 * (1 - -(4 / 5)) * 180 / PI| ∧
    (ComputePlaneTransform (exactArithmetic ℚ) ⟨fun v => v, fun v => PI / 2 * (1 - v)⟩
      ![3 / 5, 0, 4 / 5, 0] ![0, 0, 1, 0] ![0, 0, 0, 0]).rotationDeterminant = 9 / 25 :=
  have h3 : ieee754.toDouble 3 = 3 := by simp
  have hang : 10 < VectorAngleDeg ieee754 sampleMath (normalize ieee754 sampleMath ![3, 0, 4])
      ![0, 0, -1] := by
    rw [sampleGuess_values.1, sampleGuess_values.2]; norm_num
  have hexact : (10 : ℚ) < |PI / 2 * (1 - -(4 / 5)) * 180 / PI| :=
    lt_abs.2 (Or.inl (by norm_num [PI]))
  ⟨⟨sampleMath_sqrt.1, h3, hang⟩, by rw [sampleGuess_values.1]; rfl,
    ((ComputePlaneTransform_not_orthonormal ieee754 sampleMath ieee754_lawful
      sampleMath_sqrt.1).1 3 4 h3 hang).2, hexact,
    ((ComputePlaneTransform_not_orthonormal (exactArithmetic ℚ)
      ⟨fun v => v, fun v => PI / 2 * (1 - v)⟩ (exactArithmetic_lawful ℚ) rfl).2
      (fun _ => rfl) (fun _ => rfl) hexact).2.2⟩

/-- C14 (witness): IEEE 754 arithmetic, the sample functions and the normal
(2, 1, 2), whose third component is positive: the third component of the z
column is the `double` nearest to 1/3 times -2, and its dot product with
(0,0,-1) is not negative. -/
theorem ComputePlaneTransform_sign_correction_witness :
    (normalize.tmp ieee754 (![2, -1, 2] : Vec3 ℚ) = 9 ∧ sampleMath.sqrt 9 = 3) ∧
    ComputePlaneTransform ieee754 sampleMath ![1, 0, 0, 0] ![2, 1, 2, 0] ![0, 0, 0, 0] 2 2
      = -(6004799503160661 / 9007199254740992) ∧
    0 ≤ 0 * ComputePlaneTransform ieee754 sampleMath ![1, 0, 0, 0] ![2, 1, 2, 0] ![0, 0, 0, 0] 0 2
      + 0 * ComputePlaneTransform ieee754 sampleMath ![1, 0, 0, 0] ![2, 1, 2, 0] ![0, 0, 0, 0] 1 2
      + (-1) *
        ComputePlaneTransform ieee754 sampleMath ![1, 0, 0, 0] ![2, 1, 2, 0] ![0, 0, 0, 0] 2 2 :=
  have htmp : normalize.tmp ieee754 (![2, -1, 2] : Vec3 ℚ) = 9 := by
    norm_num [normalize.tmp]
  have hthird : ieee754.toDouble (1 / 3) = 6004799503160661 / 18014398509481984 := by
    show roundBinary 53 (-1074) _ = _
    rw [roundBinary_eval 53 (-1074) _ (-2) (by norm_num [le_abs]) (by norm_num [abs_lt])]
    norm_num [roundNearestEven]
  have hprod : ieee754.toDouble (6004799503160661 / 9007199254740992)
      = 6004799503160661 / 9007199254740992 := by
    show roundBinary 53 (-1074) _ = _
    rw [roundBinary_eval 53 (-1074) _ (-1) (by norm_num [le_abs]) (by norm_num [abs_lt])]
    norm_num [roundNearestEven]
  have h := ComputePlaneTransform_sign_correction ieee754 sampleMath ieee754_lawful
    ![1, 0, 0, 0] ![2, 1, 2, 0] ![0, 0, 0, 0]
    (fun i => by fin_cases i <;> simp)
    (fun h => by simp at h)
    (fun _ => by
      show 0 < sampleMath.sqrt (normalize.tmp ieee754 (![2, -1, 2] : Vec3 ℚ))
      rw [htmp, sampleMath_sqrt.2.2.1]; norm_num)
  have h2 := h.2.1 (by
    show normalize.tmp ieee754 (![2, -1, 2] : Vec3 ℚ) ≠ 0
    rw [htmp]; norm_num) 2
  ⟨⟨htmp, sampleMath_sqrt.2.2.1⟩,
    h2.trans (by
      show ieee754.toDouble (ieee754.toDouble
        (1 / sampleMath.sqrt (normalize.tmp ieee754 (![2, -1, 2] : Vec3 ℚ))) * _) = _
      rw [htmp, sampleMath_sqrt.2.2.1, hthird]
      norm_num [hprod]),
    h.2.2.1⟩

/-- A normal (1, 0, a) of `double`s whose third component narrows to the `float`
zero and does not count in the squared length: no sign correction is made,
the z column is (1, 0, a), and the normal (-1, 0, -a) gives the z column
(-1, 0, -a). -/
theorem ComputePlaneTransform_underflow (a : ℚ) (hd : ieee754.toDouble a = a)
    (hf : ieee754.toFloat a = 0) (hone : ieee754.toDouble (1 + ieee754.toDouble (a * a)) = 1) :
    ComputePlaneTransform ieee754 sampleMath ![1, 0, 0, 0] ![1, 0, a, 0] ![0, 0, 0, 0] 0 2 = 1 ∧
    ComputePlaneTransform ieee754 sampleMath ![1, 0, 0, 0] ![1, 0, a, 0] ![0, 0, 0, 0] 1 2 = 0 ∧
    ComputePlaneTransform ieee754 sampleMath ![1, 0, 0, 0] ![1, 0, a, 0] ![0, 0, 0, 0] 2 2 = a ∧
    ComputePlaneTransform ieee754 sampleMath ![1, 0, 0, 0]
      (fun k => -((![1, 0, a, 0] : Fin 4 → ℚ) k)) ![0, 0, 0, 0] 0 2 = -1 ∧
    ComputePlaneTransform ieee754 sampleMath ![1, 0, 0, 0]
      (fun k => -((![1, 0, a, 0] : Fin 4 → ℚ) k)) ![0, 0, 0, 0] 2 2 = -a := by
  have hrep : ∀ i, ieee754.toDouble ((![1, 0, a, 0] : Fin 4 → ℚ) i)
      = (![1, 0, a, 0] : Fin 4 → ℚ) i := by
    intro i
    fin_cases i
    · simp
    · simp
    · exact hd
    · simp
  have hrep' : ∀ i, ieee754.toDouble ((fun k => -((![1, 0, a, 0] : Fin 4 → ℚ) k)) i)
      = (fun k => -((![1, 0, a, 0] : Fin 4 → ℚ) k)) i := by
    intro i
    simp only [ieee754_toDouble_neg, hrep]
  have htmp : normalize.tmp ieee754 (![1, 0, a] : Vec3 ℚ) = 1 := by
    simpa [normalize.tmp] using hone
  have hz : ComputePlaneTransform.zAxis ieee754 sampleMath ![1, 0, a, 0] = ![1, 0, a] := by
    unfold ComputePlaneTransform.zAxis
    rw [ComputePlaneTransform_corrected_apply ieee754_lawful _ hrep]
    simp only [Matrix.cons_val_two, Matrix.tail_cons, Matrix.head_cons, hf, lt_irrefl,
      if_false, Matrix.cons_val_zero, Matrix.cons_val_one, neg_zero]
    refine normalize_of_tmp_one ieee754_lawful sampleMath sampleMath_sqrt.1 _ (fun i => ?_) htmp
    fin_cases i
    · simp
    · simp
    · exact hd
  have hz' : ComputePlaneTransform.zAxis ieee754 sampleMath
      (fun k => -((![1, 0, a, 0] : Fin 4 → ℚ) k)) = ![-1, 0, -a] := by
    unfold ComputePlaneTransform.zAxis
    rw [ComputePlaneTransform_corrected_apply ieee754_lawful _ hrep']
    simp only [Matrix.cons_val_two, Matrix.tail_cons, Matrix.head_cons, hf, lt_irrefl,
      if_false, Matrix.cons_val_zero, Matrix.cons_val_one, neg_zero, ieee754_toFloat_neg,
      neg_neg]
    refine normalize_of_tmp_one ieee754_lawful sampleMath sampleMath_sqrt.1 _ (fun i => ?_) ?_
    · fin_cases i
      · simp
      · simp
      · show ieee754.toDouble (-a) = -a
        rw [ieee754_toDouble_neg, hd]
    · have := normalize_tmp_neg ieee754 (1 : ℚ) 0 a
      rw [neg_zero] at this
      exact this.trans htmp
  have e0 := ComputePlaneTransform_zColumn ieee754 sampleMath ![1, 0, 0, 0]
    ![1, 0, a, 0] ![0, 0, 0, 0] 0
  have e1 := ComputePlaneTransform_zColumn ieee754 sampleMath ![1, 0, 0, 0]
    ![1, 0, a, 0] ![0, 0, 0, 0] 1
  have e2 := ComputePlaneTransform_zColumn ieee754 sampleMath ![1, 0, 0, 0]
    ![1, 0, a, 0] ![0, 0, 0, 0] 2
  have e0' := ComputePlaneTransform_zColumn ieee754 sampleMath ![1, 0, 0, 0]
    (fun k => -((![1, 0, a, 0] : Fin 4 → ℚ) k)) ![0, 0, 0, 0] 0
  have e2' := ComputePlaneTransform_zColumn ieee754 sampleMath ![1, 0, 0, 0]
    (fun k => -((![1, 0, a, 0] : Fin 4 → ℚ) k)) ![0, 0, 0, 0] 2
  have c2 : (Fin.castSucc (2 : Fin 3) : Fin 4) = 2 := rfl
  rw [hz] at e0 e1 e2
  rw [hz'] at e0' e2'
  simp only [Fin.castSucc_zero, Fin.castSucc_one, c2, Matrix.cons_val_zero, Matrix.cons_val_one,
    Matrix.head_cons, Matrix.cons_val_two, Matrix.tail_cons] at e0 e1 e2 e0' e2'
  exact ⟨e0, e1, e2, e0', e2'⟩

/-- C14 (counterexample): IEEE 754 arithmetic and the normal n = (1, 0, 2^-200),
whose components are `double`s.  Its third component narrows to the `float`
zero, so that no sign correction is made: the z column is (1, 0, 2^-200), whose
dot product with (0,0,-1) is negative, and the normal -n gives the opposite
z column (-1, 0, -2^-200). -/
theorem ComputePlaneTransform_sign_correction_counterexample :
    (ieee754.toDouble (1 / 2 ^ 200) = 1 / 2 ^ 200 ∧ ieee754.toFloat (1 / 2 ^ 200) = 0) ∧
    (ComputePlaneTransform ieee754 sampleMath ![1, 0, 0, 0] ![1, 0, 1 / 2 ^ 200, 0]
        ![0, 0, 0, 0] 0 2 = 1 ∧
      ComputePlaneTransform ieee754 sampleMath ![1, 0, 0, 0] ![1, 0, 1 / 2 ^ 200, 0]
        ![0, 0, 0, 0] 1 2 = 0 ∧
      ComputePlaneTransform ieee754 sampleMath ![1, 0, 0, 0] ![1, 0, 1 / 2 ^ 200, 0]
        ![0, 0, 0, 0] 2 2 = 1 / 2 ^ 200 ∧
      ComputePlaneTransform ieee754 sampleMath ![1, 0, 0, 0]
        (fun k => -((![1, 0, 1 / 2 ^ 200, 0] : Fin 4 → ℚ) k)) ![0, 0, 0, 0] 0 2 = -1 ∧
      ComputePlaneTransform ieee754 sampleMath ![1, 0, 0, 0]
        (fun k => -((![1, 0, 1 / 2 ^ 200, 0] : Fin 4 → ℚ) k)) ![0, 0, 0, 0] 2 2
        = -(1 / 2 ^ 200)) ∧
    (0 : ℚ) * 1 + 0 * 0 + (-1) * (1 / 2 ^ 200) < 0 := by
  have hd : ieee754.toDouble (1 / 2 ^ 200) = 1 / 2 ^ 200 := by
    have := roundBinary_of_scaled 53 (-1074) 1 (-200) (by norm_num) (by norm_num)
    rw [show ((1 : Int) : ℚ) * (2 : ℚ) ^ (-200 : Int) = 1 / 2 ^ 200 from by norm_num] at this
    exact this
  have hd2 : ieee754.toDouble (1 / 2 ^ 400) = 1 / 2 ^ 400 := by
    have := roundBinary_of_scaled 53 (-1074) 1 (-400) (by norm_num) (by norm_num)
    rw [show ((1 : Int) : ℚ) * (2 : ℚ) ^ (-400 : Int) = 1 / 2 ^ 400 from by norm_num] at this
    exact this
  have hf : ieee754.toFloat (1 / 2 ^ 200) = 0 := by
    show roundBinary 24 (-149) _ = _
    rw [roundBinary_eval 24 (-149) _ (-200) (by norm_num [le_abs]) (by norm_num [abs_lt])]
    norm_num [roundNearestEven]
  have hone : ieee754.toDouble (1 + 1 / 2 ^ 400) = 1 := by
    show roundBinary 53 (-1074) _ = _
    rw [roundBinary_eval 53 (-1074) _ 0 (by norm_num [le_abs]) (by norm_num [abs_lt])]
    norm_num [roundNearestEven]
  have hsq : (1 / 2 ^ 200 : ℚ) * (1 / 2 ^ 200) = 1 / 2 ^ 400 := by norm_num
  exact ⟨⟨hd, hf⟩, ComputePlaneTransform_underflow (1 / 2 ^ 200) hd hf
    (by rw [hsq, hd2, hone]), by norm_num⟩

/-- C19 (failing input): two segments handed to `GenerateBoundary` in IEEE 754
arithmetic, whatever the array held.  From (13, 2) to (6, 15), whole-pixel
corners: the bound written at the first row 2 is the column 13 of the first
corner, and the bound written at the last row 15 is 5, outside the columns 6
to 13 of the two end corners (the slope -7/13 is rounded to `float`, and the
sum 5.9999995 is truncated).  From (0, 0.75) to (10, 1.25), sub-pixel corners:
the rows are 0 and 1, the slope is computed as 20 from the untruncated
corners, the bound written at row 0 is the column 0 of the first corner and
the bound written at row 1 is 20, outside the columns 0 to 10 of the two end
corners. -/
theorem GenerateBoundary_out_of_bounds (boundary : IntArray) :
    (toInt (13 : ℚ) = 13 ∧ toInt (6 : ℚ) = 6 ∧
      GenerateBoundary ieee754 boundary [⟨13, 2⟩, ⟨6, 15⟩] 2 true (2 - 2) = 13 ∧
      GenerateBoundary ieee754 boundary [⟨13, 2⟩, ⟨6, 15⟩] 2 true (15 - 2) = 5) ∧
    (toInt (0 : ℚ) = 0 ∧ toInt (10 : ℚ) = 10 ∧
      toInt (3 / 4 : ℚ) = 0 ∧ toInt (5 / 4 : ℚ) = 1 ∧
      DetermineSlope ieee754 (⟨0, 3 / 4⟩ : Point2d ℚ) ⟨10, 5 / 4⟩ = 20 ∧
      GenerateBoundary ieee754 boundary steepSegment 0 false (0 - 0) = 0 ∧
      GenerateBoundary ieee754 boundary steepSegment 0 false (1 - 0) = 20) := by
  obtain ⟨hm, hp, hs, hi⟩ := roundedEdge_values
  have hhalf : ieee754.toDouble (1 / 2) = 1 / 2 := by
    show roundBinary 53 (-1074) _ = _
    rw [roundBinary_eval 53 (-1074) _ (-1) (by norm_num [le_abs]) (by norm_num [abs_lt])]
    norm_num [roundNearestEven]
  have hslope : DetermineSlope ieee754 (⟨0, 3 / 4⟩ : Point2d ℚ) ⟨10, 5 / 4⟩ = 20 := by
    have e : ((3 : ℚ) / 4 - 5 / 4) = -(1 / 2) := by norm_num
    simp only [DetermineSlope, FloatingPoint.divide, e, ieee754_toDouble_neg, hhalf]
    norm_num
  refine ⟨⟨by norm_num [toInt], by norm_num [toInt], ?_, ?_⟩,
    by norm_num [toInt], by norm_num [toInt], by norm_num [toInt], by norm_num [toInt],
    hslope, ?_, ?_⟩
  · simp only [GenerateBoundary_two, GenerateBoundary_segment_apply, cornerAt,
      List.getD_cons_zero, List.getD_cons_succ, hm]
    norm_num [toInt]
  · simp only [GenerateBoundary_two, GenerateBoundary_segment_apply, cornerAt,
      List.getD_cons_zero, List.getD_cons_succ, hm]
    norm_num [toInt, hp, hs]
  · simp only [steepSegment, GenerateBoundary_two, GenerateBoundary_segment_apply, cornerAt,
      List.getD_cons_zero, List.getD_cons_succ, hslope]
    norm_num [toInt]
  · simp only [steepSegment, GenerateBoundary_two, GenerateBoundary_segment_apply, cornerAt,
      List.getD_cons_zero, List.getD_cons_succ, hslope]
    norm_num [toInt]

/-! ### Region scan -/

/-- The counter of a `for` loop takes exactly the values between its bounds. -/
theorem mem_intRange (lo hi v : Int) : v ∈ intRange lo hi ↔ lo ≤ v ∧ v ≤ hi := by
  unfold intRange
  simp only [List.mem_map, List.mem_range]
  constructor
  · rintro ⟨k, hk, rfl⟩
    constructor <;> omega
  · rintro ⟨h1, h2⟩
    exact ⟨(v - lo).toNat, by omega, by omega⟩

/-- The counter of a `for` loop takes its values in increasing order. -/
theorem pairwise_intRange (lo hi : Int) : (intRange lo hi).Pairwise (fun a b => a < b) := by
  unfold intRange
  refine List.Pairwise.map _ (fun a b h => ?_) (List.pairwise_lt_range _)
  have : (a : Int) < (b : Int) := by exact_mod_cast h
  omega

/-- C20: for all rows `top`, `bottom` and boundary arrays, `CopyToItkData`
returns the points already in the output followed by the points of the cloud
at index 640 * row + col, for the pixels of the scan in scan order, that pass
the depth filter; the pixels of the scan are exactly those with
top <= row <= bottom and leftBoundary[row - top] <= col <= rightBoundary[row - top];
the scan is in row-major order; and a row whose left bound exceeds its right
bound has no pixel in the scan. -/
theorem CopyToItkData_region {K : Type} [LinearOrderedField K]
    (vtkDepthData : PolyData K) (itkData : List (Point3 K)) (top bottom : Int)
    (leftBoundary rightBoundary : IntArray) :
    CopyToItkData vtkDepthData itkData top bottom leftBoundary rightBoundary
      = itkData ++ ((CopyToItkData.scan top bottom leftBoundary rightBoundary).map
          (fun p => vtkDepthData (640 * p.1 + p.2))).filter
            (fun p => decide (50 < p.z ∧ p.z < 2000)) ∧
    (∀ row col : Int, (row, col) ∈ CopyToItkData.scan top bottom leftBoundary rightBoundary ↔
      top ≤ row ∧ row ≤ bottom ∧
        leftBoundary (row - top) ≤ col ∧ col ≤ rightBoundary (row - top)) ∧
    (CopyToItkData.scan top bottom leftBoundary rightBoundary).Pairwise
      (fun p q => p.1 < q.1 ∨ (p.1 = q.1 ∧ p.2 < q.2)) ∧
    (∀ row : Int, rightBoundary (row - top) < leftBoundary (row - top) →
      ∀ col : Int, (row, col) ∉ CopyToItkData.scan top bottom leftBoundary rightBoundary) := by
  have hmem : ∀ row col : Int,
      (row, col) ∈ CopyToItkData.scan top bottom leftBoundary rightBoundary ↔
      top ≤ row ∧ row ≤ bottom ∧
        leftBoundary (row - top) ≤ col ∧ col ≤ rightBoundary (row - top) := by
    intro row col
    simp only [CopyToItkData.scan, List.mem_flatMap, List.mem_map, mem_intRange, Prod.mk.injEq]
    constructor
    · rintro ⟨y, ⟨h1, h2⟩, x, ⟨h3, h4⟩, rfl, rfl⟩
      exact ⟨h1, h2, h3, h4⟩
    · rintro ⟨h1, h2, h3, h4⟩
      exact ⟨row, ⟨h1, h2⟩, col, ⟨h3, h4⟩, rfl, rfl⟩
  refine ⟨?_, hmem, ?_, ?_⟩
  · have e := CopyToItkData_rows vtkDepthData
      (fun yPx => intRange (leftBoundary (yPx - top)) (rightBoundary (yPx - top)))
      (intRange top bottom) itkData
    unfold CopyToItkData
    rw [e]
    congr 2
    simp only [CopyToItkData.scan, List.map_flatMap, List.map_map]
    rfl
  · unfold CopyToItkData.scan
    rw [List.pairwise_flatMap]
    constructor
    · intro y _
      refine List.Pairwise.map _ (fun a b h => ?_) (pairwise_intRange _ _)
      exact Or.inr ⟨rfl, h⟩
    · refine List.Pairwise.imp ?_ (pairwise_intRange top bottom)
      intro a b hab p hp q hq
      simp only [List.mem_map] at hp hq
      obtain ⟨_, _, rfl⟩ := hp
      obtain ⟨_, _, rfl⟩ := hq
      exact Or.inl hab
  · intro row hrow col hcol
    have := (hmem row col).1 hcol
    omega

/-! ### Reading the configuration -/

/-- The loop over the data sources fails exactly when the input type is
RGB-only and some Tool data source with an Id has a policy other than
FUSION_RGB_ONLY; it leaves the input type as it is, and every tool it adds has
the policy of a Tool data source with an Id. -/
theorem ReadConfiguration_toolLoop_spec {K : Type} [LinearOrderedField K]
    (C : ConfigCollaborators K) (elements : List vtkXMLDataElement) (this : vtkInternal K) :
    ((ReadConfiguration.toolLoop C elements this).1 = PLUS_FAIL ↔
      this.InputType = INPUT_RGB_ONLY ∧ ∃ el ∈ elements, IsToolDataSource el ∧
        ReadConfiguration.fusionMethod el ≠ FUSION_RGB_ONLY) ∧
    (∀ t ∈ (ReadConfiguration.toolLoop C elements this).2.Tools, t ∈ this.Tools ∨
      ∃ el ∈ elements, IsToolDataSource el ∧
        t.DataFusionMethod = ReadConfiguration.fusionMethod el) := by
  induction elements generalizing this with
  | nil => simp [ReadConfiguration.toolLoop]
  | cons el rest ih =>
    have hskip : ¬ IsToolDataSource el →
        (((ReadConfiguration.toolLoop C rest this).1 = PLUS_FAIL ↔
          this.InputType = INPUT_RGB_ONLY ∧ ∃ e ∈ el :: rest, IsToolDataSource e ∧
            ReadConfiguration.fusionMethod e ≠ FUSION_RGB_ONLY) ∧
        (∀ t ∈ (ReadConfiguration.toolLoop C rest this).2.Tools, t ∈ this.Tools ∨
          ∃ e ∈ el :: rest, IsToolDataSource e ∧
            t.DataFusionMethod = ReadConfiguration.fusionMethod e)) := by
      intro hnot
      refine ⟨?_, ?_⟩
      · rw [(ih this).1]
        constructor
        · rintro ⟨h1, e, he, h2⟩
          exact ⟨h1, e, List.mem_cons_of_mem _ he, h2⟩
        · rintro ⟨h1, e, he, h2⟩
          rcases List.mem_cons.1 he with h | h
          · exact absurd (h ▸ h2.1) hnot
          · exact ⟨h1, e, h, h2⟩
      · intro t ht
        rcases (ih this).2 t ht with h | ⟨e, he, h⟩
        · exact Or.inl h
        · exact Or.inr ⟨e, List.mem_cons_of_mem _ he, h⟩
    by_cases h1 : STRCASECMP el.GetName "DataSource" ≠ 0
    · rw [ReadConfiguration.toolLoop, if_pos h1]
      exact hskip (fun h => h1 h.1)
    by_cases h2 : (el.GetAttribute "Type").isSome ∧
        STRCASECMP ((el.GetAttribute "Type").getD "") "Tool" ≠ 0
    · rw [ReadConfiguration.toolLoop, if_neg h1, if_pos h2]
      refine hskip (fun h => h2.2 ?_)
      obtain ⟨type, htype⟩ := Option.isSome_iff_exists.1 h2.1
      rw [htype]
      exact h.2.1 type htype
    cases hid : el.GetAttribute "Id" with
    | none =>
      rw [ReadConfiguration.toolLoop, if_neg h1, if_neg h2]
      simp only [hid]
      refine hskip (fun h => ?_)
      have h' := h.2.2
      rw [hid] at h'
      exact absurd h' (by simp)
    | some toolId =>
      have htool : IsToolDataSource el := by
        refine ⟨not_not.1 h1, fun type htype => ?_, by rw [hid]; rfl⟩
        by_contra hc
        exact h2 ⟨by rw [htype]; rfl, by rw [htype]; exact hc⟩
      by_cases h3 : this.InputType = INPUT_RGB_ONLY ∧
          ReadConfiguration.fusionMethod el = FUSION_DEPTH_ONLY
      · rw [ReadConfiguration.toolLoop, if_neg h1, if_neg h2]
        simp only [hid, if_pos h3]
        exact ⟨⟨fun _ => ⟨h3.1, el, List.mem_cons_self _ _, htool, by rw [h3.2]; decide⟩,
          fun _ => trivial⟩, fun t ht => Or.inl ht⟩
      by_cases h4 : this.InputType = INPUT_RGB_ONLY ∧
          ReadConfiguration.fusionMethod el = FUSION_COMPONENT
      · rw [ReadConfiguration.toolLoop, if_neg h1, if_neg h2]
        simp only [hid, if_neg h3, if_pos h4]
        exact ⟨⟨fun _ => ⟨h4.1, el, List.mem_cons_self _ _, htool, by rw [h4.2]; decide⟩,
          fun _ => trivial⟩, fun t ht => Or.inl ht⟩
      by_cases h5 : this.InputType = INPUT_RGB_ONLY ∧
          ReadConfiguration.fusionMethod el = FUSION_KALMAN
      · rw [ReadConfiguration.toolLoop, if_neg h1, if_neg h2]
        simp only [hid, if_neg h3, if_neg h4, if_pos h5]
        exact ⟨⟨fun _ => ⟨h5.1, el, List.mem_cons_self _ _, htool, by rw [h5.2]; decide⟩,
          fun _ => trivial⟩, fun t ht => Or.inl ht⟩
      have hel : this.InputType = INPUT_RGB_ONLY →
          ReadConfiguration.fusionMethod el = FUSION_RGB_ONLY := by
        intro hin
        cases hf : ReadConfiguration.fusionMethod el with
        | FUSION_RGB_ONLY => rfl
        | FUSION_DEPTH_ONLY => exact absurd ⟨hin, hf⟩ h3
        | FUSION_COMPONENT => exact absurd ⟨hin, hf⟩ h4
        | FUSION_KALMAN => exact absurd ⟨hin, hf⟩ h5
      have hex : (this.InputType = INPUT_RGB_ONLY ∧ ∃ e ∈ rest, IsToolDataSource e ∧
            ReadConfiguration.fusionMethod e ≠ FUSION_RGB_ONLY) ↔
          (this.InputType = INPUT_RGB_ONLY ∧ ∃ e ∈ el :: rest, IsToolDataSource e ∧
            ReadConfiguration.fusionMethod e ≠ FUSION_RGB_ONLY) := by
        constructor
        · rintro ⟨h1, e, he, h2⟩
          exact ⟨h1, e, List.mem_cons_of_mem _ he, h2⟩
        · rintro ⟨h1, e, he, h2⟩
          rcases List.mem_cons.1 he with h | h
          · exact absurd (hel h1) (h ▸ h2.2)
          · exact ⟨h1, e, h, h2⟩
      have hkeep : ((ReadConfiguration.toolLoop C rest this).1 = PLUS_FAIL ↔
            this.InputType = INPUT_RGB_ONLY ∧ ∃ e ∈ el :: rest, IsToolDataSource e ∧
              ReadConfiguration.fusionMethod e ≠ FUSION_RGB_ONLY) ∧
          (∀ t ∈ (ReadConfiguration.toolLoop C rest this).2.Tools, t ∈ this.Tools ∨
            ∃ e ∈ el :: rest, IsToolDataSource e ∧
              t.DataFusionMethod = ReadConfiguration.fusionMethod e) := by
        refine ⟨by rw [(ih this).1]; exact hex, fun t ht => ?_⟩
        rcases (ih this).2 t ht with h | ⟨e, he, h⟩
        · exact Or.inl h
        · exact Or.inr ⟨e, List.mem_cons_of_mem _ he, h⟩
      cases hm : el.GetAttribute "MarkerId" with
      | none =>
        rw [ReadConfiguration.toolLoop, if_neg h1, if_neg h2]
        simp only [hid, if_neg h3, if_neg h4, if_neg h5, hm]
        exact hkeep
      | some MarkerId =>
        cases hsz : el.GetAttribute "MarkerSizeMm" with
        | none =>
          rw [ReadConfiguration.toolLoop, if_neg h1, if_neg h2]
          simp only [hid, if_neg h3, if_neg h4, if_neg h5, hm, hsz]
          exact hkeep
        | some MarkerSizeMm =>
          rw [ReadConfiguration.toolLoop, if_neg h1, if_neg h2]
          simp only [hid, if_neg h3, if_neg h4, if_neg h5, hm, hsz]
          refine ⟨by rw [(ih _).1]; exact hex, fun t ht => ?_⟩
          rcases (ih _).2 t ht with h | ⟨e, he, h⟩
          · rcases List.mem_append.1 h with h | h
            · exact Or.inl h
            · rw [List.mem_singleton] at h
              exact Or.inr ⟨el, List.mem_cons_self _ _, htool, by rw [h]⟩
          · exact Or.inr ⟨e, List.mem_cons_of_mem _ he, h⟩

/-- The loop over the data sources leaves the input type as it is. -/
theorem ReadConfiguration_toolLoop_InputType {K : Type} [LinearOrderedField K]
    (C : ConfigCollaborators K) (elements : List vtkXMLDataElement) (this : vtkInternal K) :
    (ReadConfiguration.toolLoop C elements this).2.InputType = this.InputType := by
  induction elements generalizing this with
  | nil => rfl
  | cons el rest ih =>
    rw [ReadConfiguration.toolLoop]
    split_ifs
    · exact ih _
    · exact ih _
    · split
      · exact ih _
      · dsimp only
        split_ifs
        · rfl
        · rfl
        · rfl
        · split <;> exact ih _

/-- `STRCASECMP` is zero exactly when the two strings are the same once every
character is lowered. -/
theorem STRCASECMP_eq_zero_iff (a b : String) :
    STRCASECMP a b = 0 ↔ a.toList.map Char.toLower = b.toList.map Char.toLower := by
  unfold STRCASECMP
  split_ifs with h
  · simpa using h
  · simpa using h

/-- A string that equals one name ignoring case does not equal a name that
differs from it when lowered. -/
theorem STRCASECMP_ne_of_eq (v a b : String) (h : STRCASECMP v a = 0)
    (hab : a.toList.map Char.toLower ≠ b.toList.map Char.toLower) : STRCASECMP v b ≠ 0 := by
  rw [STRCASECMP_eq_zero_iff] at h
  intro hb
  rw [STRCASECMP_eq_zero_iff] at hb
  exact hab (h.symm.trans hb)

/-- The policy read from a data source element is the one its attribute
`DataFusionMethod` names, and FUSION_RGB_ONLY when the attribute is absent;
conversely a policy other than FUSION_RGB_ONLY is read only from an attribute
that names it. -/
theorem ReadConfiguration_fusionMethod_spec (el : vtkXMLDataElement) :
    (RequestsPolicy el "RGB_ONLY" → ReadConfiguration.fusionMethod el = FUSION_RGB_ONLY) ∧
    (RequestsPolicy el "DEPTH_ONLY" → ReadConfiguration.fusionMethod el = FUSION_DEPTH_ONLY) ∧
    (RequestsPolicy el "COMPONENT" → ReadConfiguration.fusionMethod el = FUSION_COMPONENT) ∧
    (RequestsPolicy el "KALMAN" → ReadConfiguration.fusionMethod el = FUSION_KALMAN) ∧
    (el.GetAttribute "DataFusionMethod" = none →
      ReadConfiguration.fusionMethod el = FUSION_RGB_ONLY) ∧
    (ReadConfiguration.fusionMethod el = FUSION_DEPTH_ONLY → RequestsPolicy el "DEPTH_ONLY") ∧
    (ReadConfiguration.fusionMethod el = FUSION_COMPONENT → RequestsPolicy el "COMPONENT") ∧
    (ReadConfiguration.fusionMethod el = FUSION_KALMAN → RequestsPolicy el "KALMAN") := by
  unfold RequestsPolicy AttributeNames ReadConfiguration.fusionMethod
    XML_READ_ENUM4_ATTRIBUTE_NONMEMBER_OPTIONAL
  cases hattr : el.GetAttribute "DataFusionMethod" with
  | none => simp
  | some v =>
    simp only [Option.some.injEq, exists_eq_left', false_implies, true_and]
    by_cases h1 : STRCASECMP v "RGB_ONLY" = 0
    · have n2 := STRCASECMP_ne_of_eq v "RGB_ONLY" "DEPTH_ONLY" h1 (by decide)
      have n3 := STRCASECMP_ne_of_eq v "RGB_ONLY" "COMPONENT" h1 (by decide)
      have n4 := STRCASECMP_ne_of_eq v "RGB_ONLY" "KALMAN" h1 (by decide)
      simp [h1, n2, n3, n4]
    by_cases h2 : STRCASECMP v "DEPTH_ONLY" = 0
    · have n3 := STRCASECMP_ne_of_eq v "DEPTH_ONLY" "COMPONENT" h2 (by decide)
      have n4 := STRCASECMP_ne_of_eq v "DEPTH_ONLY" "KALMAN" h2 (by decide)
      simp [h1, h2, n3, n4]
    by_cases h3 : STRCASECMP v "COMPONENT" = 0
    · have n4 := STRCASECMP_ne_of_eq v "COMPONENT" "KALMAN" h3 (by decide)
      simp [h1, h2, h3, n4]
    by_cases h4 : STRCASECMP v "KALMAN" = 0
    · simp [h1, h2, h3, h4]
    · simp [h1, h2, h3, h4]

/-- The input type read from a device element is the one its attribute
`InputType` names. -/
theorem ReadConfiguration_InputType_spec (deviceConfig : vtkXMLDataElement) :
    (AttributeNames deviceConfig "InputType" "RGB_ONLY" →
      XML_READ_ENUM2_ATTRIBUTE_NONMEMBER_REQUIRED deviceConfig "InputType"
        "RGB_ONLY" INPUT_RGB_ONLY "RGB_AND_DEPTH" INPUT_RGB_AND_DEPTH = some INPUT_RGB_ONLY) ∧
    (AttributeNames deviceConfig "InputType" "RGB_AND_DEPTH" →
      XML_READ_ENUM2_ATTRIBUTE_NONMEMBER_REQUIRED deviceConfig "InputType"
        "RGB_ONLY" INPUT_RGB_ONLY "RGB_AND_DEPTH" INPUT_RGB_AND_DEPTH
        = some INPUT_RGB_AND_DEPTH) := by
  unfold AttributeNames XML_READ_ENUM2_ATTRIBUTE_NONMEMBER_REQUIRED
  constructor
  · rintro ⟨v, hv, h⟩
    simp [hv, h]
  · rintro ⟨v, hv, h⟩
    have n := STRCASECMP_ne_of_eq v "RGB_AND_DEPTH" "RGB_ONLY" h (by decide)
    simp [hv, h, n]

/-- The loop over the data sources keeps the tools it finds, and when it ends
with success it has added a tool for every Tool data source that has an Id, a
marker id and a marker size, with the source id made from the Id and the
policy read from the element. -/
theorem ReadConfiguration_toolLoop_tools {K : Type} [LinearOrderedField K]
    (C : ConfigCollaborators K) (elements : List vtkXMLDataElement) (this : vtkInternal K) :
    (∀ t ∈ this.Tools, t ∈ (ReadConfiguration.toolLoop C elements this).2.Tools) ∧
    ((ReadConfiguration.toolLoop C elements this).1 = PLUS_SUCCESS →
      ∀ el ∈ elements, IsToolDataSource el → ∀ toolId MarkerId MarkerSizeMm,
        el.GetAttribute "Id" = some toolId → el.GetAttribute "MarkerId" = some MarkerId →
        el.GetAttribute "MarkerSizeMm" = some MarkerSizeMm →
        ∃ t ∈ (ReadConfiguration.toolLoop C elements this).2.Tools,
          t.ToolSourceId = C.GetTransformName toolId ∧
          t.DataFusionMethod = ReadConfiguration.fusionMethod el) := by
  induction elements generalizing this with
  | nil => simp [ReadConfiguration.toolLoop]
  | cons el rest ih =>
    have hskip : ¬ IsToolDataSource el →
        ((∀ t ∈ this.Tools, t ∈ (ReadConfiguration.toolLoop C rest this).2.Tools) ∧
        ((ReadConfiguration.toolLoop C rest this).1 = PLUS_SUCCESS →
          ∀ e ∈ el :: rest, IsToolDataSource e → ∀ toolId MarkerId MarkerSizeMm,
            e.GetAttribute "Id" = some toolId → e.GetAttribute "MarkerId" = some MarkerId →
            e.GetAttribute "MarkerSizeMm" = some MarkerSizeMm →
            ∃ t ∈ (ReadConfiguration.toolLoop C rest this).2.Tools,
              t.ToolSourceId = C.GetTransformName toolId ∧
              t.DataFusionMethod = ReadConfiguration.fusionMethod e)) := by
      intro hnot
      refine ⟨(ih this).1, fun hs e he htool => ?_⟩
      rcases List.mem_cons.1 he with h | h
      · exact absurd (h ▸ htool) hnot
      · exact (ih this).2 hs e h htool
    by_cases h1 : STRCASECMP el.GetName "DataSource" ≠ 0
    · rw [ReadConfiguration.toolLoop, if_pos h1]
      exact hskip (fun h => h1 h.1)
    by_cases h2 : (el.GetAttribute "Type").isSome ∧
        STRCASECMP ((el.GetAttribute "Type").getD "") "Tool" ≠ 0
    · rw [ReadConfiguration.toolLoop, if_neg h1, if_pos h2]
      refine hskip (fun h => h2.2 ?_)
      obtain ⟨type, htype⟩ := Option.isSome_iff_exists.1 h2.1
      rw [htype]
      exact h.2.1 type htype
    cases hid : el.GetAttribute "Id" with
    | none =>
      rw [ReadConfiguration.toolLoop, if_neg h1, if_neg h2]
      simp only [hid]
      refine hskip (fun h => ?_)
      have h' := h.2.2
      rw [hid] at h'
      exact absurd h' (by simp)
    | some toolId =>
      by_cases h3 : this.InputType = INPUT_RGB_ONLY ∧
          ReadConfiguration.fusionMethod el = FUSION_DEPTH_ONLY
      · rw [ReadConfiguration.toolLoop, if_neg h1, if_neg h2]
        simp only [hid, if_pos h3]
        exact ⟨fun t ht => ht, fun hs => absurd hs (by decide)⟩
      by_cases h4 : this.InputType = INPUT_RGB_ONLY ∧
          ReadConfiguration.fusionMethod el = FUSION_COMPONENT
      · rw [ReadConfiguration.toolLoop, if_neg h1, if_neg h2]
        simp only [hid, if_neg h3, if_pos h4]
        exact ⟨fun t ht => ht, fun hs => absurd hs (by decide)⟩
      by_cases h5 : this.InputType = INPUT_RGB_ONLY ∧
          ReadConfiguration.fusionMethod el = FUSION_KALMAN
      · rw [ReadConfiguration.toolLoop, if_neg h1, if_neg h2]
        simp only [hid, if_neg h3, if_neg h4, if_pos h5]
        exact ⟨fun t ht => ht, fun hs => absurd hs (by decide)⟩
      cases hm : el.GetAttribute "MarkerId" with
      | none =>
        rw [ReadConfiguration.toolLoop, if_neg h1, if_neg h2]
        simp only [hid, if_neg h3, if_neg h4, if_neg h5, hm]
        refine ⟨(ih this).1, fun hs e he htool toolId' m s hi hmk hsz => ?_⟩
        rcases List.mem_cons.1 he with h | h
        · rw [h, hm] at hmk
          exact absurd hmk (by simp)
        · exact (ih this).2 hs e h htool toolId' m s hi hmk hsz
      | some MarkerId =>
        cases hsz : el.GetAttribute "MarkerSizeMm" with
        | none =>
          rw [ReadConfiguration.toolLoop, if_neg h1, if_neg h2]
          simp only [hid, if_neg h3, if_neg h4, if_neg h5, hm, hsz]
          refine ⟨(ih this).1, fun hs e he htool toolId' m s hi hmk hs' => ?_⟩
          rcases List.mem_cons.1 he with h | h
          · rw [h, hsz] at hs'
            exact absurd hs' (by simp)
          · exact (ih this).2 hs e h htool toolId' m s hi hmk hs'
        | some MarkerSizeMm =>
          rw [ReadConfiguration.toolLoop, if_neg h1, if_neg h2]
          simp only [hid, if_neg h3, if_neg h4, if_neg h5, hm, hsz]
          refine ⟨fun t ht => (ih _).1 t (List.mem_append_left _ ht),
            fun hs e he htool toolId' m s hi hmk hs' => ?_⟩
          rcases List.mem_cons.1 he with h | h
          · rw [h, hid] at hi
            have hi' : toolId = toolId' := Option.some.inj hi
            refine ⟨_, (ih _).1 _ (List.mem_append_right _ (List.mem_singleton.2 rfl)), ?_, ?_⟩
            · rw [hi']
            · rw [h]
          · exact (ih _).2 hs e h htool toolId' m s hi hmk hs'

/-- C15: for a device element whose attribute `InputType` names RGB_ONLY and
whose element `DataSources` holds a Tool data source with an Id whose attribute
`DataFusionMethod` names DEPTH_ONLY, COMPONENT or KALMAN (ignoring case),
`ReadConfiguration` returns PLUS_FAIL.  For a device element with the required
attributes and the element `DataSources`: when `InputType` names RGB_ONLY and
no Tool data source with an Id names one of these three policies,
`ReadConfiguration` returns PLUS_SUCCESS, stores the input type, every tool it
adds has the policy FUSION_RGB_ONLY, and it adds such a tool for every Tool
data source with an Id, a marker id and a marker size, among them those without
the attribute `DataFusionMethod`; when `InputType` names RGB_AND_DEPTH it
returns PLUS_SUCCESS and every tool it adds has the policy read from its
element.  The policy read from an element is the one its attribute names, and
FUSION_RGB_ONLY when the attribute is absent. -/
theorem ReadConfiguration_validation {K : Type} [LinearOrderedField K]
    (C : ConfigCollaborators K) (deviceConfig : vtkXMLDataElement) (this : vtkInternal K)
    (elements : List vtkXMLDataElement) :
    (AttributeNames deviceConfig "InputType" "RGB_ONLY" →
      (deviceConfig.FindNestedElementWithName "DataSources").map
        vtkXMLDataElement.GetNestedElements = some elements →
      (∃ el ∈ elements, IsToolDataSource el ∧
        (RequestsPolicy el "DEPTH_ONLY" ∨ RequestsPolicy el "COMPONENT" ∨
          RequestsPolicy el "KALMAN")) →
      (ReadConfiguration C (some deviceConfig) this).1 = PLUS_FAIL) ∧
    (AttributeNames deviceConfig "InputType" "RGB_ONLY" →
      RequiredPresent deviceConfig elements →
      (∀ el ∈ elements, IsToolDataSource el →
        ¬ RequestsPolicy el "DEPTH_ONLY" ∧ ¬ RequestsPolicy el "COMPONENT" ∧
          ¬ RequestsPolicy el "KALMAN") →
      (ReadConfiguration C (some deviceConfig) this).1 = PLUS_SUCCESS ∧
      (ReadConfiguration C (some deviceConfig) this).2.InputType = INPUT_RGB_ONLY ∧
      (∀ t ∈ (ReadConfiguration C (some deviceConfig) this).2.Tools, t ∈ this.Tools ∨
        t.DataFusionMethod = FUSION_RGB_ONLY) ∧
      (∀ el ∈ elements, IsToolDataSource el → ∀ toolId MarkerId MarkerSizeMm,
        el.GetAttribute "Id" = some toolId → el.GetAttribute "MarkerId" = some MarkerId →
        el.GetAttribute "MarkerSizeMm" = some MarkerSizeMm →
        ∃ t ∈ (ReadConfiguration C (some deviceConfig) this).2.Tools,
          t.ToolSourceId = C.GetTransformName toolId ∧
          t.DataFusionMethod = FUSION_RGB_ONLY)) ∧
    (AttributeNames deviceConfig "InputType" "RGB_AND_DEPTH" →
      RequiredPresent deviceConfig elements →
      (ReadConfiguration C (some deviceConfig) this).1 = PLUS_SUCCESS ∧
      (ReadConfiguration C (some deviceConfig) this).2.InputType = INPUT_RGB_AND_DEPTH ∧
      ∀ t ∈ (ReadConfiguration C (some deviceConfig) this).2.Tools, t ∈ this.Tools ∨
        ∃ el ∈ elements, IsToolDataSource el ∧
          t.DataFusionMethod = ReadConfiguration.fusionMethod el) ∧
    (∀ el : vtkXMLDataElement,
      (RequestsPolicy el "RGB_ONLY" → ReadConfiguration.fusionMethod el = FUSION_RGB_ONLY) ∧
      (RequestsPolicy el "DEPTH_ONLY" →
        ReadConfiguration.fusionMethod el = FUSION_DEPTH_ONLY) ∧
      (RequestsPolicy el "COMPONENT" → ReadConfiguration.fusionMethod el = FUSION_COMPONENT) ∧
      (RequestsPolicy el "KALMAN" → ReadConfiguration.fusionMethod el = FUSION_KALMAN) ∧
      (el.GetAttribute "DataFusionMethod" = none →
        ReadConfiguration.fusionMethod el = FUSION_RGB_ONLY)) := by
  have hrun : ∀ InputType, XML_READ_ENUM2_ATTRIBUTE_NONMEMBER_REQUIRED deviceConfig "InputType"
        "RGB_ONLY" INPUT_RGB_ONLY "RGB_AND_DEPTH" INPUT_RGB_AND_DEPTH = some InputType →
      RequiredPresent deviceConfig elements →
      ∃ file dictionary, ReadConfiguration C (some deviceConfig) this =
        ReadConfiguration.toolLoop C elements
          ({ CameraCalibrationFile := file, InputType := InputType,
             MarkerDictionary := dictionary, Tools := this.Tools } : vtkInternal K) := by
    intro InputType hin hreq
    obtain ⟨hfile, hdict, hds⟩ := hreq
    obtain ⟨file, hfile⟩ := Option.isSome_iff_exists.1 hfile
    obtain ⟨dictionary, hdict⟩ := Option.isSome_iff_exists.1 hdict
    obtain ⟨ds, hfind, hnested⟩ := Option.map_eq_some'.1 hds
    refine ⟨file, dictionary, ?_⟩
    simp only [ReadConfiguration, XML_READ_STRING_ATTRIBUTE_NONMEMBER_REQUIRED, hin, hfind, hfile,
      hdict, hnested]
  refine ⟨fun hmode hds hex => ?_, fun hmode hreq hnone => ?_, fun hmode hreq => ?_,
    fun el => ?_⟩
  · have hin := (ReadConfiguration_InputType_spec deviceConfig).1 hmode
    obtain ⟨ds, hfind, hnested⟩ := Option.map_eq_some'.1 hds
    simp only [ReadConfiguration, XML_READ_STRING_ATTRIBUTE_NONMEMBER_REQUIRED, hin, hfind]
    cases deviceConfig.GetAttribute "CameraCalibrationFile" with
    | none => rfl
    | some file =>
      cases deviceConfig.GetAttribute "MarkerDictionary" with
      | none => rfl
      | some dictionary =>
        simp only [hnested]
        refine (ReadConfiguration_toolLoop_spec C elements _).1.2 ⟨rfl, ?_⟩
        obtain ⟨el, hmem, htool, hpol⟩ := hex
        refine ⟨el, hmem, htool, ?_⟩
        have hs := ReadConfiguration_fusionMethod_spec el
        rcases hpol with h | h | h
        · rw [hs.2.1 h]; decide
        · rw [hs.2.2.1 h]; decide
        · rw [hs.2.2.2.1 h]; decide
  · have hin := (ReadConfiguration_InputType_spec deviceConfig).1 hmode
    obtain ⟨file, dictionary, hrun'⟩ := hrun _ hin hreq
    rw [hrun']
    have hspec := ReadConfiguration_toolLoop_spec C elements
      ({ CameraCalibrationFile := file, InputType := INPUT_RGB_ONLY,
         MarkerDictionary := dictionary, Tools := this.Tools } : vtkInternal K)
    have htools := ReadConfiguration_toolLoop_tools C elements
      ({ CameraCalibrationFile := file, InputType := INPUT_RGB_ONLY,
         MarkerDictionary := dictionary, Tools := this.Tools } : vtkInternal K)
    have hrgb : ∀ el ∈ elements, IsToolDataSource el →
        ReadConfiguration.fusionMethod el = FUSION_RGB_ONLY := by
      intro el hmem htool
      have hs := ReadConfiguration_fusionMethod_spec el
      obtain ⟨n1, n2, n3⟩ := hnone el hmem htool
      cases hf : ReadConfiguration.fusionMethod el with
      | FUSION_RGB_ONLY => rfl
      | FUSION_DEPTH_ONLY => exact absurd (hs.2.2.2.2.2.1 hf) n1
      | FUSION_COMPONENT => exact absurd (hs.2.2.2.2.2.2.1 hf) n2
      | FUSION_KALMAN => exact absurd (hs.2.2.2.2.2.2.2 hf) n3
    have hok : (ReadConfiguration.toolLoop C elements
        ({ CameraCalibrationFile := file, InputType := INPUT_RGB_ONLY,
           MarkerDictionary := dictionary, Tools := this.Tools } : vtkInternal K)).1
        = PLUS_SUCCESS := by
      cases hst : (ReadConfiguration.toolLoop C elements
        ({ CameraCalibrationFile := file, InputType := INPUT_RGB_ONLY,
           MarkerDictionary := dictionary, Tools := this.Tools } : vtkInternal K)).1 with
      | PLUS_SUCCESS => rfl
      | PLUS_FAIL =>
        exfalso
        obtain ⟨_, el, hmem, htool, hpol⟩ := hspec.1.1 hst
        exact hpol (hrgb el hmem htool)
    refine ⟨hok, ReadConfiguration_toolLoop_InputType C elements _, fun t ht => ?_,
      fun el hmem htool toolId m s hi hm hs => ?_⟩
    · rcases hspec.2 t ht with h | ⟨el, hmem, htool, h⟩
      · exact Or.inl h
      · exact Or.inr (h.trans (hrgb el hmem htool))
    · obtain ⟨t, ht, h1, h2⟩ := htools.2 hok el hmem htool toolId m s hi hm hs
      exact ⟨t, ht, h1, h2.trans (hrgb el hmem htool)⟩
  · have hin := (ReadConfiguration_InputType_spec deviceConfig).2 hmode
    obtain ⟨file, dictionary, hrun'⟩ := hrun _ hin hreq
    rw [hrun']
    have hspec := ReadConfiguration_toolLoop_spec C elements
      ({ CameraCalibrationFile := file, InputType := INPUT_RGB_AND_DEPTH,
         MarkerDictionary := dictionary, Tools := this.Tools } : vtkInternal K)
    refine ⟨?_, ReadConfiguration_toolLoop_InputType C elements _, hspec.2⟩
    cases hst : (ReadConfiguration.toolLoop C elements
      ({ CameraCalibrationFile := file, InputType := INPUT_RGB_AND_DEPTH,
         MarkerDictionary := dictionary, Tools := this.Tools } : vtkInternal K)).1 with
    | PLUS_SUCCESS => rfl
    | PLUS_FAIL =>
      exfalso
      obtain ⟨h1, _⟩ := hspec.1.1 hst
      have h2 : INPUT_RGB_AND_DEPTH ≠ INPUT_RGB_ONLY := by decide
      exact h2 h1
  · have hs := ReadConfiguration_fusionMethod_spec el
    exact ⟨hs.1, hs.2.1, hs.2.2.1, hs.2.2.2.1, hs.2.2.2.2.1⟩

/-- The sample data source is a Tool data source with an Id. -/
theorem sampleDataSource_isTool (more : List (String × String)) :
    IsToolDataSource (vtkXMLDataElement.mk "DataSource"
      ([("Type", "Tool"), ("Id", "Marker1"), ("MarkerId", "1"), ("MarkerSizeMm", "50")] ++ more)
      []) := by
  refine ⟨?_, fun type htype => ?_, rfl⟩
  · show STRCASECMP "DataSource" "DataSource" = 0
    decide
  have e : type = "Tool" := (Option.some.inj htype).symm
  rw [e]
  decide

/-- An element without the attribute names no value for it. -/
theorem AttributeNames_of_none (el : vtkXMLDataElement) (name value : String)
    (h : el.GetAttribute name = none) : ¬ AttributeNames el name value := by
  rintro ⟨v, hv, -⟩
  rw [h] at hv
  exact absurd hv (by simp)

/-- An element with the attribute names exactly the values equal to it ignoring
case. -/
theorem AttributeNames_of_some (el : vtkXMLDataElement) (name value strValue : String)
    (h : el.GetAttribute name = some strValue) :
    AttributeNames el name value ↔ STRCASECMP strValue value = 0 := by
  constructor
  · rintro ⟨v, hv, hc⟩
    rw [h] at hv
    rw [Option.some.inj hv]
    exact hc
  · exact fun hc => ⟨strValue, h, hc⟩

/-- C15 (witness): RGB-only input.  A Tool data source whose attribute
`DataFusionMethod` is DEPTH_ONLY, component (in lower case) or KALMAN makes
`ReadConfiguration` fail; the same data source without the attribute, or with
the attribute RGB_ONLY, is read with success and added as a tool of policy
FUSION_RGB_ONLY; and the three names are read as the three policies. -/
theorem ReadConfiguration_validation_witness :
    (ReadConfiguration sampleConfigCollaborators
      (some (sampleDeviceConfig "RGB_ONLY" [("DataFusionMethod", "DEPTH_ONLY")]))
      emptyInternal).1 = PLUS_FAIL ∧
    (ReadConfiguration sampleConfigCollaborators
      (some (sampleDeviceConfig "RGB_ONLY" [("DataFusionMethod", "component")]))
      emptyInternal).1 = PLUS_FAIL ∧
    (ReadConfiguration sampleConfigCollaborators
      (some (sampleDeviceConfig "RGB_ONLY" [("DataFusionMethod", "KALMAN")]))
      emptyInternal).1 = PLUS_FAIL ∧
    ((ReadConfiguration sampleConfigCollaborators (some (sampleDeviceConfig "RGB_ONLY" []))
      emptyInternal).1 = PLUS_SUCCESS ∧
     ∃ t ∈ (ReadConfiguration sampleConfigCollaborators
        (some (sampleDeviceConfig "RGB_ONLY" [])) emptyInternal).2.Tools,
      t.ToolSourceId = "Marker1ToTracker" ∧ t.DataFusionMethod = FUSION_RGB_ONLY) ∧
    ((ReadConfiguration sampleConfigCollaborators
      (some (sampleDeviceConfig "RGB_ONLY" [("DataFusionMethod", "RGB_ONLY")]))
      emptyInternal).1 = PLUS_SUCCESS ∧
     ∃ t ∈ (ReadConfiguration sampleConfigCollaborators
        (some (sampleDeviceConfig "RGB_ONLY" [("DataFusionMethod", "RGB_ONLY")]))
        emptyInternal).2.Tools,
      t.ToolSourceId = "Marker1ToTracker" ∧ t.DataFusionMethod = FUSION_RGB_ONLY) ∧
    ReadConfiguration.fusionMethod
      (vtkXMLDataElement.mk "DataSource" [("DataFusionMethod", "Depth_Only")] [])
      = FUSION_DEPTH_ONLY ∧
    ReadConfiguration.fusionMethod
      (vtkXMLDataElement.mk "DataSource" [("DataFusionMethod", "COMPONENT")] [])
      = FUSION_COMPONENT ∧
    ReadConfiguration.fusionMethod
      (vtkXMLDataElement.mk "DataSource" [("DataFusionMethod", "kalman")] [])
      = FUSION_KALMAN :=
  ⟨(ReadConfiguration_validation sampleConfigCollaborators
      (sampleDeviceConfig "RGB_ONLY" [("DataFusionMethod", "DEPTH_ONLY")]) emptyInternal
      [vtkXMLDataElement.mk "DataSource"
        ([("Type", "Tool"), ("Id", "Marker1"), ("MarkerId", "1"), ("MarkerSizeMm", "50")] ++
          [("DataFusionMethod", "DEPTH_ONLY")]) []]).1
      ⟨"RGB_ONLY", rfl, by decide⟩ rfl
      ⟨_, List.mem_cons_self _ _, sampleDataSource_isTool _,
        Or.inl ⟨"DEPTH_ONLY", rfl, by decide⟩⟩,
    (ReadConfiguration_validation sampleConfigCollaborators
      (sampleDeviceConfig "RGB_ONLY" [("DataFusionMethod", "component")]) emptyInternal
      [vtkXMLDataElement.mk "DataSource"
        ([("Type", "Tool"), ("Id", "Marker1"), ("MarkerId", "1"), ("MarkerSizeMm", "50")] ++
          [("DataFusionMethod", "component")]) []]).1
      ⟨"RGB_ONLY", rfl, by decide⟩ rfl
      ⟨_, List.mem_cons_self _ _, sampleDataSource_isTool _,
        Or.inr (Or.inl ⟨"component", rfl, by decide⟩)⟩,
    (ReadConfiguration_validation sampleConfigCollaborators
      (sampleDeviceConfig "RGB_ONLY" [("DataFusionMethod", "KALMAN")]) emptyInternal
      [vtkXMLDataElement.mk "DataSource"
        ([("Type", "Tool"), ("Id", "Marker1"), ("MarkerId", "1"), ("MarkerSizeMm", "50")] ++
          [("DataFusionMethod", "KALMAN")]) []]).1
      ⟨"RGB_ONLY", rfl, by decide⟩ rfl
      ⟨_, List.mem_cons_self _ _, sampleDataSource_isTool _,
        Or.inr (Or.inr ⟨"KALMAN", rfl, by decide⟩)⟩,
    (fun h => ⟨h.1, h.2.2.2 _ (List.mem_cons_self _ _) (sampleDataSource_isTool _)
        "Marker1" "1" "50" rfl rfl rfl⟩)
      ((ReadConfiguration_validation sampleConfigCollaborators
        (sampleDeviceConfig "RGB_ONLY" []) emptyInternal
        [vtkXMLDataElement.mk "DataSource"
          ([("Type", "Tool"), ("Id", "Marker1"), ("MarkerId", "1"), ("MarkerSizeMm", "50")] ++
            []) []]).2.1
        ⟨"RGB_ONLY", rfl, by decide⟩ ⟨rfl, rfl, rfl⟩
        (fun el hmem _ => by
          rw [List.mem_singleton] at hmem
          subst hmem
          exact ⟨AttributeNames_of_none _ _ _ rfl, AttributeNames_of_none _ _ _ rfl,
            AttributeNames_of_none _ _ _ rfl⟩)),
    (fun h => ⟨h.1, h.2.2.2 _ (List.mem_cons_self _ _) (sampleDataSource_isTool _)
        "Marker1" "1" "50" rfl rfl rfl⟩)
      ((ReadConfiguration_validation sampleConfigCollaborators
        (sampleDeviceConfig "RGB_ONLY" [("DataFusionMethod", "RGB_ONLY")]) emptyInternal
        [vtkXMLDataElement.mk "DataSource"
          ([("Type", "Tool"), ("Id", "Marker1"), ("MarkerId", "1"), ("MarkerSizeMm", "50")] ++
            [("DataFusionMethod", "RGB_ONLY")]) []]).2.1
        ⟨"RGB_ONLY", rfl, by decide⟩ ⟨rfl, rfl, rfl⟩
        (fun el hmem _ => by
          rw [List.mem_singleton] at hmem
          subst hmem
          have hattr : (vtkXMLDataElement.mk "DataSource"
              ([("Type", "Tool"), ("Id", "Marker1"), ("MarkerId", "1"),
                ("MarkerSizeMm", "50")] ++ [("DataFusionMethod", "RGB_ONLY")]) []).GetAttribute
              "DataFusionMethod" = some "RGB_ONLY" := rfl
          exact ⟨(AttributeNames_of_some _ _ "DEPTH_ONLY" _ hattr).not.2 (by decide),
            (AttributeNames_of_some _ _ "COMPONENT" _ hattr).not.2 (by decide),
            (AttributeNames_of_some _ _ "KALMAN" _ hattr).not.2 (by decide)⟩)),
    ((ReadConfiguration_validation sampleConfigCollaborators
        (sampleDeviceConfig "RGB_ONLY" []) emptyInternal []).2.2.2
      (vtkXMLDataElement.mk "DataSource" [("DataFusionMethod", "Depth_Only")] [])).2.1
      ⟨"Depth_Only", rfl, by decide⟩,
    ((ReadConfiguration_validation sampleConfigCollaborators
        (sampleDeviceConfig "RGB_ONLY" []) emptyInternal []).2.2.2
      (vtkXMLDataElement.mk "DataSource" [("DataFusionMethod", "COMPONENT")] [])).2.2.1
      ⟨"COMPONENT", rfl, by decide⟩,
    ((ReadConfiguration_validation sampleConfigCollaborators
        (sampleDeviceConfig "RGB_ONLY" []) emptyInternal []).2.2.2
      (vtkXMLDataElement.mk "DataSource" [("DataFusionMethod", "kalman")] [])).2.2.2.1
      ⟨"kalman", rfl, by decide⟩⟩

/-! ### Slope of a segment -/

/-- C21 (amended): for every pair of corners, `DetermineSlope` returns 0 when the
corners have the same `y`, whatever the arithmetic and whatever a division by
zero would yield: no division is performed.  Otherwise (rounding to nearest,
the difference of the two `y` a `double` that is not zero) it returns the
quotient (x1 - x2) / (y1 - y2) as it is computed in floating point: both
differences rounded to `double`, the first narrowed to `float`, the quotient
rounded to `double` and narrowed to `float`; this is (x1 - x2) / (y1 - y2)
itself when the two differences and the quotient are numbers of the formats
they pass through.  It returns 0 when the corners have the same `x`, and it is
symmetric in its two arguments. -/
theorem DetermineSlope_values {K : Type} [LinearOrderedField K] (F : FloatingPoint K)
    (hF : F.Lawful) (corner1 corner2 : Point2d K)
    (hdiff : corner1.y ≠ corner2.y → F.toDouble (corner1.y - corner2.y) ≠ 0) :
    (corner1.y = corner2.y → ∀ G : FloatingPoint K, DetermineSlope G corner1 corner2 = 0) ∧
    (corner1.y ≠ corner2.y →
      DetermineSlope F corner1 corner2 =
        F.toFloat (F.toDouble (F.toFloat (F.toDouble (corner1.x - corner2.x))
          / F.toDouble (corner1.y - corner2.y)))) ∧
    (corner1.y ≠ corner2.y →
      F.toDouble (corner1.x - corner2.x) = corner1.x - corner2.x →
      F.toFloat (corner1.x - corner2.x) = corner1.x - corner2.x →
      F.toDouble (corner1.y - corner2.y) = corner1.y - corner2.y →
      F.toDouble ((corner1.x - corner2.x) / (corner1.y - corner2.y))
        = (corner1.x - corner2.x) / (corner1.y - corner2.y) →
      F.toFloat ((corner1.x - corner2.x) / (corner1.y - corner2.y))
        = (corner1.x - corner2.x) / (corner1.y - corner2.y) →
      DetermineSlope F corner1 corner2 = (corner1.x - corner2.x) / (corner1.y - corner2.y)) ∧
    (corner1.x = corner2.x → DetermineSlope F corner1 corner2 = 0) ∧
    DetermineSlope F corner1 corner2 = DetermineSlope F corner2 corner1 := by
  refine ⟨fun h G => ?_, fun h => ?_, fun h h1 h2 h3 h4 h5 => ?_, fun h => ?_, ?_⟩
  · simp [DetermineSlope, h]
  · simp [DetermineSlope, FloatingPoint.divide, h, hdiff h]
  · have hd := hdiff h
    simp only [DetermineSlope, FloatingPoint.divide, if_neg h, if_neg hd]
    rw [h1, h2, h3, h4, h5]
  · by_cases hy : corner1.y = corner2.y
    · simp [DetermineSlope, hy]
    · simp [DetermineSlope, FloatingPoint.divide, hy, hdiff hy, h, hF.toDouble_zero,
        hF.toFloat_zero]
  · by_cases hy : corner1.y = corner2.y
    · simp [DetermineSlope, hy]
    · have hy' : ¬ corner2.y = corner1.y := fun e => hy e.symm
      have hd := hdiff hy
      have hd' : F.toDouble (corner2.y - corner1.y) ≠ 0 := by
        rw [← neg_sub corner1.y corner2.y, hF.toDouble_neg]
        exact neg_ne_zero.2 hd
      simp only [DetermineSlope, FloatingPoint.divide, if_neg hy, if_neg hy', if_neg hd,
        if_neg hd']
      rw [← neg_sub corner2.x corner1.x, ← neg_sub corner2.y corner1.y, hF.toDouble_neg,
        hF.toDouble_neg, hF.toFloat_neg, neg_div_neg_eq]

/-- C21 (witness): IEEE 754 arithmetic and the corners (1, 2) and (4, 8), slope
1/2 either way, the quotient (1 - 4) / (2 - 8) itself; the corners (1, 2) and
(4, 2) of one row, slope 0. -/
theorem DetermineSlope_values_witness :
    ((2 : ℚ) ≠ 8 → ieee754.toDouble (2 - 8) ≠ 0) ∧
    DetermineSlope ieee754 (⟨1, 2⟩ : Point2d ℚ) ⟨4, 8⟩
      = ieee754.toFloat (ieee754.toDouble (ieee754.toFloat (ieee754.toDouble (1 - 4))
        / ieee754.toDouble (2 - 8))) ∧
    DetermineSlope ieee754 (⟨1, 2⟩ : Point2d ℚ) ⟨4, 8⟩ = (1 - 4) / (2 - 8) ∧
    DetermineSlope ieee754 (⟨1, 2⟩ : Point2d ℚ) ⟨4, 8⟩
      = DetermineSlope ieee754 (⟨4, 8⟩ : Point2d ℚ) ⟨1, 2⟩ ∧
    DetermineSlope ieee754 (⟨1, 2⟩ : Point2d ℚ) ⟨4, 2⟩ = 0 :=
  have hd : (2 : ℚ) ≠ 8 → ieee754.toDouble (2 - 8) ≠ 0 := fun _ => by norm_num
  have h := DetermineSlope_values ieee754 ieee754_lawful (⟨1, 2⟩ : Point2d ℚ) ⟨4, 8⟩ hd
  have h' := DetermineSlope_values ieee754 ieee754_lawful (⟨1, 2⟩ : Point2d ℚ) ⟨4, 2⟩
    (fun hne => absurd rfl hne)
  have hq : ieee754.toDouble (((1 : ℚ) - 4) / (2 - 8)) = (1 - 4) / (2 - 8) := by
    show roundBinary 53 (-1074) _ = _
    rw [roundBinary_eval 53 (-1074) _ (-1) (by norm_num [le_abs]) (by norm_num [abs_lt])]
    norm_num [roundNearestEven]
  have hq' : ieee754.toFloat (((1 : ℚ) - 4) / (2 - 8)) = (1 - 4) / (2 - 8) := by
    show roundBinary 24 (-149) _ = _
    rw [roundBinary_eval 24 (-149) _ (-1) (by norm_num [le_abs]) (by norm_num [abs_lt])]
    norm_num [roundNearestEven]
  ⟨hd, h.2.1 (by norm_num), h.2.2.1 (by norm_num) (by norm_num) (by norm_num) (by norm_num)
    hq hq', h.2.2.2.2, h'.1 rfl ieee754⟩

/-- C21 (counterexample): IEEE 754 arithmetic and the corners (0, 0) and (1, 3):
the quotient (0 - 1) / (0 - 3) is 1/3, and `DetermineSlope` returns the `float`
nearest to the `double` nearest to 1/3, which is 11184811 / 2^25. -/
theorem DetermineSlope_counterexample :
    DetermineSlope ieee754 (⟨0, 0⟩ : Point2d ℚ) ⟨1, 3⟩ = 11184811 / 33554432 ∧
    ((0 : ℚ) - 1) / (0 - 3) = 1 / 3 ∧
    DetermineSlope ieee754 (⟨0, 0⟩ : Point2d ℚ) ⟨1, 3⟩ ≠ ((0 : ℚ) - 1) / (0 - 3) := by
  have h1 : ieee754.toDouble (1 / 3) = 6004799503160661 / 18014398509481984 := by
    show roundBinary 53 (-1074) _ = _
    rw [roundBinary_eval 53 (-1074) _ (-2) (by norm_num [le_abs]) (by norm_num [abs_lt])]
    norm_num [roundNearestEven]
  have h2 : ieee754.toFloat (6004799503160661 / 18014398509481984) = 11184811 / 33554432 := by
    show roundBinary 24 (-149) _ = _
    rw [roundBinary_eval 24 (-149) _ (-2) (by norm_num [le_abs]) (by norm_num [abs_lt])]
    norm_num [roundNearestEven]
  have hs : DetermineSlope ieee754 (⟨0, 0⟩ : Point2d ℚ) ⟨1, 3⟩ = 11184811 / 33554432 := by
    have hne : ieee754.toDouble ((0 : ℚ) - 3) ≠ 0 := by norm_num
    simp only [DetermineSlope, FloatingPoint.divide, if_neg hne]
    norm_num [h1, h2]
  refine ⟨hs, by norm_num, ?_⟩
  rw [hs]
  norm_num

/-! ### Offsets into the boundary arrays -/

/-- A coordinate that is not above a whole number converts to a number that is
not above it either. -/
theorem toInt_le_of_le {K : Type} [LinearOrderedField K] [FloorRing K] (v : K) (n : Int)
    (h : v ≤ (n : K)) : toInt v ≤ n := by
  have := toInt_mono h
  rwa [toInt_intCast] at this

/-- A coordinate that is not below a whole number converts to a number that is
not below it either. -/
theorem le_toInt_of_le {K : Type} [LinearOrderedField K] [FloorRing K] (v : K) (n : Int)
    (h : (n : K) ≤ v) : n ≤ toInt v := by
  have := toInt_mono h
  rwa [toInt_intCast] at this

/-- Invariant of the third loop of `DetermineMarkerOrientation`: `yMax` is the
converted `y` of the corner `bottom`, which is one of the corners seen, and no
corner seen has a larger converted `y`. -/
theorem bottomLoop_fold {K : Type} [LinearOrderedField K] [FloorRing K]
    (corners : List (Point2d K)) (rest seen : List Nat) (s : Int × Nat)
    (h1 : s.1 = toInt (cornerAt corners s.2).y) (h2 : s.2 ∈ seen)
    (h3 : ∀ j ∈ seen, toInt (cornerAt corners j).y ≤ s.1) :
    (rest.foldl (fun s i =>
        if (cornerAt corners i).y > ((s.1 : Int) : K) then (toInt (cornerAt corners i).y, i)
        else s) s).1
      = toInt (cornerAt corners (rest.foldl (fun s i =>
        if (cornerAt corners i).y > ((s.1 : Int) : K) then (toInt (cornerAt corners i).y, i)
        else s) s).2).y ∧
    (rest.foldl (fun s i =>
        if (cornerAt corners i).y > ((s.1 : Int) : K) then (toInt (cornerAt corners i).y, i)
        else s) s).2 ∈ seen ++ rest ∧
    ∀ j ∈ seen ++ rest, toInt (cornerAt corners j).y ≤ (rest.foldl (fun s i =>
        if (cornerAt corners i).y > ((s.1 : Int) : K) then (toInt (cornerAt corners i).y, i)
        else s) s).1 := by
  induction rest generalizing seen s with
  | nil => simpa using ⟨h1, h2, h3⟩
  | cons i rest ih =>
    rw [List.foldl_cons]
    have e : seen ++ i :: rest = (seen ++ [i]) ++ rest := by simp
    rw [e]
    by_cases hi : (cornerAt corners i).y > ((s.1 : Int) : K)
    · rw [if_pos hi]
      refine ih (seen ++ [i]) _ rfl (by simp) (fun j hj => ?_)
      have hle := le_toInt_of_le _ _ (le_of_lt hi)
      rcases List.mem_append.1 hj with h | h
      · exact le_trans (h3 j h) hle
      · rw [List.mem_singleton] at h
        rw [h]
    · rw [if_neg hi]
      refine ih (seen ++ [i]) s h1 (List.mem_append_left _ h2) (fun j hj => ?_)
      rcases List.mem_append.1 hj with h | h
      · exact h3 j h
      · rw [List.mem_singleton] at h
        rw [h]
        exact toInt_le_of_le _ _ (not_lt.1 hi)

/-- What the third loop leaves: `bottom` is one of 0..3, `yMax` is the
converted `y` of that corner, and no corner has a larger converted `y`. -/
theorem bottomLoop_max {K : Type} [LinearOrderedField K] [FloorRing K]
    (corners : List (Point2d K)) :
    (DetermineMarkerOrientation.bottomLoop corners).2 ∈ [0, 1, 2, 3] ∧
    ∀ j ∈ [0, 1, 2, 3], toInt (cornerAt corners j).y
      ≤ toInt (cornerAt corners (DetermineMarkerOrientation.bottomLoop corners).2).y := by
  have h := bottomLoop_fold corners [1, 2, 3] [0] (toInt (cornerAt corners 0).y, 0) rfl
    (List.mem_singleton.2 rfl) (fun j hj => by rw [List.mem_singleton.1 hj])
  refine ⟨h.2.1, fun j hj => ?_⟩
  have := h.2.2 j hj
  rw [h.1] at this
  exact this

/-- The class the classifier returns is the one its `switch` gives for the
bottom corner of the reordered list. -/
theorem DetermineMarkerOrientation_class {K : Type} [LinearOrderedField K] [FloorRing K]
    (corners : List (Point2d K)) :
    (DetermineMarkerOrientation corners).1 = DetermineMarkerOrientation.switch
      (DetermineMarkerOrientation.bottomLoop (DetermineMarkerOrientation corners).2).2 := by
  rw [DetermineMarkerOrientation_of_top corners _ rfl]

/-- The reordered list of four corners starts with a corner that has the
smallest `y`. -/
theorem DetermineMarkerOrientation_top_min {K : Type} [LinearOrderedField K] [FloorRing K]
    (corners : List (Point2d K)) (hlen : corners.length = 4) :
    ∃ a b c d, (DetermineMarkerOrientation corners).2 = [a, b, c, d] ∧
      a.y ≤ b.y ∧ a.y ≤ c.y ∧ a.y ≤ d.y := by
  obtain ⟨a, b, c, d, rfl⟩ := length_four corners hlen
  obtain ⟨e0, e1, e2, e3⟩ := orderedCorners_four a b c d
  rcases topLoop_cases a b c d with ⟨h, h1, h2, h3⟩ | ⟨h, h1, h2, h3⟩ | ⟨h, h1, h2, h3⟩ |
    ⟨h, h1, h2, h3⟩
  · rw [DetermineMarkerOrientation_of_top _ 0 h, e0]
    exact ⟨a, b, c, d, rfl, h1, h2, h3⟩
  · rw [DetermineMarkerOrientation_of_top _ 1 h, e1]
    exact ⟨b, c, d, a, rfl, h2, h3, le_of_lt h1⟩
  · rw [DetermineMarkerOrientation_of_top _ 2 h, e2]
    exact ⟨c, d, a, b, rfl, h3, le_of_lt h1, le_of_lt h2⟩
  · rw [DetermineMarkerOrientation_of_top _ 3 h, e3]
    exact ⟨d, a, b, c, rfl, le_of_lt h1, le_of_lt h2, le_of_lt h3⟩

/-- The offsets `GenerateBoundary` writes are those of the rows between the
converted `y` of the two ends of a segment of the path. -/
theorem mem_GenerateBoundary_offsets {K : Type} [LinearOrderedField K] [FloorRing K]
    (corners : List (Point2d K)) (top k : Int) :
    k ∈ GenerateBoundary.offsets corners top ↔
      ∃ segIndex, segIndex + 1 < corners.length ∧
        toInt (cornerAt corners segIndex).y ≤ k + top ∧
        k + top ≤ toInt (cornerAt corners (segIndex + 1)).y := by
  simp only [GenerateBoundary.offsets, List.mem_flatMap, List.mem_range, List.mem_map,
    mem_intRange]
  constructor
  · rintro ⟨s, hs, yPx, ⟨h1, h2⟩, rfl⟩
    exact ⟨s, by omega, by omega, by omega⟩
  · rintro ⟨s, hs, h1, h2⟩
    exact ⟨s, by omega, k + top, ⟨h1, h2⟩, by omega⟩

/-- An entry of the array whose offset is not among those written is left as
it was by `GenerateBoundary`. -/
theorem GenerateBoundary_outside_offsets {K : Type} [LinearOrderedField K] [FloorRing K]
    (F : FloatingPoint K)
    (boundary : IntArray) (corners : List (Point2d K)) (top : Int) (isRight : Bool) (k : Int)
    (hk : k ∉ GenerateBoundary.offsets corners top) :
    GenerateBoundary F boundary corners top isRight k = boundary k := by
  have key : ∀ count, count ≤ corners.length - 1 →
      (List.range count).foldl (fun boundary segIndex =>
        GenerateBoundary.segment F boundary corners top segIndex) boundary k = boundary k := by
    intro count
    induction count with
    | zero => intro _; rfl
    | succ c ih =>
      intro hc
      rw [List.range_succ, List.foldl_append, List.foldl_cons, List.foldl_nil,
        GenerateBoundary_segment_apply, if_neg, ih (by omega)]
      intro h
      exact hk ((mem_GenerateBoundary_offsets corners top k).2 ⟨c, by omega, h.1, h.2⟩)
  exact key _ (le_refl _)

/-- The offsets `CopyToItkData` reads are those of the rows `top` to `bottom`. -/
theorem mem_CopyToItkData_offsets (top bottom k : Int) :
    k ∈ CopyToItkData.offsets top bottom ↔ 0 ≤ k ∧ k ≤ bottom - top := by
  simp only [CopyToItkData.offsets, List.mem_map, mem_intRange]
  constructor
  · rintro ⟨yPx, ⟨h1, h2⟩, rfl⟩
    constructor <;> omega
  · rintro ⟨h1, h2⟩
    exact ⟨k + top, ⟨by omega, by omega⟩, by omega⟩

/-- The offsets written for a path all of whose corners lie in the rows `top`
to `bottom` are between 0 and `bottom - top`. -/
theorem GenerateBoundary_offsets_range {K : Type} [LinearOrderedField K] [FloorRing K]
    (corners : List (Point2d K)) (top bottom k : Int)
    (h : ∀ i, i < corners.length → top ≤ toInt (cornerAt corners i).y ∧
      toInt (cornerAt corners i).y ≤ bottom)
    (hk : k ∈ GenerateBoundary.offsets corners top) : 0 ≤ k ∧ k ≤ bottom - top := by
  obtain ⟨s, hs, h1, h2⟩ := (mem_GenerateBoundary_offsets corners top k).1 hk
  have ha := (h s (by omega)).1
  have hb := (h (s + 1) hs).2
  constructor <;> omega

/-- The arrays of a region are those `GenerateBoundary` fills for the two paths
of its class. -/
theorem region_paths {K : Type} [LinearOrderedField K] [FloorRing K]
    (F : FloatingPoint K)
    (orientation : MARKER_ORIENTATION) (corners : List (Point2d K))
    (newLeft newRight : IntArray) :
    (GenerateItkData.region F orientation corners newLeft newRight).leftBoundary =
      GenerateBoundary F newLeft (GenerateItkData.paths orientation corners).1
        (GenerateItkData.region F orientation corners newLeft newRight).top false ∧
    (GenerateItkData.region F orientation corners newLeft newRight).rightBoundary =
      GenerateBoundary F newRight (GenerateItkData.paths orientation corners).2
        (GenerateItkData.region F orientation corners newLeft newRight).top true := by
  cases orientation <;> exact ⟨rfl, rfl⟩

/-- An index inside the vector reads one of its elements. -/
theorem cornerAt_mem {K : Type} [Zero K] (corners : List (Point2d K)) (i : Nat)
    (h : i < corners.length) : cornerAt corners i ∈ corners := by
  unfold cornerAt
  rw [List.getD_eq_getElem _ _ h]
  exact List.getElem_mem h

/-- The offsets written for a path all of whose corners lie in the rows `top`
to `bottom` are between 0 and `bottom - top`. -/
theorem GenerateBoundary_offsets_within {K : Type} [LinearOrderedField K] [FloorRing K]
    (corners : List (Point2d K)) (top bottom k : Int)
    (h : ∀ p ∈ corners, top ≤ toInt p.y ∧ toInt p.y ≤ bottom)
    (hk : k ∈ GenerateBoundary.offsets corners top) : 0 ≤ k ∧ k ≤ bottom - top :=
  GenerateBoundary_offsets_range corners top bottom k
    (fun i hi => h _ (cornerAt_mem corners i hi)) hk

/-- The offsets written and read for a reordered list of four corners: within
the allocated length for the classes ROTATED and SKEW_RIGHT; for the class
SKEW_LEFT the largest offset written and read is the allocated length. -/
theorem canonical_offsets {K : Type} [LinearOrderedField K] [FloorRing K]
    (F : FloatingPoint K)
    (a b c d : Point2d K) (hb : a.y ≤ b.y) (hc : a.y ≤ c.y) (hd : a.y ≤ d.y)
    (newLeft newRight : IntArray) (o : MARKER_ORIENTATION)
    (ho : o = DetermineMarkerOrientation.switch
      (DetermineMarkerOrientation.bottomLoop [a, b, c, d]).2) :
    (∀ k, (k ∈ GenerateBoundary.offsets (GenerateItkData.paths o [a, b, c, d]).1
            (GenerateItkData.region F o [a, b, c, d] newLeft newRight).top ∨
          k ∈ GenerateBoundary.offsets (GenerateItkData.paths o [a, b, c, d]).2
            (GenerateItkData.region F o [a, b, c, d] newLeft newRight).top ∨
          k ∈ CopyToItkData.offsets (GenerateItkData.region F o [a, b, c, d] newLeft newRight).top
            (GenerateItkData.region F o [a, b, c, d] newLeft newRight).bottom) →
        0 ≤ k ∧ k ≤ (GenerateItkData.region F o [a, b, c, d] newLeft newRight).bottom
          - (GenerateItkData.region F o [a, b, c, d] newLeft newRight).top) ∧
    ((GenerateItkData.region F o [a, b, c, d] newLeft newRight).bottom
          - (GenerateItkData.region F o [a, b, c, d] newLeft newRight).top
        ∈ GenerateBoundary.offsets (GenerateItkData.paths o [a, b, c, d]).1
          (GenerateItkData.region F o [a, b, c, d] newLeft newRight).top) ∧
    ((GenerateItkData.region F o [a, b, c, d] newLeft newRight).bottom
          - (GenerateItkData.region F o [a, b, c, d] newLeft newRight).top
        ∈ GenerateBoundary.offsets (GenerateItkData.paths o [a, b, c, d]).2
          (GenerateItkData.region F o [a, b, c, d] newLeft newRight).top) ∧
    ((GenerateItkData.region F o [a, b, c, d] newLeft newRight).bottom
          - (GenerateItkData.region F o [a, b, c, d] newLeft newRight).top
        ∈ CopyToItkData.offsets (GenerateItkData.region F o [a, b, c, d] newLeft newRight).top
          (GenerateItkData.region F o [a, b, c, d] newLeft newRight).bottom) := by
  obtain ⟨hbt, hmax⟩ := bottomLoop_max [a, b, c, d]
  have tb := toInt_mono hb
  have tc := toInt_mono hc
  have td := toInt_mono hd
  have m0 := hmax 0 (by simp)
  have m1 := hmax 1 (by simp)
  have m2 := hmax 2 (by simp)
  have m3 := hmax 3 (by simp)
  simp only [List.mem_cons, List.mem_singleton, List.not_mem_nil, or_false] at hbt
  rcases hbt with h | h | h | h
  · rw [h] at ho m0 m1 m2 m3
    simp only [cornerAt, List.getD_cons_zero, List.getD_cons_succ] at m0 m1 m2 m3
    subst ho
    simp only [DetermineMarkerOrientation.switch, GenerateItkData.region,
      GenerateSkewLeftItkData.region, GenerateRotatedItkData.region,
      GenerateSkewRightItkData.region, GenerateItkData.paths, cornerAt, List.getD_cons_zero,
      List.getD_cons_succ]
    refine ⟨fun k hk => ?_, ?_, ?_, ?_⟩
    · rcases hk with hk | hk | hk
      · refine GenerateBoundary_offsets_within _ _ _ k (fun p hp => ?_) hk
        simp only [List.mem_cons, List.mem_singleton, List.not_mem_nil, or_false] at hp
        rcases hp with rfl | rfl | rfl | rfl <;> constructor <;> omega
      · refine GenerateBoundary_offsets_within _ _ _ k (fun p hp => ?_) hk
        simp only [List.mem_cons, List.mem_singleton, List.not_mem_nil, or_false] at hp
        rcases hp with rfl | rfl | rfl | rfl <;> constructor <;> omega
      · exact (mem_CopyToItkData_offsets _ _ k).1 hk
    · rw [mem_GenerateBoundary_offsets]
      refine ⟨0, by simp, ?_, ?_⟩ <;>
        simp only [cornerAt, List.getD_cons_zero, List.getD_cons_succ] <;> omega
    · rw [mem_GenerateBoundary_offsets]
      refine ⟨2, by simp, ?_, ?_⟩ <;>
        simp only [cornerAt, List.getD_cons_zero, List.getD_cons_succ] <;> omega
    · rw [mem_CopyToItkData_offsets]
      constructor <;> omega
  · rw [h] at ho m0 m1 m2 m3
    simp only [cornerAt, List.getD_cons_zero, List.getD_cons_succ] at m0 m1 m2 m3
    subst ho
    simp only [DetermineMarkerOrientation.switch, GenerateItkData.region,
      GenerateSkewLeftItkData.region, GenerateRotatedItkData.region,
      GenerateSkewRightItkData.region, GenerateItkData.paths, cornerAt, List.getD_cons_zero,
      List.getD_cons_succ]
    refine ⟨fun k hk => ?_, ?_, ?_, ?_⟩
    · rcases hk with hk | hk | hk
      · refine GenerateBoundary_offsets_within _ _ _ k (fun p hp => ?_) hk
        simp only [List.mem_cons, List.mem_singleton, List.not_mem_nil, or_false] at hp
        rcases hp with rfl | rfl | rfl | rfl <;> constructor <;> omega
      · refine GenerateBoundary_offsets_within _ _ _ k (fun p hp => ?_) hk
        simp only [List.mem_cons, List.mem_singleton, List.not_mem_nil, or_false] at hp
        rcases hp with rfl | rfl | rfl | rfl <;> constructor <;> omega
      · exact (mem_CopyToItkData_offsets _ _ k).1 hk
    · rw [mem_GenerateBoundary_offsets]
      refine ⟨2, by simp, ?_, ?_⟩ <;>
        simp only [cornerAt, List.getD_cons_zero, List.getD_cons_succ] <;> omega
    · rw [mem_GenerateBoundary_offsets]
      refine ⟨0, by simp, ?_, ?_⟩ <;>
        simp only [cornerAt, List.getD_cons_zero, List.getD_cons_succ] <;> omega
    · rw [mem_CopyToItkData_offsets]
      constructor <;> omega
  · rw [h] at ho m0 m1 m2 m3
    simp only [cornerAt, List.getD_cons_zero, List.getD_cons_succ] at m0 m1 m2 m3
    subst ho
    simp only [DetermineMarkerOrientation.switch, GenerateItkData.region,
      GenerateSkewLeftItkData.region, GenerateRotatedItkData.region,
      GenerateSkewRightItkData.region, GenerateItkData.paths, cornerAt, List.getD_cons_zero,
      List.getD_cons_succ]
    refine ⟨fun k hk => ?_, ?_, ?_, ?_⟩
    · rcases hk with hk | hk | hk
      · refine GenerateBoundary_offsets_within _ _ _ k (fun p hp => ?_) hk
        simp only [List.mem_cons, List.mem_singleton, List.not_mem_nil, or_false] at hp
        rcases hp with rfl | rfl | rfl | rfl <;> constructor <;> omega
      · refine GenerateBoundary_offsets_within _ _ _ k (fun p hp => ?_) hk
        simp only [List.mem_cons, List.mem_singleton, List.not_mem_nil, or_false] at hp
        rcases hp with rfl | rfl | rfl | rfl <;> constructor <;> omega
      · exact (mem_CopyToItkData_offsets _ _ k).1 hk
    · rw [mem_GenerateBoundary_offsets]
      refine ⟨1, by simp, ?_, ?_⟩ <;>
        simp only [cornerAt, List.getD_cons_zero, List.getD_cons_succ] <;> omega
    · rw [mem_GenerateBoundary_offsets]
      refine ⟨1, by simp, ?_, ?_⟩ <;>
        simp only [cornerAt, List.getD_cons_zero, List.getD_cons_succ] <;> omega
    · rw [mem_CopyToItkData_offsets]
      constructor <;> omega
  · rw [h] at ho m0 m1 m2 m3
    simp only [cornerAt, List.getD_cons_zero, List.getD_cons_succ] at m0 m1 m2 m3
    subst ho
    simp only [DetermineMarkerOrientation.switch, GenerateItkData.region,
      GenerateSkewLeftItkData.region, GenerateRotatedItkData.region,
      GenerateSkewRightItkData.region, GenerateItkData.paths, cornerAt, List.getD_cons_zero,
      List.getD_cons_succ]
    refine ⟨fun k hk => ?_, ?_, ?_, ?_⟩
    · rcases hk with hk | hk | hk
      · refine GenerateBoundary_offsets_within _ _ _ k (fun p hp => ?_) hk
        simp only [List.mem_cons, List.mem_singleton, List.not_mem_nil, or_false] at hp
        rcases hp with rfl | rfl | rfl | rfl <;> constructor <;> omega
      · refine GenerateBoundary_offsets_within _ _ _ k (fun p hp => ?_) hk
        simp only [List.mem_cons, List.mem_singleton, List.not_mem_nil, or_false] at hp
        rcases hp with rfl | rfl | rfl | rfl <;> constructor <;> omega
      · exact (mem_CopyToItkData_offsets _ _ k).1 hk
    · rw [mem_GenerateBoundary_offsets]
      refine ⟨0, by simp, ?_, ?_⟩ <;>
        simp only [cornerAt, List.getD_cons_zero, List.getD_cons_succ] <;> omega
    · rw [mem_GenerateBoundary_offsets]
      refine ⟨2, by simp, ?_, ?_⟩ <;>
        simp only [cornerAt, List.getD_cons_zero, List.getD_cons_succ] <;> omega
    · rw [mem_CopyToItkData_offsets]
      constructor <;> omega

/-- The length with which an extractor allocates its two arrays: `bottom - top`
for the class SKEW_LEFT, `bottom - top + 1` for the two others. -/
theorem region_height {K : Type} [LinearOrderedField K] [FloorRing K]
    (F : FloatingPoint K)
    (orientation : MARKER_ORIENTATION) (corners : List (Point2d K))
    (newLeft newRight : IntArray) :
    (GenerateItkData.region F orientation corners newLeft newRight).height =
      if orientation = SKEW_LEFT then
        (GenerateItkData.region F orientation corners newLeft newRight).bottom
          - (GenerateItkData.region F orientation corners newLeft newRight).top
      else
        (GenerateItkData.region F orientation corners newLeft newRight).bottom
          - (GenerateItkData.region F orientation corners newLeft newRight).top + 1 := by
  cases orientation <;> rfl

/-- C22 (as the code behaves): for every list of four corners, classified and
reordered by `DetermineMarkerOrientation`, with `r` the region and `paths` the
two paths of the extractor of its class: the two arrays of `r` are those
`GenerateBoundary` fills for the two paths; for the classes ROTATED and
SKEW_RIGHT every offset written for either path and every offset read by
`CopyToItkData` is at least 0 and smaller than the allocated length `r.height`;
for the class SKEW_LEFT the allocated length itself is an offset written for
both paths and read by `CopyToItkData`, one past the end of both arrays. -/
theorem boundary_offsets {K : Type} [LinearOrderedField K] [FloorRing K]
    (F : FloatingPoint K)
    (corners : List (Point2d K)) (newLeft newRight : IntArray)
    (r : MarkerRegion) (paths : List (Point2d K) × List (Point2d K))
    (hlen : corners.length = 4)
    (hr : r = GenerateItkData.boundaries F corners newLeft newRight)
    (hpaths : paths = GenerateItkData.paths (DetermineMarkerOrientation corners).1
      (DetermineMarkerOrientation corners).2) :
    (r.leftBoundary = GenerateBoundary F newLeft paths.1 r.top false ∧
      r.rightBoundary = GenerateBoundary F newRight paths.2 r.top true) ∧
    ((DetermineMarkerOrientation corners).1 ≠ SKEW_LEFT →
      ∀ k, (k ∈ GenerateBoundary.offsets paths.1 r.top ∨
          k ∈ GenerateBoundary.offsets paths.2 r.top ∨
          k ∈ CopyToItkData.offsets r.top r.bottom) → 0 ≤ k ∧ k < r.height) ∧
    ((DetermineMarkerOrientation corners).1 = SKEW_LEFT →
      0 ≤ r.height ∧
      r.height ∈ GenerateBoundary.offsets paths.1 r.top ∧
      r.height ∈ GenerateBoundary.offsets paths.2 r.top ∧
      r.height ∈ CopyToItkData.offsets r.top r.bottom) := by
  obtain ⟨a, b, c, d, hcanon, hb, hc, hd⟩ := DetermineMarkerOrientation_top_min corners hlen
  have hclass := DetermineMarkerOrientation_class corners
  rw [hcanon] at hclass
  have hr' : r = GenerateItkData.region F (DetermineMarkerOrientation corners).1 [a, b, c, d]
      newLeft newRight := by
    rw [hr, GenerateItkData.boundaries, hcanon]
  rw [hcanon] at hpaths
  obtain ⟨h1, h2, h3, h4⟩ := canonical_offsets F a b c d hb hc hd newLeft newRight
    (DetermineMarkerOrientation corners).1 hclass
  have hh := region_height F (DetermineMarkerOrientation corners).1 [a, b, c, d] newLeft newRight
  rw [← hr'] at h1 h2 h3 h4 hh
  rw [← hpaths] at h1 h2 h3
  refine ⟨?_, fun hne => ?_, fun heq => ?_⟩
  · rw [hr', hpaths]
    exact region_paths F _ _ _ _
  · rw [if_neg hne] at hh
    intro k hk
    have := h1 k hk
    constructor <;> omega
  · rw [if_pos heq] at hh
    have h0 := (mem_CopyToItkData_offsets _ _ _).1 h4
    rw [hh]
    exact ⟨h0.1, h2, h3, h4⟩

/-- The sample quadrilateral is classified SKEW_LEFT and kept in its order. -/
theorem skewLeftQuad_class :
    DetermineMarkerOrientation skewLeftQuad = (SKEW_LEFT, skewLeftQuad) := by
  have hbt : (DetermineMarkerOrientation.bottomLoop skewLeftQuad).2 = 1 := by
    simp only [DetermineMarkerOrientation.bottomLoop, List.foldl_cons, List.foldl_nil,
      cornerAt, List.getD_cons_zero, List.getD_cons_succ, skewLeftQuad]
    norm_num [toInt]
  have ht := DetermineMarkerOrientation_top_first (⟨5, 0⟩ : Point2d ℚ) ⟨7, 10⟩ ⟨2, 8⟩ ⟨0, 2⟩
    (by norm_num) (by norm_num) (by norm_num)
  rw [show skewLeftQuad = [⟨5, 0⟩, ⟨7, 10⟩, ⟨2, 8⟩, ⟨0, 2⟩] from rfl] at hbt ⊢
  rw [ht, hbt]; rfl

/-- Rows and allocated length of the region of the sample quadrilateral. -/
theorem skewLeftQuad_region (newLeft newRight : IntArray) :
    (GenerateItkData.boundaries ieee754 skewLeftQuad newLeft newRight).top = 0 ∧
    (GenerateItkData.boundaries ieee754 skewLeftQuad newLeft newRight).bottom = 10 ∧
    (GenerateItkData.boundaries ieee754 skewLeftQuad newLeft newRight).height = 10 := by
  refine ⟨?_, ?_, ?_⟩
  all_goals
    unfold GenerateItkData.boundaries
    rw [skewLeftQuad_class]
    simp only [GenerateItkData.region, GenerateSkewLeftItkData.region, cornerAt,
      skewLeftQuad, List.getD_cons_zero, List.getD_cons_succ]
    norm_num [toInt]

/-- C22 (witness): the sample quadrilateral of class SKEW_LEFT.  Both arrays
are allocated with length 10, and offset 10 is written for the right path and
read by `CopyToItkData` at row 10. -/
theorem boundary_offsets_witness :
    (DetermineMarkerOrientation skewLeftQuad).1 = SKEW_LEFT ∧
    (GenerateItkData.boundaries ieee754 skewLeftQuad (fun _ => 0) (fun _ => 0)).height = 10 ∧
    (GenerateItkData.boundaries ieee754 skewLeftQuad (fun _ => 0) (fun _ => 0)).height ∈
      GenerateBoundary.offsets
        (GenerateItkData.paths (DetermineMarkerOrientation skewLeftQuad).1
          (DetermineMarkerOrientation skewLeftQuad).2).2
        (GenerateItkData.boundaries ieee754 skewLeftQuad (fun _ => 0) (fun _ => 0)).top ∧
    (GenerateItkData.boundaries ieee754 skewLeftQuad (fun _ => 0) (fun _ => 0)).height ∈
      CopyToItkData.offsets (GenerateItkData.boundaries ieee754 skewLeftQuad (fun _ => 0) (fun _ => 0)).top
        (GenerateItkData.boundaries ieee754 skewLeftQuad (fun _ => 0) (fun _ => 0)).bottom :=
  have hclass : (DetermineMarkerOrientation skewLeftQuad).1 = SKEW_LEFT := by
    rw [skewLeftQuad_class]
  have h := (boundary_offsets ieee754 skewLeftQuad (fun _ => 0) (fun _ => 0) _ _ rfl rfl rfl).2.2 hclass
  ⟨hclass, (skewLeftQuad_region _ _).2.2, h.2.2.1, h.2.2.2⟩

end PlusLib
